import Mathlib

/-!
# MPD: the PCM conversion pipeline

A shallow embedding of `src/pcm_convert.c` and `src/audio_format.c`.

Pointers to sample data are modelled by the bytes they point at (`List Nat`),
`NULL` by `none`.  Every function that receives a pointer to a piece of the
conversion state returns the new value of that piece.  The conversion kernels
(`pcm_format.c`, `pcm_channels.c`, `pcm_resample.c`, `pcm_byteswap.c`,
`pcm_pack.c`, `pcm_buffer.h`) are not under `src/`; the orchestrator is
therefore embedded over an arbitrary set of kernels (`pcm_kernels`), and every
theorem about it holds for all of them.  `calls` in the result of a call is a
record of the kernel calls it made, in order; it is not a value of the
program.

Machine integers: `size_t` is 64 bits and `unsigned` is 32 bits wide (LP64).
A C string that `snprintf` writes, or that is sent on, is modelled by its
bytes.
-/

namespace MPD

/-! ## audio_format.h / audio_format.c -/

/-- The values of `enum sample_format`, as enumerated by the switch of
`sample_format_to_string`. -/
inductive sample_format where
  | SAMPLE_FORMAT_UNDEFINED
  | SAMPLE_FORMAT_S8
  | SAMPLE_FORMAT_S16
  | SAMPLE_FORMAT_S24
  | SAMPLE_FORMAT_S24_P32
  | SAMPLE_FORMAT_S32
  deriving DecidableEq, Repr

open sample_format

/-- The fields of `struct audio_format` read by the code. -/
structure audio_format where
  sample_rate : Nat
  format : sample_format
  channels : Nat
  reverse_endian : Bool
  deriving DecidableEq, Repr

/-- Modelled from the spec: `audio_format_init` of audio_format.h, which is not
among the sources.  It receives a rate, a sample format and a channel count
only; the format it builds is immutable and in native byte order
(`reverse_endian` is false). -/
def audio_format_init (sample_rate : Nat) (format : sample_format)
    (channels : Nat) : audio_format :=
  { sample_rate := sample_rate, format := format, channels := channels,
    reverse_endian := false }

/-- Source: audio_format.c, `sample_format_to_string`. -/
def sample_format_to_string (format : sample_format) : String :=
  match format with
  | SAMPLE_FORMAT_UNDEFINED => "?"
  | SAMPLE_FORMAT_S8 => "8"
  | SAMPLE_FORMAT_S16 => "16"
  | SAMPLE_FORMAT_S24 => "24_3"
  | SAMPLE_FORMAT_S24_P32 => "24"
  | SAMPLE_FORMAT_S32 => "32"

/-- Modelled from the spec: `sample_format_size` of audio_format.h, which is
not among the sources: the width in bytes of one sample (8 bit: 1, 16 bit: 2,
packed 24 bit: 3, 24-in-32 and 32 bit: 4, undefined: 0). -/
def sample_format_size (format : sample_format) : Nat :=
  match format with
  | SAMPLE_FORMAT_S8 => 1
  | SAMPLE_FORMAT_S16 => 2
  | SAMPLE_FORMAT_S24 => 3
  | SAMPLE_FORMAT_S24_P32 => 4
  | SAMPLE_FORMAT_S32 => 4
  | SAMPLE_FORMAT_UNDEFINED => 0

/-- Modelled from the spec: `audio_format_frame_size` of audio_format.h, which
is not among the sources: a frame is `channels × sample_width` bytes. -/
def audio_format_frame_size (af : audio_format) : Nat :=
  sample_format_size af.format * af.channels

/-! ## The conversion state -/

/-- Modelled from the spec: `struct pcm_buffer` of pcm_buffer.h, which is not
among the sources: a reusable byte region. -/
structure pcm_buffer where
  buffer : List Nat
  deriving DecidableEq, Repr

/-- The members of `struct pcm_convert_state` named by pcm_convert.c.  The
resampler state `R` and the dither state `D` belong to kernels that are not
among the sources and stay abstract. -/
structure pcm_convert_state (R D : Type) where
  resample : R
  dither : D
  format_buffer : pcm_buffer
  pack_buffer : pcm_buffer
  channels_buffer : pcm_buffer
  byteswap_buffer : pcm_buffer

/-- The kernels called by pcm_convert.c.  Each has the arguments of its call in
the source, in the source order; an argument that is a pointer into the
conversion state is passed by value and its new value is returned.  A returned
sample pointer with its length output is `some (bytes, len)`, `NULL` is
`none`. -/
structure pcm_kernels (R D : Type) where
  /-- The call `pcm_convert_to_16(&format_buffer, &dither, src_format, src, src_size, &len)`. -/
  pcm_convert_to_16 : pcm_buffer → D → sample_format → List Nat → Nat →
    Option (List Nat × Nat) × pcm_buffer × D
  /-- The call `pcm_convert_to_24(&format_buffer, src_format, src, src_size, &len)`. -/
  pcm_convert_to_24 : pcm_buffer → sample_format → List Nat → Nat →
    Option (List Nat × Nat) × pcm_buffer
  /-- The call `pcm_convert_to_32(&format_buffer, src_format, src, src_size, &len)`. -/
  pcm_convert_to_32 : pcm_buffer → sample_format → List Nat → Nat →
    Option (List Nat × Nat) × pcm_buffer
  /-- The call `pcm_convert_channels_16(&channels_buffer, dest_channels, src_channels, buf, len, &len)`. -/
  pcm_convert_channels_16 : pcm_buffer → Nat → Nat → List Nat → Nat →
    Option (List Nat × Nat) × pcm_buffer
  /-- The call `pcm_convert_channels_24(&channels_buffer, dest_channels, src_channels, buf, len, &len)`. -/
  pcm_convert_channels_24 : pcm_buffer → Nat → Nat → List Nat → Nat →
    Option (List Nat × Nat) × pcm_buffer
  /-- The call `pcm_convert_channels_32(&channels_buffer, dest_channels, src_channels, buf, len, &len)`. -/
  pcm_convert_channels_32 : pcm_buffer → Nat → Nat → List Nat → Nat →
    Option (List Nat × Nat) × pcm_buffer
  /-- The call `pcm_resample_16(&resample, channels, src_rate, buf, len, dest_rate, &len, error_r)`;
  the second component is the error the kernel stored through `error_r`. -/
  pcm_resample_16 : R → Nat → Nat → List Nat → Nat → Nat →
    Option (List Nat × Nat) × Option String × R
  /-- The call `pcm_resample_24(&resample, channels, src_rate, buf, len, dest_rate, &len, error_r)`. -/
  pcm_resample_24 : R → Nat → Nat → List Nat → Nat → Nat →
    Option (List Nat × Nat) × Option String × R
  /-- The call `pcm_resample_32(&resample, channels, src_rate, buf, len, dest_rate, &len, error_r)`. -/
  pcm_resample_32 : R → Nat → Nat → List Nat → Nat → Nat →
    Option (List Nat × Nat) × Option String × R
  /-- The call `pcm_byteswap_16(&byteswap_buffer, buf, len)`; the source asserts
  that it does not return `NULL`. -/
  pcm_byteswap_16 : pcm_buffer → List Nat → Nat → List Nat × pcm_buffer
  /-- The call `pcm_byteswap_32(&byteswap_buffer, buf, len)`; the source asserts
  that it does not return `NULL`. -/
  pcm_byteswap_32 : pcm_buffer → List Nat → Nat → List Nat × pcm_buffer
  /-- The call `pcm_buffer_get(&pack_buffer, size)` of pcm_buffer.h, which is
  not under `src/`: the buffer once it holds at least `size` bytes, or `none`
  when the pointer it returns is `NULL`. -/
  pcm_buffer_get : pcm_buffer → Nat → Option pcm_buffer
  /-- The call `pcm_pack_24(dest, src, num_samples, reverse_endian)` with `dest`
  inside the given buffer: the bytes found at `dest` afterwards, and the
  buffer. -/
  pcm_pack_24 : pcm_buffer → List Nat → Nat → Bool → List Nat × pcm_buffer

/-- The kernel calls a conversion can make; `pcm_convert_result.calls` records
them in the order in which they are made. -/
inductive stage_call where
  | pcm_convert_to_16
  | pcm_convert_to_24
  | pcm_convert_to_32
  | pcm_convert_channels_16
  | pcm_convert_channels_24
  | pcm_convert_channels_32
  | pcm_resample_16
  | pcm_resample_24
  | pcm_resample_32
  | pcm_byteswap_16
  | pcm_byteswap_32
  | pcm_pack_24
  deriving DecidableEq, Repr

/-- What a call of `pcm_convert` (or of one of its static helpers) leaves
behind: the returned pointer (`none` is `NULL`), the value stored through
`dest_size_r` (`none`: nothing was stored), the error stored through
`error_r`, the conversion state, and the kernel calls made. -/
structure pcm_convert_result (R D : Type) where
  ret : Option (List Nat)
  dest_size : Option Nat
  error : Option String
  state : pcm_convert_state R D
  calls : List stage_call

/-- The `%u` rendering of an unsigned number. -/
def format_u (n : Nat) : String := toString n

variable {R D : Type}

/-! ## pcm_convert.c -/

/-- Source: pcm_convert.c, `pcm_convert_16`.  (The assertion on the
destination format holds at its only call site.) -/
def pcm_convert_16 (k : pcm_kernels R D) (state : pcm_convert_state R D)
    (src_format : audio_format) (src_buffer : List Nat) (src_size : Nat)
    (dest_format : audio_format) : pcm_convert_result R D :=
  match k.pcm_convert_to_16 state.format_buffer state.dither
      src_format.format src_buffer src_size with
  | (none, fb, d) =>
    { ret := none, dest_size := none,
      error := some ("Conversion from " ++
        sample_format_to_string src_format.format ++
        " to 16 bit is not implemented"),
      state := { state with format_buffer := fb, dither := d },
      calls := [stage_call.pcm_convert_to_16] }
  | (some (buf, len), fb, d) =>
    let state1 := { state with format_buffer := fb, dither := d }
    let calls1 := [stage_call.pcm_convert_to_16]
    let channels :=
      if src_format.channels ≠ dest_format.channels then
        let r := k.pcm_convert_channels_16 state1.channels_buffer
          dest_format.channels src_format.channels buf len
        (r.1, { state1 with channels_buffer := r.2 },
          calls1 ++ [stage_call.pcm_convert_channels_16])
      else (some (buf, len), state1, calls1)
    match channels with
    | (none, state2, calls2) =>
      { ret := none, dest_size := none,
        error := some ("Conversion from " ++ format_u src_format.channels ++
          " to " ++ format_u dest_format.channels ++
          " channels is not implemented"),
        state := state2, calls := calls2 }
    | (some (buf, len), state2, calls2) =>
      let resample :=
        if src_format.sample_rate ≠ dest_format.sample_rate then
          let r := k.pcm_resample_16 state2.resample dest_format.channels
            src_format.sample_rate buf len dest_format.sample_rate
          (r.1, r.2.1, { state2 with resample := r.2.2 },
            calls2 ++ [stage_call.pcm_resample_16])
        else (some (buf, len), none, state2, calls2)
      match resample with
      | (none, err, state3, calls3) =>
        { ret := none, dest_size := none, error := err,
          state := state3, calls := calls3 }
      | (some (buf, len), err, state3, calls3) =>
        if dest_format.reverse_endian then
          let r := k.pcm_byteswap_16 state3.byteswap_buffer buf len
          { ret := some r.1, dest_size := some len, error := err,
            state := { state3 with byteswap_buffer := r.2 },
            calls := calls3 ++ [stage_call.pcm_byteswap_16] }
        else
          { ret := some buf, dest_size := some len, error := err,
            state := state3, calls := calls3 }

/-- Source: pcm_convert.c, `pcm_convert_24`.  (The assertion on the
destination format holds at both call sites.) -/
def pcm_convert_24 (k : pcm_kernels R D) (state : pcm_convert_state R D)
    (src_format : audio_format) (src_buffer : List Nat) (src_size : Nat)
    (dest_format : audio_format) : pcm_convert_result R D :=
  match k.pcm_convert_to_24 state.format_buffer
      src_format.format src_buffer src_size with
  | (none, fb) =>
    { ret := none, dest_size := none,
      error := some ("Conversion from " ++
        sample_format_to_string src_format.format ++
        " to 24 bit is not implemented"),
      state := { state with format_buffer := fb },
      calls := [stage_call.pcm_convert_to_24] }
  | (some (buf, len), fb) =>
    let state1 := { state with format_buffer := fb }
    let calls1 := [stage_call.pcm_convert_to_24]
    let channels :=
      if src_format.channels ≠ dest_format.channels then
        let r := k.pcm_convert_channels_24 state1.channels_buffer
          dest_format.channels src_format.channels buf len
        (r.1, { state1 with channels_buffer := r.2 },
          calls1 ++ [stage_call.pcm_convert_channels_24])
      else (some (buf, len), state1, calls1)
    match channels with
    | (none, state2, calls2) =>
      { ret := none, dest_size := none,
        error := some ("Conversion from " ++ format_u src_format.channels ++
          " to " ++ format_u dest_format.channels ++
          " channels is not implemented"),
        state := state2, calls := calls2 }
    | (some (buf, len), state2, calls2) =>
      let resample :=
        if src_format.sample_rate ≠ dest_format.sample_rate then
          let r := k.pcm_resample_24 state2.resample dest_format.channels
            src_format.sample_rate buf len dest_format.sample_rate
          (r.1, r.2.1, { state2 with resample := r.2.2 },
            calls2 ++ [stage_call.pcm_resample_24])
        else (some (buf, len), none, state2, calls2)
      match resample with
      | (none, err, state3, calls3) =>
        { ret := none, dest_size := none, error := err,
          state := state3, calls := calls3 }
      | (some (buf, len), err, state3, calls3) =>
        if dest_format.reverse_endian then
          let r := k.pcm_byteswap_32 state3.byteswap_buffer buf len
          { ret := some r.1, dest_size := some len, error := err,
            state := { state3 with byteswap_buffer := r.2 },
            calls := calls3 ++ [stage_call.pcm_byteswap_32] }
        else
          { ret := some buf, dest_size := some len, error := err,
            state := state3, calls := calls3 }

/-- Source: pcm_convert.c, `pcm_convert_24_packed`.  `buffer_size` is the
local that `pcm_convert_24` stores the size in, which it does whenever it
returns a buffer (`pcm_convert_24_size_stored`); `num_samples` is an
`unsigned` and `num_samples * 3` an `unsigned` product, widened to `size_t`
afterwards.  The pointer of `pcm_buffer_get` is not tested: when it is `NULL`
the source still calls `pcm_pack_24`, stores the size through `dest_size_r`
and returns that `NULL`; the pack stage then has no region to write, and the
pack buffer is left as it was.  (A write of `pcm_pack_24` through `NULL` is
undefined in C; there is none when `num_samples` is 0.) -/
def pcm_convert_24_packed (k : pcm_kernels R D) (state : pcm_convert_state R D)
    (src_format : audio_format) (src_buffer : List Nat) (src_size : Nat)
    (dest_format : audio_format) : pcm_convert_result R D :=
  let audio_format := audio_format_init dest_format.sample_rate
    SAMPLE_FORMAT_S24_P32 dest_format.channels
  let r := pcm_convert_24 k state src_format src_buffer src_size audio_format
  match r.ret with
  | none =>
    { ret := none, dest_size := none, error := r.error,
      state := r.state, calls := r.calls }
  | some buffer =>
    let buffer_size := r.dest_size.getD 0
    let num_samples := (buffer_size / 4) % 2 ^ 32
    let dest_size := (num_samples * 3) % 2 ^ 32
    match k.pcm_buffer_get r.state.pack_buffer dest_size with
    | none =>
      { ret := none, dest_size := some dest_size, error := r.error,
        state := r.state, calls := r.calls ++ [stage_call.pcm_pack_24] }
    | some got =>
      let packed := k.pcm_pack_24 got buffer num_samples
        dest_format.reverse_endian
      { ret := some packed.1, dest_size := some dest_size, error := r.error,
        state := { r.state with pack_buffer := packed.2 },
        calls := r.calls ++ [stage_call.pcm_pack_24] }

/-- Source: pcm_convert.c, `pcm_convert_32`.  (The assertion on the
destination format holds at its only call site.) -/
def pcm_convert_32 (k : pcm_kernels R D) (state : pcm_convert_state R D)
    (src_format : audio_format) (src_buffer : List Nat) (src_size : Nat)
    (dest_format : audio_format) : pcm_convert_result R D :=
  match k.pcm_convert_to_32 state.format_buffer
      src_format.format src_buffer src_size with
  | (none, fb) =>
    { ret := none, dest_size := none,
      error := some ("Conversion from " ++
        sample_format_to_string src_format.format ++
        " to 24 bit is not implemented"),
      state := { state with format_buffer := fb },
      calls := [stage_call.pcm_convert_to_32] }
  | (some (buf, len), fb) =>
    let state1 := { state with format_buffer := fb }
    let calls1 := [stage_call.pcm_convert_to_32]
    let channels :=
      if src_format.channels ≠ dest_format.channels then
        let r := k.pcm_convert_channels_32 state1.channels_buffer
          dest_format.channels src_format.channels buf len
        (r.1, { state1 with channels_buffer := r.2 },
          calls1 ++ [stage_call.pcm_convert_channels_32])
      else (some (buf, len), state1, calls1)
    match channels with
    | (none, state2, calls2) =>
      { ret := none, dest_size := none,
        error := some ("Conversion from " ++ format_u src_format.channels ++
          " to " ++ format_u dest_format.channels ++
          " channels is not implemented"),
        state := state2, calls := calls2 }
    | (some (buf, len), state2, calls2) =>
      let resample :=
        if src_format.sample_rate ≠ dest_format.sample_rate then
          let r := k.pcm_resample_32 state2.resample dest_format.channels
            src_format.sample_rate buf len dest_format.sample_rate
          (r.1, r.2.1, { state2 with resample := r.2.2 },
            calls2 ++ [stage_call.pcm_resample_32])
        else (some (buf, len), none, state2, calls2)
      match resample with
      | (none, err, state3, calls3) =>
        { ret := none, dest_size := none, error := err,
          state := state3, calls := calls3 }
      | (some (buf, len), err, state3, calls3) =>
        if dest_format.reverse_endian then
          let r := k.pcm_byteswap_32 state3.byteswap_buffer buf len
          { ret := some r.1, dest_size := some len, error := err,
            state := { state3 with byteswap_buffer := r.2 },
            calls := calls3 ++ [stage_call.pcm_byteswap_32] }
        else
          { ret := some buf, dest_size := some len, error := err,
            state := state3, calls := calls3 }

/-- Source: pcm_convert.c, `pcm_convert`. -/
def pcm_convert (k : pcm_kernels R D) (state : pcm_convert_state R D)
    (src_format : audio_format) (src : List Nat) (src_size : Nat)
    (dest_format : audio_format) : pcm_convert_result R D :=
  match dest_format.format with
  | SAMPLE_FORMAT_S16 =>
    pcm_convert_16 k state src_format src src_size dest_format
  | SAMPLE_FORMAT_S24 =>
    pcm_convert_24_packed k state src_format src src_size dest_format
  | SAMPLE_FORMAT_S24_P32 =>
    pcm_convert_24 k state src_format src src_size dest_format
  | SAMPLE_FORMAT_S32 =>
    pcm_convert_32 k state src_format src src_size dest_format
  | _ =>
    { ret := none, dest_size := none,
      error := some ("PCM conversion to " ++
        sample_format_to_string dest_format.format ++
        " is not implemented"),
      state := state, calls := [] }

/-! ## The three chains seen as one

`pcm_convert_16`, `pcm_convert_24` and `pcm_convert_32` are the same text up to
the kernels they call and the depth named in the first error message.
`run_chain` is that text over the kernels of one chain; each of the three
functions is shown below to be an instance of it. -/

/-- The kernels of one chain, with the name under which each call is recorded
and the message of the sample-format error. -/
structure chain_kernels (R D : Type) where
  format : pcm_buffer → D → sample_format → List Nat → Nat →
    Option (List Nat × Nat) × pcm_buffer × D
  format_call : stage_call
  format_error : sample_format → String
  channels : pcm_buffer → Nat → Nat → List Nat → Nat →
    Option (List Nat × Nat) × pcm_buffer
  channels_call : stage_call
  resample : R → Nat → Nat → List Nat → Nat → Nat →
    Option (List Nat × Nat) × Option String × R
  resample_call : stage_call
  byteswap : pcm_buffer → List Nat → Nat → List Nat × pcm_buffer
  byteswap_call : stage_call

/-- The kernels `pcm_convert_16` calls. -/
def chain_16 (k : pcm_kernels R D) : chain_kernels R D where
  format := k.pcm_convert_to_16
  format_call := stage_call.pcm_convert_to_16
  format_error := fun f => "Conversion from " ++ sample_format_to_string f ++
    " to 16 bit is not implemented"
  channels := k.pcm_convert_channels_16
  channels_call := stage_call.pcm_convert_channels_16
  resample := k.pcm_resample_16
  resample_call := stage_call.pcm_resample_16
  byteswap := k.pcm_byteswap_16
  byteswap_call := stage_call.pcm_byteswap_16

/-- The kernels `pcm_convert_24` calls; its sample-format kernel is not handed
the dither state. -/
def chain_24 (k : pcm_kernels R D) : chain_kernels R D where
  format := fun fb d f b n =>
    ((k.pcm_convert_to_24 fb f b n).1, (k.pcm_convert_to_24 fb f b n).2, d)
  format_call := stage_call.pcm_convert_to_24
  format_error := fun f => "Conversion from " ++ sample_format_to_string f ++
    " to 24 bit is not implemented"
  channels := k.pcm_convert_channels_24
  channels_call := stage_call.pcm_convert_channels_24
  resample := k.pcm_resample_24
  resample_call := stage_call.pcm_resample_24
  byteswap := k.pcm_byteswap_32
  byteswap_call := stage_call.pcm_byteswap_32

/-- The kernels `pcm_convert_32` calls; its sample-format kernel is not handed
the dither state, and its first error message is the one of the source. -/
def chain_32 (k : pcm_kernels R D) : chain_kernels R D where
  format := fun fb d f b n =>
    ((k.pcm_convert_to_32 fb f b n).1, (k.pcm_convert_to_32 fb f b n).2, d)
  format_call := stage_call.pcm_convert_to_32
  format_error := fun f => "Conversion from " ++ sample_format_to_string f ++
    " to 24 bit is not implemented"
  channels := k.pcm_convert_channels_32
  channels_call := stage_call.pcm_convert_channels_32
  resample := k.pcm_resample_32
  resample_call := stage_call.pcm_resample_32
  byteswap := k.pcm_byteswap_32
  byteswap_call := stage_call.pcm_byteswap_32

/-- The common text of `pcm_convert_16`, `pcm_convert_24` and
`pcm_convert_32`. -/
def run_chain (c : chain_kernels R D) (state : pcm_convert_state R D)
    (src_format : audio_format) (src_buffer : List Nat) (src_size : Nat)
    (dest_format : audio_format) : pcm_convert_result R D :=
  match c.format state.format_buffer state.dither
      src_format.format src_buffer src_size with
  | (none, fb, d) =>
    { ret := none, dest_size := none,
      error := some (c.format_error src_format.format),
      state := { state with format_buffer := fb, dither := d },
      calls := [c.format_call] }
  | (some (buf, len), fb, d) =>
    let state1 := { state with format_buffer := fb, dither := d }
    let calls1 := [c.format_call]
    let channels :=
      if src_format.channels ≠ dest_format.channels then
        let r := c.channels state1.channels_buffer
          dest_format.channels src_format.channels buf len
        (r.1, { state1 with channels_buffer := r.2 },
          calls1 ++ [c.channels_call])
      else (some (buf, len), state1, calls1)
    match channels with
    | (none, state2, calls2) =>
      { ret := none, dest_size := none,
        error := some ("Conversion from " ++ format_u src_format.channels ++
          " to " ++ format_u dest_format.channels ++
          " channels is not implemented"),
        state := state2, calls := calls2 }
    | (some (buf, len), state2, calls2) =>
      let resample :=
        if src_format.sample_rate ≠ dest_format.sample_rate then
          let r := c.resample state2.resample dest_format.channels
            src_format.sample_rate buf len dest_format.sample_rate
          (r.1, r.2.1, { state2 with resample := r.2.2 },
            calls2 ++ [c.resample_call])
        else (some (buf, len), none, state2, calls2)
      match resample with
      | (none, err, state3, calls3) =>
        { ret := none, dest_size := none, error := err,
          state := state3, calls := calls3 }
      | (some (buf, len), err, state3, calls3) =>
        if dest_format.reverse_endian then
          let r := c.byteswap state3.byteswap_buffer buf len
          { ret := some r.1, dest_size := some len, error := err,
            state := { state3 with byteswap_buffer := r.2 },
            calls := calls3 ++ [c.byteswap_call] }
        else
          { ret := some buf, dest_size := some len, error := err,
            state := state3, calls := calls3 }

/-- The byte-order step of `run_chain`, from the buffer, length, error,
state and calls that reach it. -/
def chain_byteswap (c : chain_kernels R D) (dest_format : audio_format)
    (buf : List Nat) (len : Nat) (err : Option String)
    (state3 : pcm_convert_state R D) (calls3 : List stage_call) :
    pcm_convert_result R D :=
  if dest_format.reverse_endian then
    { ret := some (c.byteswap state3.byteswap_buffer buf len).1,
      dest_size := some len, error := err,
      state := { state3 with
        byteswap_buffer := (c.byteswap state3.byteswap_buffer buf len).2 },
      calls := calls3 ++ [c.byteswap_call] }
  else
    { ret := some buf, dest_size := some len, error := err,
      state := state3, calls := calls3 }

/-- The resampling step of `run_chain` and what follows it. -/
def chain_resample (c : chain_kernels R D)
    (src_format dest_format : audio_format) (buf : List Nat) (len : Nat)
    (state2 : pcm_convert_state R D) (calls2 : List stage_call) :
    pcm_convert_result R D :=
  if src_format.sample_rate ≠ dest_format.sample_rate then
    match c.resample state2.resample dest_format.channels
        src_format.sample_rate buf len dest_format.sample_rate with
    | (none, err, r) =>
      { ret := none, dest_size := none, error := err,
        state := { state2 with resample := r },
        calls := calls2 ++ [c.resample_call] }
    | (some (b, l), err, r) =>
      chain_byteswap c dest_format b l err { state2 with resample := r }
        (calls2 ++ [c.resample_call])
  else chain_byteswap c dest_format buf len none state2 calls2

/-- The channel step of `run_chain` and what follows it. -/
def chain_channels (c : chain_kernels R D)
    (src_format dest_format : audio_format) (buf : List Nat) (len : Nat)
    (state1 : pcm_convert_state R D) (calls1 : List stage_call) :
    pcm_convert_result R D :=
  if src_format.channels ≠ dest_format.channels then
    match c.channels state1.channels_buffer dest_format.channels
        src_format.channels buf len with
    | (none, cb) =>
      { ret := none, dest_size := none,
        error := some ("Conversion from " ++ format_u src_format.channels ++
          " to " ++ format_u dest_format.channels ++
          " channels is not implemented"),
        state := { state1 with channels_buffer := cb },
        calls := calls1 ++ [c.channels_call] }
    | (some (b, l), cb) =>
      chain_resample c src_format dest_format b l
        { state1 with channels_buffer := cb } (calls1 ++ [c.channels_call])
  else chain_resample c src_format dest_format buf len state1 calls1

/-- The chain a destination format selects in `pcm_convert`: the packed 24 bit
destination runs the 24-in-32 chain first. -/
def chain_of (k : pcm_kernels R D) (format : sample_format) :
    Option (chain_kernels R D) :=
  match format with
  | SAMPLE_FORMAT_S16 => some (chain_16 k)
  | SAMPLE_FORMAT_S24 => some (chain_24 k)
  | SAMPLE_FORMAT_S24_P32 => some (chain_24 k)
  | SAMPLE_FORMAT_S32 => some (chain_32 k)
  | _ => none

/-! ## The stage chain as the specification words it

"Each destination format selects a fixed ordered stage chain: sample-format
conversion, channel remix (only if the channel counts differ), resample (only
if the sample rates differ), byte-order correction (only if
`dest.reverse_endian`)"; a stage that is a no-op for the conversion passes its
input through unchanged. -/

/-- What one stage hands to the next: the samples, their length in bytes, the
conversion state, and the kernel calls made so far. -/
structure stage_data (R D : Type) where
  buf : List Nat
  len : Nat
  state : pcm_convert_state R D
  calls : List stage_call

/-- A stage applied only under a condition: otherwise its input is handed on
unchanged. -/
def spec_applied_when (cond : Bool)
    (stage : stage_data R D → Option (stage_data R D))
    (x : stage_data R D) : Option (stage_data R D) :=
  if cond then stage x else some x

/-- The sample-format conversion of the source buffer. -/
def spec_format_stage (c : chain_kernels R D) (src_format : sample_format)
    (state : pcm_convert_state R D) (src_buffer : List Nat) (src_size : Nat) :
    Option (stage_data R D) :=
  match c.format state.format_buffer state.dither src_format
      src_buffer src_size with
  | (some (buf, len), fb, d) =>
    some { buf := buf, len := len,
           state := { state with format_buffer := fb, dither := d },
           calls := [c.format_call] }
  | (none, _, _) => none

/-- The channel conversion from `src_channels` to `dest_channels`. -/
def spec_channels_stage (c : chain_kernels R D)
    (src_channels dest_channels : Nat) (x : stage_data R D) :
    Option (stage_data R D) :=
  match c.channels x.state.channels_buffer dest_channels src_channels
      x.buf x.len with
  | (some (buf, len), cb) =>
    some { buf := buf, len := len,
           state := { x.state with channels_buffer := cb },
           calls := x.calls ++ [c.channels_call] }
  | (none, _) => none

/-- The resampling from `src_rate` to `dest_rate` on `channels` channels. -/
def spec_resample_stage (c : chain_kernels R D)
    (channels src_rate dest_rate : Nat) (x : stage_data R D) :
    Option (stage_data R D) :=
  match c.resample x.state.resample channels src_rate x.buf x.len
      dest_rate with
  | (some (buf, len), _, r) =>
    some { buf := buf, len := len,
           state := { x.state with resample := r },
           calls := x.calls ++ [c.resample_call] }
  | (none, _, _) => none

/-- The byte swapping; it keeps the length and always succeeds. -/
def spec_byteswap_stage (c : chain_kernels R D) (x : stage_data R D) :
    Option (stage_data R D) :=
  some { buf := (c.byteswap x.state.byteswap_buffer x.buf x.len).1,
         len := x.len,
         state := { x.state with
           byteswap_buffer :=
             (c.byteswap x.state.byteswap_buffer x.buf x.len).2 },
         calls := x.calls ++ [c.byteswap_call] }

/-- The composition of the four stages in the order of the specification. -/
def spec_pipeline (c : chain_kernels R D) (state : pcm_convert_state R D)
    (src_format : audio_format) (src_buffer : List Nat) (src_size : Nat)
    (dest_format : audio_format) : Option (stage_data R D) :=
  (spec_format_stage c src_format.format state src_buffer src_size).bind
    fun x1 =>
  (spec_applied_when (src_format.channels != dest_format.channels)
    (spec_channels_stage c src_format.channels dest_format.channels) x1).bind
    fun x2 =>
  (spec_applied_when (src_format.sample_rate != dest_format.sample_rate)
    (spec_resample_stage c dest_format.channels src_format.sample_rate
      dest_format.sample_rate) x2).bind
    fun x3 =>
  spec_applied_when dest_format.reverse_endian (spec_byteswap_stage c) x3

/-! ## A concrete kernel set

The kernels of MPD are not under `src/`.  The kernels below are small
stand-ins over which the functions above can be evaluated; they serve to
exhibit concrete runs, and nothing is proved about MPD from them alone. -/

/-- Each 2-byte group reversed. -/
def example_swap_16 : List Nat → List Nat
  | a :: b :: rest => b :: a :: example_swap_16 rest
  | rest => rest

/-- Each 4-byte group reversed. -/
def example_swap_32 : List Nat → List Nat
  | a :: b :: c :: d :: rest => d :: c :: b :: a :: example_swap_32 rest
  | rest => rest

/-- Three bytes kept of each 4-byte group, in reverse order on request. -/
def example_pack_24 (reverse : Bool) : List Nat → List Nat
  | a :: b :: c :: _ :: rest =>
    (if reverse then [c, b, a] else [a, b, c]) ++ example_pack_24 reverse rest
  | _ => []

/-- Each sample of `width` bytes written twice (mono to stereo). -/
def example_duplicate (width : Nat) (buf : List Nat) : List Nat :=
  ((List.range (buf.length / width)).map fun i =>
    (buf.drop (i * width)).take width ++ (buf.drop (i * width)).take width).flatten

/-- The channel kernel of the example: mono to stereo only. -/
def example_channels (width : Nat) (b : pcm_buffer)
    (dest_channels src_channels : Nat) (buf : List Nat) (len : Nat) :
    Option (List Nat × Nat) × pcm_buffer :=
  if dest_channels = 2 ∧ src_channels = 1 then
    (some (example_duplicate width buf, len * 2),
      { buffer := example_duplicate width buf })
  else (none, b)

/-- The resampler of the example: it rejects a zero rate, and otherwise hands
the samples on and counts the call in its state. -/
def example_resample (r : Nat) (_channels src_rate : Nat) (buf : List Nat)
    (len dest_rate : Nat) : Option (List Nat × Nat) × Option String × Nat :=
  if src_rate = 0 ∨ dest_rate = 0 then (none, some "Invalid sample rate", r)
  else (some (buf, len), none, r + 1)

/-- The scratch buffer of the example: the region is allocated when more bytes
are asked for than it holds, and the pointer to it is returned; a buffer that
was never asked for a byte has no region yet, and its pointer is `NULL`. -/
def example_buffer_get (b : pcm_buffer) (size : Nat) : Option pcm_buffer :=
  if b.buffer.length < size then
    some { buffer := b.buffer ++ List.replicate (size - b.buffer.length) 0 }
  else if b.buffer.length = 0 then none
  else some b

/-- The example kernels, with a call counter for resampler state and a number
for dither state. -/
def example_kernels : pcm_kernels Nat Nat where
  pcm_convert_to_16 := fun fb d f src n =>
    match f with
    | SAMPLE_FORMAT_S16 => (some (src, n), fb, d)
    | SAMPLE_FORMAT_S8 =>
      (some ((src.map fun b => [0, b]).flatten, n * 2),
        { buffer := (src.map fun b => [0, b]).flatten }, d)
    | _ => (none, fb, d)
  pcm_convert_to_24 := fun fb f src n =>
    match f with
    | SAMPLE_FORMAT_S24_P32 => (some (src, n), fb)
    | _ => (none, fb)
  pcm_convert_to_32 := fun fb f src n =>
    match f with
    | SAMPLE_FORMAT_S32 => (some (src, n), fb)
    | _ => (none, fb)
  pcm_convert_channels_16 := example_channels 2
  pcm_convert_channels_24 := example_channels 4
  pcm_convert_channels_32 := example_channels 4
  pcm_resample_16 := example_resample
  pcm_resample_24 := example_resample
  pcm_resample_32 := example_resample
  pcm_byteswap_16 := fun _ buf _ =>
    (example_swap_16 buf, { buffer := example_swap_16 buf })
  pcm_byteswap_32 := fun _ buf _ =>
    (example_swap_32 buf, { buffer := example_swap_32 buf })
  pcm_buffer_get := example_buffer_get
  pcm_pack_24 := fun b src n reverse =>
    ((example_pack_24 reverse src).take (n * 3),
      { buffer := (example_pack_24 reverse src).take (n * 3) ++
          b.buffer.drop ((example_pack_24 reverse src).take (n * 3)).length })

/-- A fresh conversion state for the example kernels. -/
def example_state : pcm_convert_state Nat Nat :=
  { resample := 0, dither := 0, format_buffer := { buffer := [] },
    pack_buffer := { buffer := [] }, channels_buffer := { buffer := [] },
    byteswap_buffer := { buffer := [] } }

/-- A finished call agrees with an outcome of the specified pipeline: the same
buffer and size are returned, or neither returns one, and on success the
conversion state and the kernel calls are the same. -/
def result_matches (r : pcm_convert_result R D)
    (s : Option (stage_data R D)) : Prop :=
  r.ret = s.map (fun x => x.buf) ∧ r.dest_size = s.map (fun x => x.len) ∧
    ∀ x, s = some x → r.state = x.state ∧ r.calls = x.calls

/-- A finished call `r` is the finished call `p` followed by the byte swap
`swap`, recorded as `call`: if `p` returned no buffer, `r` is `p`; if `p`
returned a buffer and a size, `r` returns the swapped buffer and the same
size, after one more call. -/
def swapped_after (swap : pcm_buffer → List Nat → Nat → List Nat × pcm_buffer)
    (call : stage_call) (p r : pcm_convert_result R D) : Prop :=
  (p.ret = none → r = p) ∧
    ∀ buf len, p.ret = some buf → p.dest_size = some len →
      r = { ret := some (swap p.state.byteswap_buffer buf len).1,
            dest_size := some len, error := p.error,
            state := { p.state with
              byteswap_buffer := (swap p.state.byteswap_buffer buf len).2 },
            calls := p.calls ++ [call] }

/-- The pipeline of the specification up to and including the channel
stage. -/
def spec_after_channels (c : chain_kernels R D) (state : pcm_convert_state R D)
    (src_format : audio_format) (src_buffer : List Nat) (src_size : Nat)
    (dest_format : audio_format) : Option (stage_data R D) :=
  (spec_format_stage c src_format.format state src_buffer src_size).bind
    (spec_applied_when (src_format.channels != dest_format.channels)
      (spec_channels_stage c src_format.channels dest_format.channels))

/-- The pipeline of the specification up to and including the resample
stage: every stage that can return `NULL`. -/
def spec_after_resample (c : chain_kernels R D) (state : pcm_convert_state R D)
    (src_format : audio_format) (src_buffer : List Nat) (src_size : Nat)
    (dest_format : audio_format) : Option (stage_data R D) :=
  (spec_after_channels c state src_format src_buffer src_size dest_format).bind
    (spec_applied_when (src_format.sample_rate != dest_format.sample_rate)
      (spec_resample_stage c dest_format.channels src_format.sample_rate
        dest_format.sample_rate))

/-- Each 4-byte little-endian sample shifted right by 8 bits: the lowest byte
dropped, the sign byte repeated on top. -/
def example_shift_right_8 : List Nat → List Nat
  | _ :: b :: c :: d :: rest =>
    b :: c :: d :: (if 128 ≤ d then 255 else 0) :: example_shift_right_8 rest
  | _ => []

/-- The example kernels with a 24-in-32 conversion that also takes 32 bit
sources. -/
def example_kernels_narrowing : pcm_kernels Nat Nat :=
  { example_kernels with
    pcm_convert_to_24 := fun fb f src n =>
      match f with
      | SAMPLE_FORMAT_S24_P32 => (some (src, n), fb)
      | SAMPLE_FORMAT_S32 =>
        (some (example_shift_right_8 src, n),
          { buffer := example_shift_right_8 src })
      | _ => (none, fb) }

/-! ## audio_format.c: the format-description string -/

/-- Source: audio_format.c, `REVERSE_ENDIAN_SUFFIX`; the byte order of the
host (`G_BYTE_ORDER == G_BIG_ENDIAN`) is a parameter. -/
def REVERSE_ENDIAN_SUFFIX (big_endian : Bool) : String :=
  if big_endian then "_le" else "_be"

/-- The bytes of a character in UTF-8, the encoding of the texts of the
program: one byte for an ASCII character, two to four bytes otherwise. -/
def utf8_bytes (c : Char) : List Nat :=
  if c.toNat < 0x80 then [c.toNat]
  else if c.toNat < 0x800 then [0xC0 + c.toNat / 64, 0x80 + c.toNat % 64]
  else if c.toNat < 0x10000 then
    [0xE0 + c.toNat / 4096, 0x80 + c.toNat / 64 % 64, 0x80 + c.toNat % 64]
  else
    [0xF0 + c.toNat / 262144, 0x80 + c.toNat / 4096 % 64,
      0x80 + c.toNat / 64 % 64, 0x80 + c.toNat % 64]

/-- The bytes of the C string with the given text, without the terminating
zero. -/
def c_bytes (s : String) : List Nat := s.data.flatMap utf8_bytes

/-- Whether a text has ASCII characters only, one byte each. -/
def is_ascii (s : String) : Bool := s.data.all fun c => c.toNat < 0x80

/-- The text of a C string whose bytes are all ASCII: each byte is its
character. -/
def c_string (bytes : List Nat) : String := ⟨bytes.map Char.ofNat⟩

/-- What `snprintf(buffer, size, ...)` leaves in a buffer of `size` > 0 bytes
when the formatted output is the bytes `text`: at most `size - 1` bytes of it,
before the terminating zero. -/
def snprintf (size : Nat) (text : List Nat) : List Nat :=
  text.take (size - 1)

/-- Source: audio_format.c, `audio_format_to_string`.  `buffer_size` is
`sizeof(s->buffer)`; `struct audio_format_string` is declared in
audio_format.h, which is not under `src/`.  The formatted output is ASCII
(decimal digits, the names of `sample_format_to_string`, the suffix and the
colons), so the bytes left in the buffer are given as their text. -/
def audio_format_to_string (big_endian : Bool) (buffer_size : Nat)
    (af : audio_format) : String :=
  c_string (snprintf buffer_size
    (c_bytes
      (format_u af.sample_rate ++ ":" ++ sample_format_to_string af.format ++
        (if af.reverse_endian then REVERSE_ENDIAN_SUFFIX big_endian else "") ++
        ":" ++ format_u af.channels)))

/-! ## output/winmm_output_plugin.c -/

/-- The fields of `WAVEHDR` the plugin uses. -/
structure WAVEHDR where
  lpData : List Nat
  dwBufferLength : Nat
  dwFlags : Nat
  deriving DecidableEq, Repr

/-- Source: winmm_output_plugin.c, `struct winmm_buffer`. -/
structure winmm_buffer where
  buffer : pcm_buffer
  hdr : WAVEHDR
  deriving DecidableEq, Repr

/-- Source: winmm_output_plugin.c, `struct winmm_output`; handles are
numbers, `event` is `none` for a `NULL` handle. -/
structure winmm_output where
  device_id : Nat
  handle : Nat
  event : Option Nat
  buffers : List winmm_buffer
  next_buffer : Nat
  deriving DecidableEq, Repr

/-- The `WAVEFORMATEX` that `winmm_output_open` fills in. -/
structure WAVEFORMATEX where
  wFormatTag : Nat
  nChannels : Nat
  nSamplesPerSec : Nat
  nAvgBytesPerSec : Nat
  nBlockAlign : Nat
  wBitsPerSample : Nat
  cbSize : Nat
  deriving DecidableEq, Repr

/-- The Windows calls `winmm_output_open` makes: `CreateEvent` gives a handle
or `NULL`, `waveOutOpen` gives a result code and a handle for a device and a
format; `WAVE_FORMAT_PCM` and `MMSYSERR_NOERROR` are constants of the Windows
headers. -/
structure winmm_api where
  CreateEvent : Option Nat
  waveOutOpen : Nat → WAVEFORMATEX → Nat × Nat
  WAVE_FORMAT_PCM : Nat
  MMSYSERR_NOERROR : Nat

/-- Modelled from the spec: `audio_format_sample_size` of audio_format.h, which
is not under `src/`: the width in bytes of one sample of the format. -/
def audio_format_sample_size (af : audio_format) : Nat :=
  sample_format_size af.format

/-- What `winmm_output_open` leaves behind: its return value, the output
object, the audio format of the caller, and the error. -/
structure winmm_open_result where
  ret : Bool
  wo : winmm_output
  audio_format : audio_format
  error : Option String
  deriving DecidableEq, Repr

/-- Source: winmm_output_plugin.c, `winmm_output_open`.  `WORD` fields are
16 bits and `DWORD` fields 32 bits wide. -/
def winmm_output_open (api : winmm_api) (wo : winmm_output)
    (audio_format : audio_format) : winmm_open_result :=
  let wo := { wo with event := api.CreateEvent }
  match wo.event with
  | none =>
    { ret := false, wo := wo, audio_format := audio_format,
      error := some "CreateEvent() failed" }
  | some _ =>
    let audio_format :=
      match audio_format.format with
      | SAMPLE_FORMAT_S8 => audio_format
      | SAMPLE_FORMAT_S16 => audio_format
      | SAMPLE_FORMAT_S24 => { audio_format with format := SAMPLE_FORMAT_S16 }
      | SAMPLE_FORMAT_S24_P32 =>
        { audio_format with format := SAMPLE_FORMAT_S16 }
      | SAMPLE_FORMAT_S32 => { audio_format with format := SAMPLE_FORMAT_S16 }
      | SAMPLE_FORMAT_UNDEFINED =>
        { audio_format with format := SAMPLE_FORMAT_S16 }
    let audio_format :=
      if audio_format.channels > 2 then { audio_format with channels := 2 }
      else audio_format
    let nSamplesPerSec := audio_format.sample_rate % 2 ^ 32
    let nBlockAlign := audio_format_frame_size audio_format % 2 ^ 16
    let format : WAVEFORMATEX :=
      { wFormatTag := api.WAVE_FORMAT_PCM,
        nChannels := audio_format.channels % 2 ^ 16,
        nSamplesPerSec := nSamplesPerSec,
        nBlockAlign := nBlockAlign,
        nAvgBytesPerSec := (nSamplesPerSec * nBlockAlign) % 2 ^ 32,
        wBitsPerSample := (audio_format_sample_size audio_format * 8) % 2 ^ 16,
        cbSize := 0 }
    let result := api.waveOutOpen wo.device_id format
    let wo := { wo with handle := result.2 }
    if result.1 ≠ api.MMSYSERR_NOERROR then
      { ret := false, wo := wo, audio_format := audio_format,
        error := some "waveOutOpen() failed" }
    else
      let wo := { wo with
        buffers := List.replicate 8
          { buffer := { buffer := [] },
            hdr := { lpData := [], dwBufferLength := 0, dwFlags := 0 } } }
      let wo := { wo with next_buffer := 0 }
      { ret := true, wo := wo, audio_format := audio_format, error := none }

/-! ## output/roar_plugin.c -/

/-- The fields of `struct roar_audio_info` the plugin sets. -/
structure roar_audio_info where
  rate : Nat
  bits : Nat
  channels : Nat
  codec : Nat
  deriving DecidableEq, Repr

/-- The fields of `struct roar` that `roar_open` uses; `vss` is `none` for a
`NULL` stream. -/
structure roar where
  vss : Option Nat
  err : Nat
  role : Nat
  info : roar_audio_info
  alive : Bool
  deriving DecidableEq, Repr

/-- The libroar calls `roar_open` makes: the result of `roar_simple_connect`,
the stream and error code of `roar_vs_new_from_con`, the result of
`roar_vs_stream` for a stream info; `ROAR_ERROR_NONE` and `ROAR_CODEC_PCM_S`
are constants of the libroar headers. -/
structure roar_api where
  roar_simple_connect : Int
  roar_vs_new_from_con : Option Nat × Nat
  roar_vs_stream : roar_audio_info → Int
  ROAR_ERROR_NONE : Nat
  ROAR_CODEC_PCM_S : Nat

/-- What `roar_open` leaves behind: its return value, the output object, the
audio format of the caller, and the error. -/
structure roar_open_result where
  ret : Bool
  self : roar
  audio_format : audio_format
  error : Option String
  deriving DecidableEq, Repr

/-- Source: roar_plugin.c, `roar_open` (the mutex is held throughout and is
left out). -/
def roar_open (api : roar_api) (self : roar) (audio_format : audio_format) :
    roar_open_result :=
  if api.roar_simple_connect < 0 then
    { ret := false, self := self, audio_format := audio_format,
      error := some "Failed to connect to Roar server" }
  else
    let self := { self with vss := api.roar_vs_new_from_con.1,
                            err := api.roar_vs_new_from_con.2 }
    if self.vss = none ∨ self.err ≠ api.ROAR_ERROR_NONE then
      { ret := false, self := self, audio_format := audio_format,
        error := some "Failed to connect to server" }
    else
      let info : roar_audio_info :=
        { self.info with rate := audio_format.sample_rate,
                         channels := audio_format.channels,
                         codec := api.ROAR_CODEC_PCM_S }
      let switched : Nat × MPD.audio_format :=
        match audio_format.format with
        | SAMPLE_FORMAT_S8 => (8, audio_format)
        | SAMPLE_FORMAT_S16 => (16, audio_format)
        | SAMPLE_FORMAT_S24 => (24, audio_format)
        | SAMPLE_FORMAT_S24_P32 =>
          (32, { audio_format with format := SAMPLE_FORMAT_S32 })
        | SAMPLE_FORMAT_S32 => (32, audio_format)
        | _ => (16, { audio_format with format := SAMPLE_FORMAT_S16 })
      let self := { self with info := { info with bits := switched.1 } }
      let audio_format := { switched.2 with reverse_endian := false }
      if api.roar_vs_stream self.info < 0 then
        { ret := false, self := self, audio_format := audio_format,
          error := some "Failed to start stream" }
      else
        { ret := true, self := { self with alive := true },
          audio_format := audio_format, error := none }

/-! ## archive_list.c -/

/-- The members of `struct archive_plugin` that archive_list.c reads
(archive_plugin.h is not under `src/`): the name, the suffix list (`none` for
`NULL`), what the `init` callback returns (`none` for a `NULL` callback), and
whether there is a `finish` callback. -/
structure archive_plugin where
  name : String
  suffixes : Option (List String)
  init : Option Bool
  finish : Bool
  deriving DecidableEq, Repr

/-- The loop of `archive_plugin_from_suffix` from index `i` on, over the
entries of `archive_plugins` that are left before the terminating `NULL`. -/
def archive_plugin_from_suffix_loop
    (string_array_contains : List String → String → Bool)
    (archive_plugins_enabled : List Bool) (suffix : String) :
    List archive_plugin → Nat → Option archive_plugin
  | [], _ => none
  | plugin :: rest, i =>
    if archive_plugins_enabled.getD i false = true ∧
        plugin.suffixes ≠ none ∧
        string_array_contains (plugin.suffixes.getD []) suffix = true then
      some plugin
    else
      archive_plugin_from_suffix_loop string_array_contains
        archive_plugins_enabled suffix rest (i + 1)

/-- Source: archive_list.c, `archive_plugin_from_suffix`.  The table
`archive_plugins` depends on the build configuration and is a parameter, as is
`string_array_contains` of string_util.h; `archive_plugins_enabled` is the
static array of flags. -/
def archive_plugin_from_suffix
    (string_array_contains : List String → String → Bool)
    (archive_plugins : List archive_plugin)
    (archive_plugins_enabled : List Bool) (suffix : Option String) :
    Option archive_plugin :=
  match suffix with
  | none => none
  | some suffix =>
    archive_plugin_from_suffix_loop string_array_contains
      archive_plugins_enabled suffix archive_plugins 0

/-- The plugin at index `i` of the table answers for `suffix`: it is enabled,
has a suffix list, and `string_array_contains` finds the suffix in it. -/
def archive_suffix_match
    (string_array_contains : List String → String → Bool)
    (archive_plugins : List archive_plugin)
    (archive_plugins_enabled : List Bool) (suffix : String) (i : Nat) : Prop :=
  archive_plugins_enabled.getD i false = true ∧
    ∃ plugin l, archive_plugins[i]? = some plugin ∧
      plugin.suffixes = some l ∧ string_array_contains l suffix = true

/-! ## The kernels, modelled from the specification

The conversion kernels are not under `src/`.  What follows models them from
sections 4.2 to 4.6 of the specification: the claims about sample values are
settled against these definitions.  Samples are signed integers stored in
two's complement; the byte order of the host is the parameter `big_endian`. -/

/-- The groups of `n` consecutive elements of a list, in order; elements left
over at the end are dropped. -/
def frames {α : Type} (n : Nat) (l : List α) : List (List α) :=
  (List.range (l.length / n)).map fun i => (l.drop (i * n)).take n

/-- The number whose little-endian bytes are given. -/
def le_value : List Nat → Nat
  | [] => 0
  | b :: bs => b % 256 + 256 * le_value bs

/-- The `w` little-endian bytes of a number. -/
def le_bytes : Nat → Nat → List Nat
  | 0, _ => []
  | w + 1, n => n % 256 :: le_bytes w (n / 256)

/-- The value of one sample from its bytes in host order, two's complement on
`8 * bytes.length` bits. -/
def decode_sample (big_endian : Bool) (bytes : List Nat) : Int :=
  let n := le_value (if big_endian then bytes.reverse else bytes)
  if n < 2 ^ (8 * bytes.length - 1) then (n : Int)
  else (n : Int) - 2 ^ (8 * bytes.length)

/-- The `w` bytes of one sample in host order, two's complement. -/
def encode_sample (w : Nat) (big_endian : Bool) (v : Int) : List Nat :=
  let bytes := le_bytes w (v % 2 ^ (8 * w)).toNat
  if big_endian then bytes.reverse else bytes

/-- The sample values held by a buffer of samples of `w` bytes. -/
def pcm_samples (w : Nat) (big_endian : Bool) (bytes : List Nat) : List Int :=
  (frames w bytes).map (decode_sample big_endian)

/-- The buffer that holds the given sample values in `w` bytes each. -/
def pcm_bytes (w : Nat) (big_endian : Bool) (values : List Int) : List Nat :=
  (values.map (encode_sample w big_endian)).flatten

/-- A stateful pass over a stream: `step` turns the state and one element
into the next state and the output for that element. -/
def stream_fold {σ α β : Type} (step : σ → α → σ × List β) :
    σ → List α → σ × List β
  | s, [] => (s, [])
  | s, x :: xs =>
    ((stream_fold step (step s x).1 xs).1,
      (step s x).2 ++ (stream_fold step (step s x).1 xs).2)

/-- The precision in bits of the samples of a format. -/
def sample_format_bits (format : sample_format) : Nat :=
  match format with
  | SAMPLE_FORMAT_UNDEFINED => 0
  | SAMPLE_FORMAT_S8 => 8
  | SAMPLE_FORMAT_S16 => 16
  | SAMPLE_FORMAT_S24 => 24
  | SAMPLE_FORMAT_S24_P32 => 24
  | SAMPLE_FORMAT_S32 => 32

/-- The width in bytes of the samples a chain of the given depth works on:
16 bit samples take 2 bytes, 24-in-32 and 32 bit samples take 4. -/
def chain_sample_width (bits : Nat) : Nat :=
  if bits = 16 then 2 else 4

/-- Modelled from the spec: the dithering of section 4.2, not under `src/`.
One step of the 24 to 16 bit reduction with error feedback: the accumulator
is added to the sample, the upper bits are kept (clipped at the top of the
16 bit range) and the truncated remainder is carried forward. -/
def dither_step (accumulator : Int) (v : Int) : Int × List Int :=
  ((v + accumulator) % 256, [min 32767 ((v + accumulator) / 256)])

/-- Modelled from the spec: the per-sample rules of the Sample-Format
Converter (section 4.2), not under `src/`.  Widening is an exact left shift
(8 to 16: by 8); narrowing to 16 bits goes through 24 bits and dithers;
narrowing 32 to 24 bits is an arithmetic right shift. -/
def spec_convert_samples (bits : Nat) (format : sample_format)
    (dither : Int) (values : List Int) : Int × List Int :=
  if sample_format_bits format ≤ bits then
    (dither, values.map fun v => v * 2 ^ (bits - sample_format_bits format))
  else if bits = 16 then
    stream_fold dither_step dither
      (values.map fun v => v / 2 ^ (sample_format_bits format - 24))
  else
    (dither, values.map fun v => v / 2 ^ (sample_format_bits format - bits))

/-- Modelled from the spec: the Sample-Format Converter (section 4.2,
pcm_format.c is not under `src/`) on a buffer of bytes, for a source format
that is not undefined: a source that already has the destination encoding is
passed through untouched (16 to 16: identity), every other one is decoded
(packed 24 bit: unpacked from 3 bytes), converted and stored in
`chain_sample_width bits` bytes per sample. -/
def spec_format_bytes (big_endian : Bool) (bits : Nat)
    (format : sample_format) (dither : Int) (bytes : List Nat) :
    Int × List Nat :=
  if sample_format_bits format = bits ∧
      sample_format_size format = chain_sample_width bits then
    (dither, bytes)
  else
    ((spec_convert_samples bits format dither
        (pcm_samples (sample_format_size format) big_endian bytes)).1,
      pcm_bytes (chain_sample_width bits) big_endian
        (spec_convert_samples bits format dither
          (pcm_samples (sample_format_size format) big_endian bytes)).2)

/-- Modelled from the spec: a sample-format kernel (`pcm_convert_to_16`,
`pcm_convert_to_24`, `pcm_convert_to_32` of pcm_format.c, not under `src/`):
an undefined source format is a hard error; a pass-through returns the source
pointer and leaves the buffer alone; otherwise the result is in the
buffer. -/
def spec_pcm_convert_to (big_endian : Bool) (bits : Nat) (buffer : pcm_buffer)
    (dither : Int) (src_format : sample_format) (src : List Nat)
    (src_size : Nat) : Option (List Nat × Nat) × pcm_buffer × Int :=
  if src_format = SAMPLE_FORMAT_UNDEFINED then (none, buffer, dither)
  else if sample_format_bits src_format = bits ∧
      sample_format_size src_format = chain_sample_width bits then
    (some (src, src_size), buffer, dither)
  else
    (some ((spec_format_bytes big_endian bits src_format dither
        (src.take src_size)).2,
      (spec_format_bytes big_endian bits src_format dither
        (src.take src_size)).2.length),
      { buffer := (spec_format_bytes big_endian bits src_format dither
        (src.take src_size)).2 },
      (spec_format_bytes big_endian bits src_format dither
        (src.take src_size)).1)

/-- Modelled from the spec: the rules of the Channel Remixer (section 4.3) on
sample values: mono to stereo duplicates the sample, stereo to mono averages
the two channels, rounding half up (the policy the specification recommends);
the specification does not determine its "general fold-down/fan-out rule", so
every other pair has no rule here. -/
def spec_remix (dest_channels src_channels : Nat) (values : List Int) :
    Option (List Int) :=
  if src_channels = 1 ∧ dest_channels = 2 then
    some (values.flatMap fun v => [v, v])
  else if src_channels = 2 ∧ dest_channels = 1 then
    some ((frames 2 values).map fun f => (f.sum + 1) / 2)
  else none

/-- Modelled from the spec: a channel kernel (`pcm_convert_channels_16`, `_24`,
`_32` of pcm_channels.c, not under `src/`) for samples of `w` bytes: equal
channel counts pass through untouched, a pair without a rule is a hard
error. -/
def spec_pcm_convert_channels (big_endian : Bool) (w : Nat)
    (buffer : pcm_buffer) (dest_channels src_channels : Nat)
    (src : List Nat) (src_size : Nat) :
    Option (List Nat × Nat) × pcm_buffer :=
  if dest_channels = src_channels then (some (src, src_size), buffer)
  else
    match spec_remix dest_channels src_channels
        (pcm_samples w big_endian (src.take src_size)) with
    | none => (none, buffer)
    | some values =>
      (some (pcm_bytes w big_endian values,
          (pcm_bytes w big_endian values).length),
        { buffer := pcm_bytes w big_endian values })

/-- Modelled from the spec: the state of the Resampler (section 4.4): the
fractional sample position, counted in units of `1 / dest_rate` of a source
frame, and the last source frame, one value per channel. -/
structure spec_resample_state where
  position : Nat
  history : List Int
  deriving DecidableEq, Repr

/-- Modelled from the spec: one source frame through the Resampler (section
4.4, pcm_resample.c is not under `src/`): every output instant that falls
between the previous source frame and this one is emitted, each channel
interpolated linearly between its history and its new value; the position
moves on by one source frame. -/
def resample_frame (src_rate dest_rate : Nat) (s : spec_resample_state)
    (frame : List Int) : spec_resample_state × List Int :=
  let count :=
    if s.position < dest_rate then (dest_rate - 1 - s.position) / src_rate + 1
    else 0
  ({ position := s.position + count * src_rate - dest_rate, history := frame },
    (List.range count).flatMap fun j =>
      List.zipWith
        (fun h x => h + (x - h) * ((s.position + j * src_rate : Nat) : Int)
          / (dest_rate : Int))
        (s.history ++ List.replicate (frame.length - s.history.length) 0)
        frame)

/-- Modelled from the spec: a resample kernel (`pcm_resample_16`, `_24`, `_32`
of pcm_resample.c, not under `src/`) for samples of `w` bytes: a zero rate is
a hard error; otherwise the frames of the buffer go through the stateful
resampler one after another. -/
def spec_pcm_resample (big_endian : Bool) (w : Nat) (state : spec_resample_state)
    (channels src_rate : Nat) (src : List Nat) (src_size dest_rate : Nat) :
    Option (List Nat × Nat) × Option String × spec_resample_state :=
  if src_rate = 0 ∨ dest_rate = 0 then
    (none, some "Invalid sample rate", state)
  else
    (some (pcm_bytes w big_endian
        (stream_fold (resample_frame src_rate dest_rate) state
          (frames channels (pcm_samples w big_endian (src.take src_size)))).2,
      (pcm_bytes w big_endian
        (stream_fold (resample_frame src_rate dest_rate) state
          (frames channels
            (pcm_samples w big_endian (src.take src_size)))).2).length),
      none,
      (stream_fold (resample_frame src_rate dest_rate) state
        (frames channels (pcm_samples w big_endian (src.take src_size)))).1)

/-- Modelled from the spec: the Byte-Order Corrector (section 4.5,
pcm_byteswap.c is not under `src/`): the bytes of each sample of `w` bytes
reversed. -/
def spec_byteswap (w : Nat) (bytes : List Nat) : List Nat :=
  ((frames w bytes).map List.reverse).flatten

/-- Modelled from the spec: `pcm_byteswap_16` and `pcm_byteswap_32`. -/
def spec_pcm_byteswap (w : Nat) (_buffer : pcm_buffer) (src : List Nat)
    (len : Nat) : List Nat × pcm_buffer :=
  (spec_byteswap w (src.take len), { buffer := spec_byteswap w (src.take len) })

/-- Modelled from the spec: the Bit-Packing Stage (section 4.6, pcm_pack.c is
not under `src/`) on `num_samples` samples of 4 bytes: each is stored in
3 bytes, the padding byte dropped, in host order or, on request, in the
reverse order. -/
def spec_pack_24 (big_endian : Bool) (src : List Nat) (num_samples : Nat)
    (reverse_endian : Bool) : List Nat :=
  (((frames 4 src).take num_samples).map fun sample =>
    encode_sample 3 (big_endian != reverse_endian)
      (decode_sample big_endian sample)).flatten

/-- Modelled from the spec: `pcm_buffer_get` of pcm_buffer.h, not under
`src/`: the region grows when the required size exceeds its capacity and never
shrinks.  The specification has no scratch buffer without a region, so the
kernels modelled from it always hand a region on. -/
def spec_pcm_buffer_get (buffer : pcm_buffer) (size : Nat) : pcm_buffer :=
  if buffer.buffer.length < size then
    { buffer := buffer.buffer ++
        List.replicate (size - buffer.buffer.length) 0 }
  else buffer

/-- The kernels modelled from the specification, for a host of the given byte
order; the dither state is the error-feedback accumulator. -/
def spec_kernels (big_endian : Bool) : pcm_kernels spec_resample_state Int where
  pcm_convert_to_16 := spec_pcm_convert_to big_endian 16
  pcm_convert_to_24 := fun buffer format src n =>
    ((spec_pcm_convert_to big_endian 24 buffer 0 format src n).1,
      (spec_pcm_convert_to big_endian 24 buffer 0 format src n).2.1)
  pcm_convert_to_32 := fun buffer format src n =>
    ((spec_pcm_convert_to big_endian 32 buffer 0 format src n).1,
      (spec_pcm_convert_to big_endian 32 buffer 0 format src n).2.1)
  pcm_convert_channels_16 := spec_pcm_convert_channels big_endian 2
  pcm_convert_channels_24 := spec_pcm_convert_channels big_endian 4
  pcm_convert_channels_32 := spec_pcm_convert_channels big_endian 4
  pcm_resample_16 := spec_pcm_resample big_endian 2
  pcm_resample_24 := spec_pcm_resample big_endian 4
  pcm_resample_32 := spec_pcm_resample big_endian 4
  pcm_byteswap_16 := spec_pcm_byteswap 2
  pcm_byteswap_32 := spec_pcm_byteswap 4
  pcm_buffer_get := fun buffer size => some (spec_pcm_buffer_get buffer size)
  pcm_pack_24 := fun buffer src num_samples reverse_endian =>
    (spec_pack_24 big_endian src num_samples reverse_endian,
      { buffer := spec_pack_24 big_endian src num_samples reverse_endian ++
          buffer.buffer.drop
            (spec_pack_24 big_endian src num_samples reverse_endian).length })

/-- A fresh conversion state for the kernels modelled from the
specification. -/
def spec_state : pcm_convert_state spec_resample_state Int :=
  { resample := { position := 0, history := [] }, dither := 0,
    format_buffer := { buffer := [] }, pack_buffer := { buffer := [] },
    channels_buffer := { buffer := [] }, byteswap_buffer := { buffer := [] } }

/-- The channel stage of the model on a buffer of samples of `w` bytes, for
a pair of channel counts that has a rule. -/
def spec_remix_bytes (big_endian : Bool) (w : Nat)
    (dest_channels src_channels : Nat) (bytes : List Nat) : List Nat :=
  if dest_channels = src_channels then bytes
  else pcm_bytes w big_endian
    ((spec_remix dest_channels src_channels
      (pcm_samples w big_endian bytes)).getD [])

/-- The resample stage of the model on a buffer of samples of `w` bytes. -/
def spec_resample_bytes (big_endian : Bool) (w : Nat)
    (channels src_rate dest_rate : Nat) (state : spec_resample_state)
    (bytes : List Nat) : spec_resample_state × List Nat :=
  ((stream_fold (resample_frame src_rate dest_rate) state
      (frames channels (pcm_samples w big_endian bytes))).1,
    pcm_bytes w big_endian
      (stream_fold (resample_frame src_rate dest_rate) state
        (frames channels (pcm_samples w big_endian bytes))).2)

/-- The four stages of the model, one after the other, on a buffer of bytes:
from the resampler state and the dither accumulator to their new values and
the bytes produced. -/
def spec_stream (big_endian : Bool) (bits : Nat)
    (src_format dest_format : audio_format)
    (s : spec_resample_state × Int) (bytes : List Nat) :
    (spec_resample_state × Int) × List Nat :=
  let formatted := spec_format_bytes big_endian bits src_format.format s.2 bytes
  let remixed := spec_remix_bytes big_endian (chain_sample_width bits)
    dest_format.channels src_format.channels formatted.2
  let resampled :=
    if src_format.sample_rate ≠ dest_format.sample_rate then
      spec_resample_bytes big_endian (chain_sample_width bits)
        dest_format.channels src_format.sample_rate dest_format.sample_rate
        s.1 remixed
    else (s.1, remixed)
  ((resampled.1, formatted.1),
    if dest_format.reverse_endian then
      spec_byteswap (chain_sample_width bits) resampled.2
    else resampled.2)

/-- The whole conversion of the model towards any destination format: the
packed 24 bit destination runs the four stages towards native 24-in-32 bit
samples and packs every sample of the result. -/
def spec_convert_stream (big_endian : Bool)
    (src_format dest_format : audio_format)
    (s : spec_resample_state × Int) (bytes : List Nat) :
    (spec_resample_state × Int) × List Nat :=
  if dest_format.format = SAMPLE_FORMAT_S24 then
    ((spec_stream big_endian 24 src_format
        (audio_format_init dest_format.sample_rate SAMPLE_FORMAT_S24_P32
          dest_format.channels) s bytes).1,
      spec_pack_24 big_endian
        (spec_stream big_endian 24 src_format
          (audio_format_init dest_format.sample_rate SAMPLE_FORMAT_S24_P32
            dest_format.channels) s bytes).2
        ((spec_stream big_endian 24 src_format
          (audio_format_init dest_format.sample_rate SAMPLE_FORMAT_S24_P32
            dest_format.channels) s bytes).2.length / 4)
        dest_format.reverse_endian)
  else
    spec_stream big_endian (sample_format_bits dest_format.format) src_format
      dest_format s bytes

/-- The conversions the model has rules for: a defined source format, a pair
of channel counts with a rule, and rates that are equal or both non-zero. -/
def spec_supported (src_format dest_format : audio_format) : Prop :=
  src_format.format ≠ SAMPLE_FORMAT_UNDEFINED ∧
    (src_format.channels = dest_format.channels ∨
      (src_format.channels = 1 ∧ dest_format.channels = 2) ∨
      (src_format.channels = 2 ∧ dest_format.channels = 1)) ∧
    (src_format.sample_rate = dest_format.sample_rate ∨
      (src_format.sample_rate ≠ 0 ∧ dest_format.sample_rate ≠ 0))

/-- A stream converted chunk by chunk: every chunk goes through `pcm_convert`
with the conversion state the previous call left, and the returned buffers
(each cut at the returned size) are put one after the other.  `none` when a
call returns `NULL`. -/
def pcm_convert_chunks (k : pcm_kernels R D) (src_format dest_format : audio_format) :
    pcm_convert_state R D → List (List Nat) →
      Option (List Nat) × pcm_convert_state R D
  | state, [] => (some [], state)
  | state, chunk :: rest =>
    match (pcm_convert k state src_format chunk chunk.length dest_format).ret,
      (pcm_convert k state src_format chunk chunk.length
        dest_format).dest_size with
    | some buf, some size =>
      ((pcm_convert_chunks k src_format dest_format
          (pcm_convert k state src_format chunk chunk.length
            dest_format).state rest).1.map fun out => buf.take size ++ out,
        (pcm_convert_chunks k src_format dest_format
          (pcm_convert k state src_format chunk chunk.length
            dest_format).state rest).2)
    | _, _ =>
      (none, (pcm_convert k state src_format chunk chunk.length
        dest_format).state)

/-- A callback of a plugin that archive_list.c invokes, named by the index of
the plugin in `archive_plugins`. -/
inductive archive_call where
  | init (i : Nat)
  | finish (i : Nat)
  deriving DecidableEq, Repr

/-- The loop of `archive_plugin_from_name` from index `i` on, over the entries
of `archive_plugins` that are left before the terminating `NULL`. -/
def archive_plugin_from_name_loop (archive_plugins_enabled : List Bool)
    (name : String) : List archive_plugin → Nat → Option archive_plugin
  | [], _ => none
  | plugin :: rest, i =>
    if archive_plugins_enabled.getD i false = true ∧ plugin.name = name then
      some plugin
    else
      archive_plugin_from_name_loop archive_plugins_enabled name rest (i + 1)

/-- Source: archive_list.c, `archive_plugin_from_name`; `strcmp(...) == 0` is
equality of the strings. -/
def archive_plugin_from_name (archive_plugins : List archive_plugin)
    (archive_plugins_enabled : List Bool) (name : String) :
    Option archive_plugin :=
  archive_plugin_from_name_loop archive_plugins_enabled name archive_plugins 0

/-- The loop of `archive_plugin_init_all` from index `i` on: the flags it
leaves and the `init` callbacks it invokes, in order.  A `NULL` callback is
not called (`||` does not evaluate its right side). -/
def archive_plugin_init_all_loop :
    List archive_plugin → Nat → List Bool → List Bool × List archive_call
  | [], _, archive_plugins_enabled => (archive_plugins_enabled, [])
  | plugin :: rest, i, archive_plugins_enabled =>
    match plugin.init with
    | none =>
      archive_plugin_init_all_loop rest (i + 1)
        (archive_plugins_enabled.set i true)
    | some returned =>
      ((archive_plugin_init_all_loop rest (i + 1)
          (if returned = true then archive_plugins_enabled.set i true
           else archive_plugins_enabled)).1,
        archive_call.init i ::
          (archive_plugin_init_all_loop rest (i + 1)
            (if returned = true then archive_plugins_enabled.set i true
             else archive_plugins_enabled)).2)

/-- Source: archive_list.c, `archive_plugin_init_all`: the flags it leaves in
`archive_plugins_enabled` and the callbacks it invokes. -/
def archive_plugin_init_all (archive_plugins : List archive_plugin)
    (archive_plugins_enabled : List Bool) : List Bool × List archive_call :=
  archive_plugin_init_all_loop archive_plugins 0 archive_plugins_enabled

/-- The loop of `archive_plugin_deinit_all` from index `i` on: the `finish`
callbacks it invokes, in order. -/
def archive_plugin_deinit_all_loop (archive_plugins_enabled : List Bool) :
    List archive_plugin → Nat → List archive_call
  | [], _ => []
  | plugin :: rest, i =>
    if archive_plugins_enabled.getD i false = true ∧ plugin.finish = true then
      archive_call.finish i ::
        archive_plugin_deinit_all_loop archive_plugins_enabled rest (i + 1)
    else archive_plugin_deinit_all_loop archive_plugins_enabled rest (i + 1)

/-- Source: archive_list.c, `archive_plugin_deinit_all`: the flags it leaves
in `archive_plugins_enabled` (it assigns none) and the callbacks it
invokes. -/
def archive_plugin_deinit_all (archive_plugins : List archive_plugin)
    (archive_plugins_enabled : List Bool) : List Bool × List archive_call :=
  (archive_plugins_enabled,
    archive_plugin_deinit_all_loop archive_plugins_enabled archive_plugins 0)

/-- Source: archive_list.c, the static array `archive_plugins_enabled` at
startup: one flag per plugin (`G_N_ELEMENTS(archive_plugins) - 1`), all zero
as static storage is. -/
def archive_plugins_enabled_startup (archive_plugins : List archive_plugin) :
    List Bool :=
  List.replicate archive_plugins.length false

/-- The functions of archive_list.c that may write to the registry or call
into a plugin; the lookups write nothing. -/
inductive archive_operation where
  | init_all
  | deinit_all
  deriving DecidableEq, Repr

/-- The flags after a sequence of operations, and the callbacks invoked on the
way. -/
def archive_run (archive_plugins : List archive_plugin) :
    List archive_operation → List Bool → List Bool × List archive_call
  | [], archive_plugins_enabled => (archive_plugins_enabled, [])
  | archive_operation.init_all :: ops, archive_plugins_enabled =>
    ((archive_run archive_plugins ops
        (archive_plugin_init_all archive_plugins archive_plugins_enabled).1).1,
      (archive_plugin_init_all archive_plugins archive_plugins_enabled).2 ++
        (archive_run archive_plugins ops
          (archive_plugin_init_all archive_plugins
            archive_plugins_enabled).1).2)
  | archive_operation.deinit_all :: ops, archive_plugins_enabled =>
    ((archive_run archive_plugins ops
        (archive_plugin_deinit_all archive_plugins
          archive_plugins_enabled).1).1,
      (archive_plugin_deinit_all archive_plugins archive_plugins_enabled).2 ++
        (archive_run archive_plugins ops
          (archive_plugin_deinit_all archive_plugins
            archive_plugins_enabled).1).2)

/-- The plugin's initialisation succeeds: its `init` callback is `NULL` or
returns true. -/
def archive_plugin_init_ok (plugin : archive_plugin) : Bool :=
  match plugin.init with
  | none => true
  | some returned => returned

/-! ## Machine integers -/

/-- The value a signed integer of `w` bits holds after an arithmetic result
`x` is stored in it, two's complement. -/
def int_wrap (w : Nat) (x : Int) : Int :=
  (x + 2 ^ (w - 1)) % 2 ^ w - 2 ^ (w - 1)

/-! ## mixer/pulse_mixer.c -/

/-- The fields of `pa_cvolume` (pulse/volume.h): the channel count and the
volume of each channel. -/
structure pa_cvolume where
  channels : Nat
  values : List Nat
  deriving DecidableEq, Repr

/-- The fields of `struct pulse_mixer` that the volume functions use. -/
structure pulse_mixer where
  index : Nat
  online : Bool
  volume : pa_cvolume
  deriving DecidableEq, Repr

/-- The libpulse calls of the volume functions: whether
`pa_context_get_sink_input_info` and `pa_context_set_sink_input_volume` return
an operation (not `NULL`) for a sink input index, `pa_cvolume_avg`,
`pa_cvolume_set` for a channel count and a volume, and the constant
`PA_VOLUME_NORM`; volumes (`pa_volume_t`) are unsigned 32 bit numbers. -/
structure pulse_mixer_api where
  pa_context_get_sink_input_info : Nat → Bool
  pa_context_set_sink_input_volume : Nat → pa_cvolume → Bool
  pa_cvolume_avg : pa_cvolume → Nat
  pa_cvolume_set : pa_cvolume → Nat → Nat → pa_cvolume
  PA_VOLUME_NORM : Nat

/-- Source: pulse_mixer.c, `pulse_mixer_get_volume`.  The arithmetic is that
of `pa_volume_t`, unsigned on 32 bits; the quotient is converted to `int`;
`return false` returns 0.  The callback `sink_input_vol` runs later, on the
main loop of libpulse, and is not part of the call. -/
def pulse_mixer_get_volume (api : pulse_mixer_api) (pm : pulse_mixer) : Int :=
  if pm.online then
    if api.pa_context_get_sink_input_info pm.index = false then 0
    else
      int_wrap 32
        (((100 * ((api.pa_cvolume_avg pm.volume + 1) % 2 ^ 32)) % 2 ^ 32
          / api.PA_VOLUME_NORM : Nat) : Int)
  else 0

/-- The volume `pulse_mixer_set_volume` hands to `pa_cvolume_set`:
`(pa_volume_t)(volume)*PA_VOLUME_NORM/100+0.5`.  The product and the quotient
are unsigned on 32 bits; adding 0.5 gives a `double`, exactly (the quotient is
below 2^32), and the conversion back to the `pa_volume_t` parameter drops the
fraction: `(2 * q + 1) / 2` for the quotient `q`. -/
def pulse_mixer_set_volume_value (api : pulse_mixer_api) (volume : Nat) : Nat :=
  (2 * (((volume % 2 ^ 32) * api.PA_VOLUME_NORM) % 2 ^ 32 / 100) + 1) / 2

/-- Source: pulse_mixer.c, `pulse_mixer_set_volume`: the return value and the
mixer it leaves. -/
def pulse_mixer_set_volume (api : pulse_mixer_api) (pm : pulse_mixer)
    (volume : Nat) : Bool × pulse_mixer :=
  if pm.online then
    let set := api.pa_cvolume_set pm.volume pm.volume.channels
      (pulse_mixer_set_volume_value api volume)
    let pm := { pm with volume := set }
    if api.pa_context_set_sink_input_volume pm.index pm.volume = false then
      (false, pm)
    else (true, pm)
  else (true, pm)

/-! ## output/pulse_plugin.c -/

/-- Source: pulse_plugin.c, `CONN_ATTEMPT_INTERVAL`. -/
def CONN_ATTEMPT_INTERVAL : Int := 60

/-- The fields of `struct audio_format` that pulse_plugin.c uses.  This plugin
is written against an audio_format.h (not under `src/`) in which the sample
format is a number of bits. -/
structure pulse_audio_format where
  sample_rate : Nat
  bits : Nat
  channels : Nat
  deriving DecidableEq, Repr

/-- The `pa_sample_spec` (pulse/sample.h) that `pulse_open` fills in: the rate
is unsigned on 32 bits, the channel count on 8. -/
structure pa_sample_spec where
  format : Nat
  rate : Nat
  channels : Nat
  deriving DecidableEq, Repr

/-- The fields of `struct pulse_data` that `pulse_open` uses: the connection
(`none` for `NULL`), the attempt counter (`int`) and the time of the last
attempt (`time_t`, signed on 64 bits). -/
structure pulse_data where
  s : Option Nat
  num_connect_attempts : Int
  last_connect_attempt : Int
  deriving DecidableEq, Repr

/-- The libpulse call of `pulse_open`: the connection `pa_simple_new` returns
for a sample specification (`none` for `NULL`), and the constant
`PA_SAMPLE_S16NE`. -/
structure pulse_api where
  pa_simple_new : pa_sample_spec → Option Nat
  PA_SAMPLE_S16NE : Nat

/-- What `pulse_open` leaves behind: its return value, the plugin data, the
audio format of the caller, and the sample specifications it has called
`pa_simple_new` with. -/
structure pulse_open_result where
  ret : Bool
  pd : pulse_data
  audio_format : pulse_audio_format
  connects : List pa_sample_spec
  deriving DecidableEq, Repr

/-- Source: pulse_plugin.c, `pulse_open`; `t` is what `time(NULL)` returns.
The difference of the two times is stored on 64 bits and the counter on 32
bits, two's complement. -/
def pulse_open (api : pulse_api) (t : Int) (pd : pulse_data)
    (audio_format : pulse_audio_format) : pulse_open_result :=
  if pd.num_connect_attempts ≠ 0 ∧
      int_wrap 64 (t - pd.last_connect_attempt) < CONN_ATTEMPT_INTERVAL then
    { ret := false, pd := pd, audio_format := audio_format, connects := [] }
  else
    let pd := { pd with
      num_connect_attempts := int_wrap 32 (pd.num_connect_attempts + 1) }
    let pd := { pd with last_connect_attempt := t }
    let audio_format := { audio_format with bits := 16 }
    let ss : pa_sample_spec :=
      { format := api.PA_SAMPLE_S16NE,
        rate := audio_format.sample_rate % 2 ^ 32,
        channels := audio_format.channels % 2 ^ 8 }
    let pd := { pd with s := api.pa_simple_new ss }
    match pd.s with
    | none =>
      { ret := false, pd := pd, audio_format := audio_format,
        connects := [ss] }
    | some _ =>
      let pd := { pd with num_connect_attempts := 0 }
      { ret := true, pd := pd, audio_format := audio_format,
        connects := [ss] }

/-! ## output/winmm_output_plugin.c: playing and draining -/

variable {W : Type}

/-- The Windows calls of the play path, and `pcm_buffer_get` of pcm_buffer.h.
`W` is whatever the driver keeps between calls.  A `waveOut...` call is given
the driver state, the device handle and the header, and returns its result
code, the header as the driver leaves it, and the driver state;
`WaitForSingleObject` blocks on the event and returns the driver state at
wake-up; `pcm_buffer_get` returns the region for a size, or `NULL`.
`MMSYSERR_NOERROR`, `WAVERR_STILLPLAYING` and `WHDR_DONE` are constants of the
Windows headers. -/
structure winmm_driver (W : Type) where
  waveOutUnprepareHeader : W → Nat → WAVEHDR → Nat × WAVEHDR × W
  waveOutPrepareHeader : W → Nat → WAVEHDR → Nat × WAVEHDR × W
  waveOutWrite : W → Nat → WAVEHDR → Nat × WAVEHDR × W
  WaitForSingleObject : W → Option Nat → W
  pcm_buffer_get : pcm_buffer → Nat → Option pcm_buffer
  MMSYSERR_NOERROR : Nat
  WAVERR_STILLPLAYING : Nat
  WHDR_DONE : Nat

/-- What `winmm_drain_buffer` and `winmm_set_buffer` leave behind: the return
value, the buffer, the driver state and the error. -/
structure winmm_buffer_result (W : Type) where
  ret : Bool
  buffer : winmm_buffer
  driver : W
  error : Option String

/-- The `while (true)` loop of `winmm_drain_buffer`, for at most `fuel`
rounds: `none` when the driver still answers `WAVERR_STILLPLAYING` after
`fuel` rounds. -/
def winmm_drain_buffer_loop (d : winmm_driver W) (wo : winmm_output) :
    Nat → W → winmm_buffer → Option (winmm_buffer_result W)
  | 0, _, _ => none
  | fuel + 1, w, buffer =>
    let result := d.waveOutUnprepareHeader w wo.handle buffer.hdr
    let buffer : winmm_buffer := { buffer with hdr := result.2.1 }
    if result.1 = d.MMSYSERR_NOERROR then
      some { ret := true, buffer := buffer, driver := result.2.2,
             error := none }
    else if result.1 ≠ d.WAVERR_STILLPLAYING then
      some { ret := false, buffer := buffer, driver := result.2.2,
             error := some "waveOutUnprepareHeader() failed" }
    else
      winmm_drain_buffer_loop d wo fuel
        (d.WaitForSingleObject result.2.2 wo.event) buffer

/-- Source: winmm_output_plugin.c, `winmm_drain_buffer`; the loop has no
bound in the source and gets `fuel` rounds here. -/
def winmm_drain_buffer (d : winmm_driver W) (fuel : Nat) (w : W)
    (wo : winmm_output) (buffer : winmm_buffer) :
    Option (winmm_buffer_result W) :=
  if buffer.hdr.dwFlags &&& d.WHDR_DONE = d.WHDR_DONE then
    some { ret := true, buffer := buffer, driver := w, error := none }
  else winmm_drain_buffer_loop d wo fuel w buffer

/-- Source: winmm_output_plugin.c, `winmm_set_buffer`; `dwBufferLength` is a
`DWORD`, 32 bits wide, and `lpData` stands for the bytes it points to. -/
def winmm_set_buffer (d : winmm_driver W) (w : W) (wo : winmm_output)
    (buffer : winmm_buffer) (data : List Nat) (size : Nat) :
    winmm_buffer_result W :=
  match d.pcm_buffer_get buffer.buffer size with
  | none =>
    { ret := false, buffer := buffer, driver := w,
      error := some "Out of memory" }
  | some got =>
    let dest : pcm_buffer :=
      { buffer := data.take size ++ got.buffer.drop size }
    let hdr : WAVEHDR :=
      { lpData := dest.buffer, dwBufferLength := size % 2 ^ 32, dwFlags := 0 }
    let result := d.waveOutPrepareHeader w wo.handle hdr
    let buffer : winmm_buffer := { buffer := dest, hdr := result.2.1 }
    if result.1 ≠ d.MMSYSERR_NOERROR then
      { ret := false, buffer := buffer, driver := result.2.2,
        error := some "waveOutPrepareHeader() failed" }
    else
      { ret := true, buffer := buffer, driver := result.2.2, error := none }

/-- What `winmm_output_play` leaves behind: the size it returns, the output
object, the driver state and the error. -/
structure winmm_play_result (W : Type) where
  ret : Nat
  wo : winmm_output
  driver : W
  error : Option String

/-- Source: winmm_output_plugin.c, `winmm_output_play`.  `none` when
`next_buffer` is outside the ring (the C behaviour is undefined) or the drain
does not end within `fuel` rounds; `next_buffer` is `unsigned`, 32 bits. -/
def winmm_output_play (d : winmm_driver W) (fuel : Nat) (w : W)
    (wo : winmm_output) (chunk : List Nat) (size : Nat) :
    Option (winmm_play_result W) :=
  match wo.buffers[wo.next_buffer]? with
  | none => none
  | some buffer =>
    match winmm_drain_buffer d fuel w wo buffer with
    | none => none
    | some drained =>
      if drained.ret = false then
        some { ret := 0,
               wo := { wo with
                 buffers := wo.buffers.set wo.next_buffer drained.buffer },
               driver := drained.driver, error := drained.error }
      else
        let filled := winmm_set_buffer d drained.driver wo drained.buffer
          chunk size
        if filled.ret = false then
          some { ret := 0,
                 wo := { wo with
                   buffers := wo.buffers.set wo.next_buffer filled.buffer },
                 driver := filled.driver, error := filled.error }
        else
          let result := d.waveOutWrite filled.driver wo.handle
            filled.buffer.hdr
          if result.1 ≠ d.MMSYSERR_NOERROR then
            let undone := d.waveOutUnprepareHeader result.2.2 wo.handle
              result.2.1
            some { ret := 0,
                   wo := { wo with
                     buffers := wo.buffers.set wo.next_buffer
                       { filled.buffer with hdr := undone.2.1 } },
                   driver := undone.2.2,
                   error := some "waveOutWrite() failed" }
          else
            some { ret := size,
                   wo := { wo with
                     buffers := wo.buffers.set wo.next_buffer
                       { filled.buffer with hdr := result.2.1 },
                     next_buffer := (wo.next_buffer + 1) % 2 ^ 32 % 8 },
                   driver := result.2.2, error := none }

/-- What `winmm_drain_all_buffers` leaves behind: its return value, the
output object, the driver state, the error, and the buffers it has called
`winmm_drain_buffer` for, in order, each with what the call returned. -/
structure winmm_drain_all_result (W : Type) where
  ret : Bool
  wo : winmm_output
  driver : W
  error : Option String
  drained : List (Nat × Bool)

/-- One `for` loop of `winmm_drain_all_buffers`: `count` rounds from index
`i`, left at the first drain that fails.  `none` when an index is outside the
ring or a drain does not end within `fuel` rounds. -/
def winmm_drain_loop (d : winmm_driver W) (fuel : Nat) :
    Nat → Nat → W → winmm_output → Option (winmm_drain_all_result W)
  | 0, _, w, wo =>
    some { ret := true, wo := wo, driver := w, error := none, drained := [] }
  | count + 1, i, w, wo =>
    match wo.buffers[i]? with
    | none => none
    | some buffer =>
      match winmm_drain_buffer d fuel w wo buffer with
      | none => none
      | some r =>
        if r.ret = false then
          some { ret := false,
                 wo := { wo with buffers := wo.buffers.set i r.buffer },
                 driver := r.driver, error := r.error,
                 drained := [(i, false)] }
        else
          match winmm_drain_loop d fuel count (i + 1) r.driver
              { wo with buffers := wo.buffers.set i r.buffer } with
          | none => none
          | some rest =>
            some { ret := rest.ret, wo := rest.wo, driver := rest.driver,
                   error := rest.error,
                   drained := (i, true) :: rest.drained }

/-- Source: winmm_output_plugin.c, `winmm_drain_all_buffers`: the loop from
`next_buffer` up to the end of the ring (`8 - next_buffer` rounds), then the
loop from 0 up to `next_buffer`. -/
def winmm_drain_all_buffers (d : winmm_driver W) (fuel : Nat) (w : W)
    (wo : winmm_output) : Option (winmm_drain_all_result W) :=
  match winmm_drain_loop d fuel (8 - wo.next_buffer) wo.next_buffer w wo with
  | none => none
  | some first =>
    if first.ret = false then some first
    else
      match winmm_drain_loop d fuel wo.next_buffer 0 first.driver
          first.wo with
      | none => none
      | some second =>
        some { ret := second.ret, wo := second.wo, driver := second.driver,
               error := second.error,
               drained := first.drained ++ second.drained }

/-- The ring order from `next_buffer`: `next_buffer`, ..., 7, 0, ...,
`next_buffer - 1`. -/
def winmm_ring_order (next_buffer : Nat) : List Nat :=
  (List.range 8).map fun j => (next_buffer + j) % 8

/-- A driver for examples: the driver state counts the wake-ups a buffer
still needs; unpreparing answers `WAVERR_STILLPLAYING` (33) until then and
fails with code 5 for a header whose flags are 64; preparing sets flag 2,
writing adds flag 16 and fails with code 11 for an empty header. -/
def example_winmm_driver : winmm_driver Nat where
  waveOutUnprepareHeader := fun w _ hdr =>
    if hdr.dwFlags = 64 then (5, hdr, w)
    else if w = 0 then (0, { hdr with dwFlags := 0 }, 0)
    else (33, hdr, w)
  waveOutPrepareHeader := fun w _ hdr => (0, { hdr with dwFlags := 2 }, w)
  waveOutWrite := fun w _ hdr =>
    if hdr.dwBufferLength = 0 then (11, hdr, w)
    else (0, { hdr with dwFlags := hdr.dwFlags ||| 16 }, w + 2)
  WaitForSingleObject := fun w _ => w - 1
  pcm_buffer_get := fun buffer size => some (spec_pcm_buffer_get buffer size)
  MMSYSERR_NOERROR := 0
  WAVERR_STILLPLAYING := 33
  WHDR_DONE := 1

/-- An output object for examples: a ring of buffers with the given header
flags, empty otherwise. -/
def example_winmm_output (flags : List Nat) (next_buffer : Nat) :
    winmm_output :=
  { device_id := 0, handle := 1, event := some 7,
    buffers := flags.map fun f =>
      { buffer := { buffer := [] },
        hdr := { lpData := [], dwBufferLength := 0, dwFlags := f } },
    next_buffer := next_buffer }

/-! ## output/roar_plugin.c: tags -/

/-- The tag types that `roar_tag_convert` names (`enum tag_type` of tag.h,
not under `src/`); every other value of the enumeration is `other`. -/
inductive tag_type where
  | TAG_ARTIST
  | TAG_ALBUM_ARTIST
  | TAG_ALBUM
  | TAG_TITLE
  | TAG_TRACK
  | TAG_NAME
  | TAG_GENRE
  | TAG_DATE
  | TAG_PERFORMER
  | TAG_COMMENT
  | TAG_DISC
  | TAG_COMPOSER
  | TAG_MUSICBRAINZ_ARTISTID
  | TAG_MUSICBRAINZ_ALBUMID
  | TAG_MUSICBRAINZ_ALBUMARTISTID
  | TAG_MUSICBRAINZ_TRACKID
  | other (n : Nat)
  deriving DecidableEq, Repr

open tag_type

/-- The fields of `struct tag_item` (tag.h) that `roar_send_tag` reads; the
value is the bytes of the C string `value`, without the terminating zero. -/
structure tag_item where
  type : tag_type
  value : List Nat
  deriving DecidableEq, Repr

/-- The fields of `struct tag` (tag.h) that `roar_send_tag` reads: the length
in seconds (`int`) and the items (`num_items` is the length of the list). -/
structure tag where
  time : Int
  items : List tag_item
  deriving DecidableEq, Repr

/-- A `struct roar_keyval` (libroar): the key and the value, `none` for
`NULL`.  The key is one of the string literals of `roar_send_tag` and
`roar_tag_convert`; the value is the bytes of the C string it points to. -/
structure roar_keyval where
  key : Option String
  value : Option (List Nat)
  deriving DecidableEq, Repr

/-- The `%02d` rendering of an `int`: its decimal digits, with a minus sign
when it is negative, padded with a zero to two characters. -/
def format_02d (n : Int) : String :=
  if 0 ≤ n ∧ n < 10 then "0" ++ toString n else toString n

/-- Source: roar_plugin.c, `roar_tag_convert`: the key (`none` for `NULL`) and
what is left in `*is_uuid`.  Whether `ROAR_META_TYPE_COMPOSER` is defined is a
parameter. -/
def roar_tag_convert (ROAR_META_TYPE_COMPOSER : Bool) (type : tag_type) :
    Option String × Bool :=
  match type with
  | TAG_ARTIST => (some "AUTHOR", false)
  | TAG_ALBUM_ARTIST => (some "AUTHOR", false)
  | TAG_ALBUM => (some "ALBUM", false)
  | TAG_TITLE => (some "TITLE", false)
  | TAG_TRACK => (some "TRACK", false)
  | TAG_NAME => (some "NAME", false)
  | TAG_GENRE => (some "GENRE", false)
  | TAG_DATE => (some "DATE", false)
  | TAG_PERFORMER => (some "PERFORMER", false)
  | TAG_COMMENT => (some "COMMENT", false)
  | TAG_DISC => (some "DISCID", false)
  | TAG_COMPOSER =>
    if ROAR_META_TYPE_COMPOSER then (some "COMPOSER", false)
    else (some "AUTHOR", false)
  | TAG_MUSICBRAINZ_ARTISTID => (some "HASH", true)
  | TAG_MUSICBRAINZ_ALBUMID => (some "HASH", true)
  | TAG_MUSICBRAINZ_ALBUMARTISTID => (some "HASH", true)
  | TAG_MUSICBRAINZ_TRACKID => (some "HASH", true)
  | other _ => (none, false)

/-- The `for` loop of `roar_send_tag` over the items that are left: the count,
`vals` and `uuid_buf` it leaves.  `none` when it would write `vals` or
`uuid_buf` at an index outside the array (the C behaviour is undefined). -/
def roar_send_tag_loop (ROAR_META_TYPE_COMPOSER : Bool) :
    List tag_item → Nat → List roar_keyval → List (List Nat) →
      Option (Nat × List roar_keyval × List (List Nat))
  | [], cnt, vals, uuid_buf => some (cnt, vals, uuid_buf)
  | item :: rest, cnt, vals, uuid_buf =>
    if cnt < 32 then
      match roar_tag_convert ROAR_META_TYPE_COMPOSER item.type with
      | (none, _) =>
        roar_send_tag_loop ROAR_META_TYPE_COMPOSER rest cnt vals uuid_buf
      | (some key, is_uuid) =>
        if is_uuid = true then
          if cnt < uuid_buf.length ∧ cnt < vals.length then
            roar_send_tag_loop ROAR_META_TYPE_COMPOSER rest (cnt + 1)
              (vals.set cnt
                ⟨some key,
                  some (snprintf 64 (c_bytes "\x7bUUID\x7d" ++ item.value))⟩)
              (uuid_buf.set cnt
                (snprintf 64 (c_bytes "\x7bUUID\x7d" ++ item.value)))
          else none
        else
          if cnt < vals.length then
            roar_send_tag_loop ROAR_META_TYPE_COMPOSER rest (cnt + 1)
              (vals.set cnt ⟨some key, some item.value⟩) uuid_buf
          else none
    else some (cnt, vals, uuid_buf)

/-- What `roar_send_tag` hands to `roar_vs_meta`: whether the call is made,
the array `vals` and the count. -/
structure roar_send_tag_result where
  sent : Bool
  vals : List roar_keyval
  cnt : Nat
  deriving DecidableEq, Repr

/-- Source: roar_plugin.c, `roar_send_tag` (the mutex is left out): the call
of `roar_vs_meta` it makes.  `vals` has 32 entries, zeroed; `uuid_buf` has 32
entries of 64 bytes whose initial content is indeterminate (empty here);
`timebuf` has 16 bytes; the divisions are those of C, rounding towards zero.
`none` when an array is written outside its bounds. -/
def roar_send_tag (ROAR_META_TYPE_COMPOSER : Bool) (self : roar)
    (tag_meta : tag) : Option roar_send_tag_result :=
  match self.vss with
  | none => some { sent := false, vals := [], cnt := 0 }
  | some _ =>
    let vals : List roar_keyval := List.replicate 32 ⟨none, none⟩
    let uuid_buf : List (List Nat) := List.replicate 32 []
    let timebuf := snprintf 16
      (c_bytes (format_02d (tag_meta.time.tdiv 3600) ++ ":" ++
        format_02d ((tag_meta.time.tmod 3600).tdiv 60) ++ ":" ++
        format_02d (tag_meta.time.tmod 60)))
    let vals := vals.set 0 ⟨some "LENGTH", some timebuf⟩
    match roar_send_tag_loop ROAR_META_TYPE_COMPOSER tag_meta.items 1 vals
        uuid_buf with
    | none => none
    | some r => some { sent := true, vals := r.2.1, cnt := r.1 }

/-- The pair a tag item is sent as: nothing for an item whose type
`roar_tag_convert` maps to no key; the key and the value otherwise, the value
after the UUID marker, cut to the 63 bytes that fit a buffer of 64 bytes, when
the type is a MusicBrainz id. -/
def roar_tag_entry (ROAR_META_TYPE_COMPOSER : Bool) (item : tag_item) :
    Option roar_keyval :=
  match roar_tag_convert ROAR_META_TYPE_COMPOSER item.type with
  | (none, _) => none
  | (some key, is_uuid) =>
    some ⟨some key,
      some (if is_uuid = true then
          snprintf 64 (c_bytes "\x7bUUID\x7d" ++ item.value)
        else item.value)⟩

/-! ## Theorems -/

/-- C1: for every kernel set, conversion state, source format, source buffer
and size, `pcm_convert` towards a destination whose sample format is
`SAMPLE_FORMAT_UNDEFINED` returns `NULL`, sets an error, stores no size, makes
no kernel call and leaves the conversion state as it was. -/
theorem pcm_convert_undefined_dest (k : pcm_kernels R D)
    (state : pcm_convert_state R D) (src_format : audio_format)
    (src : List Nat) (src_size : Nat) (dest_format : audio_format)
    (h : dest_format.format = SAMPLE_FORMAT_UNDEFINED) :
    let r := pcm_convert k state src_format src src_size dest_format
    r.ret = none ∧
      r.error = some "PCM conversion to ? is not implemented" ∧
      r.dest_size = none ∧ r.calls = [] ∧ r.state = state := by
  simp [pcm_convert, h, sample_format_to_string]

/-- C1 at a concrete input: 16 bit stereo towards an undefined destination. -/
theorem pcm_convert_undefined_dest_witness :
    (⟨48000, SAMPLE_FORMAT_UNDEFINED, 2, false⟩ : audio_format).format
        = SAMPLE_FORMAT_UNDEFINED ∧
      (let r := pcm_convert example_kernels example_state
          ⟨44100, SAMPLE_FORMAT_S16, 2, false⟩ [1, 2, 3, 4] 4
          ⟨48000, SAMPLE_FORMAT_UNDEFINED, 2, false⟩
       r.ret = none ∧
        r.error = some "PCM conversion to ? is not implemented" ∧
        r.dest_size = none ∧ r.calls = [] ∧ r.state = example_state) :=
  ⟨rfl, pcm_convert_undefined_dest example_kernels example_state
    ⟨44100, SAMPLE_FORMAT_S16, 2, false⟩ [1, 2, 3, 4] 4
    ⟨48000, SAMPLE_FORMAT_UNDEFINED, 2, false⟩ rfl⟩


theorem pcm_convert_16_eq_run_chain (k : pcm_kernels R D) :
    pcm_convert_16 k = run_chain (chain_16 k) := rfl

theorem pcm_convert_24_eq_run_chain (k : pcm_kernels R D) :
    pcm_convert_24 k = run_chain (chain_24 k) := by
  funext state src_format src_buffer src_size dest_format
  unfold pcm_convert_24 run_chain
  rcases h : k.pcm_convert_to_24 state.format_buffer src_format.format
    src_buffer src_size with ⟨_ | ⟨buf, len⟩, fb⟩ <;> simp [chain_24, h]

theorem pcm_convert_32_eq_run_chain (k : pcm_kernels R D) :
    pcm_convert_32 k = run_chain (chain_32 k) := by
  funext state src_format src_buffer src_size dest_format
  unfold pcm_convert_32 run_chain
  rcases h : k.pcm_convert_to_32 state.format_buffer src_format.format
    src_buffer src_size with ⟨_ | ⟨buf, len⟩, fb⟩ <;> simp [chain_32, h]


theorem run_chain_eq (c : chain_kernels R D)
    (state : pcm_convert_state R D) (src_format : audio_format)
    (src_buffer : List Nat) (src_size : Nat) (dest_format : audio_format) :
    run_chain c state src_format src_buffer src_size dest_format =
      match c.format state.format_buffer state.dither src_format.format
          src_buffer src_size with
      | (none, fb, d) =>
        { ret := none, dest_size := none,
          error := some (c.format_error src_format.format),
          state := { state with format_buffer := fb, dither := d },
          calls := [c.format_call] }
      | (some (buf, len), fb, d) =>
        chain_channels c src_format dest_format buf len
          { state with format_buffer := fb, dither := d } [c.format_call] := by
  unfold run_chain
  rcases c.format state.format_buffer state.dither src_format.format
    src_buffer src_size with ⟨_ | ⟨b1, l1⟩, fb, d⟩
  · rfl
  · simp only [chain_channels]
    by_cases hc : src_format.channels = dest_format.channels
    · simp only [hc, ne_eq, not_true_eq_false, if_false, chain_resample]
      by_cases hr : src_format.sample_rate = dest_format.sample_rate
      · simp only [hr, ne_eq, not_true_eq_false, if_false, chain_byteswap]
      · simp only [hr, ne_eq, not_false_eq_true, if_true]
        rcases c.resample state.resample dest_format.channels
          src_format.sample_rate b1 l1 dest_format.sample_rate
          with ⟨_ | ⟨b3, l3⟩, e3, r3⟩
        · rfl
        · simp only [chain_byteswap]
    · simp only [hc, ne_eq, not_false_eq_true, if_true]
      rcases c.channels state.channels_buffer dest_format.channels
        src_format.channels b1 l1 with ⟨_ | ⟨b2, l2⟩, cb⟩
      · rfl
      · simp only [chain_resample]
        by_cases hr : src_format.sample_rate = dest_format.sample_rate
        · simp only [hr, ne_eq, not_true_eq_false, if_false, chain_byteswap]
        · simp only [hr, ne_eq, not_false_eq_true, if_true]
          rcases c.resample state.resample dest_format.channels
            src_format.sample_rate b2 l2 dest_format.sample_rate
            with ⟨_ | ⟨b3, l3⟩, e3, r3⟩
          · rfl
          · simp only [chain_byteswap]



/-! ### The calls of a chain start with its sample-format kernel -/

theorem chain_byteswap_calls (c : chain_kernels R D) (dest_format : audio_format)
    (buf : List Nat) (len : Nat) (err : Option String)
    (state3 : pcm_convert_state R D) (calls3 : List stage_call) :
    ∃ l, (chain_byteswap c dest_format buf len err state3 calls3).calls
      = calls3 ++ l := by
  unfold chain_byteswap
  split
  · exact ⟨[c.byteswap_call], rfl⟩
  · exact ⟨[], by simp⟩

theorem chain_resample_calls (c : chain_kernels R D)
    (src_format dest_format : audio_format) (buf : List Nat) (len : Nat)
    (state2 : pcm_convert_state R D) (calls2 : List stage_call) :
    ∃ l, (chain_resample c src_format dest_format buf len state2 calls2).calls
      = calls2 ++ l := by
  unfold chain_resample
  split
  · split
    · exact ⟨[c.resample_call], rfl⟩
    · rename_i b l err r _
      obtain ⟨t, ht⟩ := chain_byteswap_calls c dest_format b l err
        { state2 with resample := r } (calls2 ++ [c.resample_call])
      exact ⟨c.resample_call :: t, by simp [ht]⟩
  · exact chain_byteswap_calls c dest_format buf len none state2 calls2

theorem chain_channels_calls (c : chain_kernels R D)
    (src_format dest_format : audio_format) (buf : List Nat) (len : Nat)
    (state1 : pcm_convert_state R D) (calls1 : List stage_call) :
    ∃ l, (chain_channels c src_format dest_format buf len state1 calls1).calls
      = calls1 ++ l := by
  unfold chain_channels
  split
  · split
    · exact ⟨[c.channels_call], rfl⟩
    · rename_i b l cb _
      obtain ⟨t, ht⟩ := chain_resample_calls c src_format dest_format b l
        { state1 with channels_buffer := cb } (calls1 ++ [c.channels_call])
      exact ⟨c.channels_call :: t, by simp [ht]⟩
  · exact chain_resample_calls c src_format dest_format buf len state1 calls1

theorem run_chain_calls (c : chain_kernels R D)
    (state : pcm_convert_state R D) (src_format : audio_format)
    (src_buffer : List Nat) (src_size : Nat) (dest_format : audio_format) :
    ∃ l, (run_chain c state src_format src_buffer src_size dest_format).calls
      = c.format_call :: l := by
  rw [run_chain_eq]
  split
  · exact ⟨[], rfl⟩
  · rename_i buf len fb d _
    obtain ⟨t, ht⟩ := chain_channels_calls c src_format dest_format buf len
      { state with format_buffer := fb, dither := d } [c.format_call]
    exact ⟨t, by simp [ht]⟩

theorem pcm_convert_24_packed_calls (k : pcm_kernels R D)
    (state : pcm_convert_state R D) (src_format : audio_format)
    (src_buffer : List Nat) (src_size : Nat) (dest_format : audio_format) :
    ∃ l, (pcm_convert_24_packed k state src_format src_buffer src_size
      dest_format).calls = stage_call.pcm_convert_to_24 :: l := by
  unfold pcm_convert_24_packed
  rw [pcm_convert_24_eq_run_chain]
  obtain ⟨t, ht⟩ := run_chain_calls (chain_24 k) state src_format src_buffer
    src_size (audio_format_init dest_format.sample_rate SAMPLE_FORMAT_S24_P32
      dest_format.channels)
  simp only []
  split
  · exact ⟨t, ht⟩
  · split
    · exact ⟨t ++ [stage_call.pcm_pack_24], by simp [ht]; rfl⟩
    · exact ⟨t ++ [stage_call.pcm_pack_24], by simp [ht]; rfl⟩

/-- C2: `pcm_convert` enters a stage chain (its first kernel call is the
sample-format conversion of that chain) if and only if the destination sample
format is S16, S24, S24_P32 or S32; for every other destination format, S8
included, it makes no kernel call, returns `NULL` and sets the error
"PCM conversion to <format> is not implemented", where <format> is
`sample_format_to_string` of the destination format. -/
theorem pcm_convert_dispatch (k : pcm_kernels R D)
    (state : pcm_convert_state R D) (src_format : audio_format)
    (src : List Nat) (src_size : Nat) (dest_format : audio_format) :
    let r := pcm_convert k state src_format src src_size dest_format
    (r.calls ≠ [] ↔
        dest_format.format = SAMPLE_FORMAT_S16 ∨
        dest_format.format = SAMPLE_FORMAT_S24 ∨
        dest_format.format = SAMPLE_FORMAT_S24_P32 ∨
        dest_format.format = SAMPLE_FORMAT_S32) ∧
      (dest_format.format = SAMPLE_FORMAT_S16 →
        r.calls.head? = some stage_call.pcm_convert_to_16) ∧
      (dest_format.format = SAMPLE_FORMAT_S24 →
        r.calls.head? = some stage_call.pcm_convert_to_24) ∧
      (dest_format.format = SAMPLE_FORMAT_S24_P32 →
        r.calls.head? = some stage_call.pcm_convert_to_24) ∧
      (dest_format.format = SAMPLE_FORMAT_S32 →
        r.calls.head? = some stage_call.pcm_convert_to_32) ∧
      (dest_format.format ≠ SAMPLE_FORMAT_S16 →
        dest_format.format ≠ SAMPLE_FORMAT_S24 →
        dest_format.format ≠ SAMPLE_FORMAT_S24_P32 →
        dest_format.format ≠ SAMPLE_FORMAT_S32 →
        r.ret = none ∧ r.dest_size = none ∧ r.calls = [] ∧
        r.error = some ("PCM conversion to " ++
          sample_format_to_string dest_format.format ++
          " is not implemented")) := by
  obtain ⟨l16, h16⟩ := run_chain_calls (chain_16 k) state src_format src
    src_size dest_format
  obtain ⟨l24, h24⟩ := run_chain_calls (chain_24 k) state src_format src
    src_size dest_format
  obtain ⟨l32, h32⟩ := run_chain_calls (chain_32 k) state src_format src
    src_size dest_format
  obtain ⟨lp, hp⟩ := pcm_convert_24_packed_calls k state src_format src
    src_size dest_format
  have h16 : _ = stage_call.pcm_convert_to_16 :: l16 := h16
  have h24 : _ = stage_call.pcm_convert_to_24 :: l24 := h24
  have h32 : _ = stage_call.pcm_convert_to_32 :: l32 := h32
  rcases hf : dest_format.format <;>
    simp [pcm_convert, hf, pcm_convert_16_eq_run_chain,
      pcm_convert_24_eq_run_chain, pcm_convert_32_eq_run_chain,
      h16, h24, h32, hp]


/-! ### The chains refine the pipeline of the specification -/

theorem chain_byteswap_matches (c : chain_kernels R D)
    (dest_format : audio_format) (err : Option String) (x : stage_data R D) :
    result_matches (chain_byteswap c dest_format x.buf x.len err x.state x.calls)
      (spec_applied_when dest_format.reverse_endian (spec_byteswap_stage c) x) := by
  unfold chain_byteswap spec_applied_when spec_byteswap_stage result_matches
  cases dest_format.reverse_endian <;> simp

theorem spec_applied_when_true
    (stage : stage_data R D → Option (stage_data R D)) (x : stage_data R D) :
    spec_applied_when true stage x = stage x := rfl

theorem spec_applied_when_false
    (stage : stage_data R D → Option (stage_data R D)) (x : stage_data R D) :
    spec_applied_when false stage x = some x := rfl

theorem chain_resample_matches (c : chain_kernels R D)
    (src_format dest_format : audio_format) (x : stage_data R D) :
    result_matches
      (chain_resample c src_format dest_format x.buf x.len x.state x.calls)
      ((spec_applied_when (src_format.sample_rate != dest_format.sample_rate)
        (spec_resample_stage c dest_format.channels src_format.sample_rate
          dest_format.sample_rate) x).bind fun x3 =>
        spec_applied_when dest_format.reverse_endian (spec_byteswap_stage c) x3) := by
  unfold chain_resample
  by_cases hr : src_format.sample_rate = dest_format.sample_rate
  · have hb : (src_format.sample_rate != dest_format.sample_rate) = false := by
      simpa using hr
    rw [if_neg (not_not.mpr hr)]
    simp only [hb, spec_applied_when_false, Option.some_bind]
    exact chain_byteswap_matches c dest_format none x
  · have hb : (src_format.sample_rate != dest_format.sample_rate) = true := by
      simpa using hr
    rw [if_pos hr]
    simp only [hb, spec_applied_when_true, spec_resample_stage]
    rcases c.resample x.state.resample dest_format.channels
      src_format.sample_rate x.buf x.len dest_format.sample_rate
      with ⟨_ | ⟨b, l⟩, err, r⟩
    · simp [result_matches]
    · exact chain_byteswap_matches c dest_format err
        { buf := b, len := l, state := { x.state with resample := r },
          calls := x.calls ++ [c.resample_call] }

theorem chain_channels_matches (c : chain_kernels R D)
    (src_format dest_format : audio_format) (x : stage_data R D) :
    result_matches
      (chain_channels c src_format dest_format x.buf x.len x.state x.calls)
      ((spec_applied_when (src_format.channels != dest_format.channels)
        (spec_channels_stage c src_format.channels dest_format.channels) x).bind
        fun x2 =>
      (spec_applied_when (src_format.sample_rate != dest_format.sample_rate)
        (spec_resample_stage c dest_format.channels src_format.sample_rate
          dest_format.sample_rate) x2).bind fun x3 =>
        spec_applied_when dest_format.reverse_endian (spec_byteswap_stage c) x3) := by
  unfold chain_channels
  by_cases hc : src_format.channels = dest_format.channels
  · have hb : (src_format.channels != dest_format.channels) = false := by
      simpa using hc
    rw [if_neg (not_not.mpr hc)]
    simp only [hb, spec_applied_when_false, Option.some_bind]
    exact chain_resample_matches c src_format dest_format x
  · have hb : (src_format.channels != dest_format.channels) = true := by
      simpa using hc
    rw [if_pos hc]
    simp only [hb, spec_applied_when_true, spec_channels_stage]
    rcases c.channels x.state.channels_buffer dest_format.channels
      src_format.channels x.buf x.len with ⟨_ | ⟨b, l⟩, cb⟩
    · simp [result_matches]
    · exact chain_resample_matches c src_format dest_format
        { buf := b, len := l, state := { x.state with channels_buffer := cb },
          calls := x.calls ++ [c.channels_call] }

theorem run_chain_matches (c : chain_kernels R D)
    (state : pcm_convert_state R D) (src_format : audio_format)
    (src_buffer : List Nat) (src_size : Nat) (dest_format : audio_format) :
    result_matches
      (run_chain c state src_format src_buffer src_size dest_format)
      (spec_pipeline c state src_format src_buffer src_size dest_format) := by
  rw [run_chain_eq]
  unfold spec_pipeline spec_format_stage
  rcases c.format state.format_buffer state.dither src_format.format
    src_buffer src_size with ⟨_ | ⟨b, l⟩, fb, d⟩
  · simp [result_matches]
  · exact chain_channels_matches c src_format dest_format
      { buf := b, len := l,
        state := { state with format_buffer := fb, dither := d },
        calls := [c.format_call] }

theorem pcm_convert_24_size_stored (k : pcm_kernels R D)
    (state : pcm_convert_state R D) (src_format : audio_format)
    (src_buffer : List Nat) (src_size : Nat) (dest_format : audio_format)
    (buffer : List Nat)
    (h : (pcm_convert_24 k state src_format src_buffer src_size
      dest_format).ret = some buffer) :
    ∃ buffer_size, (pcm_convert_24 k state src_format src_buffer src_size
      dest_format).dest_size = some buffer_size := by
  obtain ⟨h1, h2, _⟩ := run_chain_matches (chain_24 k) state src_format
    src_buffer src_size dest_format
  rw [pcm_convert_24_eq_run_chain] at h ⊢
  rcases hs : spec_pipeline (chain_24 k) state src_format src_buffer src_size
    dest_format with _ | x
  · rw [hs] at h1
    rw [h1] at h
    cases h
  · rw [hs] at h2
    exact ⟨x.len, h2⟩

/-- C3: for each of the destinations S16, S24_P32 and S32, `pcm_convert`
agrees with the composition, in this order, of the sample-format conversion of
the source buffer, the channel conversion (applied exactly when the channel
counts differ), the resampling on `dest.channels` channels (applied exactly
when the sample rates differ) and the byte swapping (applied exactly when
`dest.reverse_endian` is set), a stage whose condition is false handing its
input on unchanged: when every stage succeeds, `pcm_convert` returns the buffer
and the size of the composition, with the same state and the same kernel calls
in the same order; when a stage fails, both return nothing. -/
theorem pcm_convert_stage_order (k : pcm_kernels R D)
    (state : pcm_convert_state R D) (src_format : audio_format)
    (src : List Nat) (src_size : Nat) (dest_format : audio_format)
    (c : chain_kernels R D)
    (hd : dest_format.format = SAMPLE_FORMAT_S16 ∨
      dest_format.format = SAMPLE_FORMAT_S24_P32 ∨
      dest_format.format = SAMPLE_FORMAT_S32)
    (hc : chain_of k dest_format.format = some c) :
    let r := pcm_convert k state src_format src src_size dest_format
    let s := spec_pipeline c state src_format src src_size dest_format
    r.ret = s.map (fun x => x.buf) ∧ r.dest_size = s.map (fun x => x.len) ∧
      ∀ x, s = some x → r.state = x.state ∧ r.calls = x.calls := by
  rcases hd with hd | hd | hd <;>
    simp only [hd, chain_of, Option.some.injEq] at hc <;> subst hc <;>
    simp only [pcm_convert, hd, pcm_convert_16_eq_run_chain,
      pcm_convert_24_eq_run_chain, pcm_convert_32_eq_run_chain] <;>
    exact run_chain_matches _ state src_format src src_size dest_format

/-- C3 at a concrete input: 8 bit mono at 44100 Hz towards 16 bit stereo at
48000 Hz in reverse byte order, where all four stages run. -/
theorem pcm_convert_stage_order_witness :
    ((⟨48000, SAMPLE_FORMAT_S16, 2, true⟩ : audio_format).format
        = SAMPLE_FORMAT_S16 ∨
      (⟨48000, SAMPLE_FORMAT_S16, 2, true⟩ : audio_format).format
        = SAMPLE_FORMAT_S24_P32 ∨
      (⟨48000, SAMPLE_FORMAT_S16, 2, true⟩ : audio_format).format
        = SAMPLE_FORMAT_S32) ∧
      chain_of example_kernels
        (⟨48000, SAMPLE_FORMAT_S16, 2, true⟩ : audio_format).format
        = some (chain_16 example_kernels) ∧
      (let r := pcm_convert example_kernels example_state
          ⟨44100, SAMPLE_FORMAT_S8, 1, false⟩ [1, 2] 2
          ⟨48000, SAMPLE_FORMAT_S16, 2, true⟩
       let s := spec_pipeline (chain_16 example_kernels) example_state
          ⟨44100, SAMPLE_FORMAT_S8, 1, false⟩ [1, 2] 2
          ⟨48000, SAMPLE_FORMAT_S16, 2, true⟩
       r.ret = s.map (fun x => x.buf) ∧
        r.dest_size = s.map (fun x => x.len) ∧
        ∀ x, s = some x → r.state = x.state ∧ r.calls = x.calls) :=
  ⟨Or.inl rfl, rfl, pcm_convert_stage_order example_kernels example_state
    ⟨44100, SAMPLE_FORMAT_S8, 1, false⟩ [1, 2] 2
    ⟨48000, SAMPLE_FORMAT_S16, 2, true⟩ (chain_16 example_kernels)
    (Or.inl rfl) rfl⟩


/-! ### Equal sample rates -/

theorem chain_byteswap_resample_state (c : chain_kernels R D)
    (dest_format : audio_format) (buf : List Nat) (len : Nat)
    (err : Option String) (state3 : pcm_convert_state R D)
    (calls3 : List stage_call) :
    (chain_byteswap c dest_format buf len err state3 calls3).state.resample
      = state3.resample := by
  unfold chain_byteswap
  split <;> rfl

theorem chain_byteswap_calls_mem (c : chain_kernels R D)
    (dest_format : audio_format) (buf : List Nat) (len : Nat)
    (err : Option String) (state3 : pcm_convert_state R D)
    (calls3 : List stage_call) :
    ∀ t ∈ (chain_byteswap c dest_format buf len err state3 calls3).calls,
      t ∈ calls3 ∨ t = c.byteswap_call := by
  unfold chain_byteswap
  split
  · simp
  · exact fun t ht => Or.inl ht

theorem chain_channels_equal_rates (c : chain_kernels R D)
    (src_format dest_format : audio_format) (buf : List Nat) (len : Nat)
    (state1 : pcm_convert_state R D) (calls1 : List stage_call)
    (h : src_format.sample_rate = dest_format.sample_rate) :
    let r := chain_channels c src_format dest_format buf len state1 calls1
    r.state.resample = state1.resample ∧
      (∀ t ∈ r.calls, t ∈ calls1 ∨ t = c.channels_call ∨ t = c.byteswap_call) ∧
      ∀ f, chain_channels { c with resample := f } src_format dest_format buf
        len state1 calls1 = r := by
  have hres : ∀ (b : List Nat) (l : Nat) (st : pcm_convert_state R D)
      (cs : List stage_call) (c : chain_kernels R D),
      chain_resample c src_format dest_format b l st cs
        = chain_byteswap c dest_format b l none st cs := by
    intro b l st cs c
    unfold chain_resample
    rw [if_neg (not_not.mpr h)]
  unfold chain_channels
  by_cases hc : src_format.channels = dest_format.channels
  · simp only [if_neg (not_not.mpr hc), hres]
    refine ⟨chain_byteswap_resample_state .., ?_, fun f => rfl⟩
    intro t ht
    rcases chain_byteswap_calls_mem _ _ _ _ _ _ _ t ht with h1 | h1
    · exact Or.inl h1
    · exact Or.inr (Or.inr h1)
  · simp only [if_pos hc, hres]
    rcases c.channels state1.channels_buffer dest_format.channels
      src_format.channels buf len with ⟨_ | ⟨b, l⟩, cb⟩
    · refine ⟨rfl, ?_, fun f => rfl⟩
      simp only [List.mem_append, List.mem_singleton]
      rintro t (h1 | h1)
      · exact Or.inl h1
      · exact Or.inr (Or.inl h1)
    · refine ⟨chain_byteswap_resample_state .., ?_, fun f => rfl⟩
      intro t ht
      rcases chain_byteswap_calls_mem _ _ _ _ _ _ _ t ht with h1 | h1
      · simp only [List.mem_append, List.mem_singleton] at h1
        rcases h1 with h1 | h1
        · exact Or.inl h1
        · exact Or.inr (Or.inl h1)
      · exact Or.inr (Or.inr h1)

theorem run_chain_equal_rates (c : chain_kernels R D)
    (state : pcm_convert_state R D) (src_format : audio_format)
    (src_buffer : List Nat) (src_size : Nat) (dest_format : audio_format)
    (h : src_format.sample_rate = dest_format.sample_rate) :
    let r := run_chain c state src_format src_buffer src_size dest_format
    r.state.resample = state.resample ∧
      (∀ t ∈ r.calls,
        t = c.format_call ∨ t = c.channels_call ∨ t = c.byteswap_call) ∧
      ∀ f, run_chain { c with resample := f } state src_format src_buffer
        src_size dest_format = r := by
  simp only [run_chain_eq]
  rcases c.format state.format_buffer state.dither src_format.format
    src_buffer src_size with ⟨_ | ⟨b, l⟩, fb, d⟩
  · refine ⟨rfl, ?_, fun f => rfl⟩
    simp
  · obtain ⟨h1, h2, h3⟩ := chain_channels_equal_rates c src_format dest_format
      b l { state with format_buffer := fb, dither := d } [c.format_call] h
    refine ⟨h1, ?_, h3⟩
    intro t ht
    rcases h2 t ht with h4 | h4
    · exact Or.inl (by simpa using h4)
    · exact Or.inr h4


theorem pcm_convert_24_packed_equal_rates (k : pcm_kernels R D)
    (state : pcm_convert_state R D) (src_format : audio_format)
    (src_buffer : List Nat) (src_size : Nat) (dest_format : audio_format)
    (h : src_format.sample_rate = dest_format.sample_rate) :
    let r := pcm_convert_24_packed k state src_format src_buffer src_size
      dest_format
    r.state.resample = state.resample ∧
      (∀ t ∈ r.calls, t = stage_call.pcm_convert_to_24 ∨
        t = stage_call.pcm_convert_channels_24 ∨
        t = stage_call.pcm_byteswap_32 ∨ t = stage_call.pcm_pack_24) ∧
      ∀ r16 r24 r32, pcm_convert_24_packed
        { k with pcm_resample_16 := r16, pcm_resample_24 := r24,
                 pcm_resample_32 := r32 }
        state src_format src_buffer src_size dest_format = r := by
  obtain ⟨h1, h2, h3⟩ := run_chain_equal_rates (chain_24 k) state src_format
    src_buffer src_size (audio_format_init dest_format.sample_rate
      SAMPLE_FORMAT_S24_P32 dest_format.channels) h
  have h3 : ∀ r16 r24 r32, pcm_convert_24
      { k with pcm_resample_16 := r16, pcm_resample_24 := r24,
               pcm_resample_32 := r32 }
      state src_format src_buffer src_size (audio_format_init
        dest_format.sample_rate SAMPLE_FORMAT_S24_P32 dest_format.channels)
      = pcm_convert_24 k state src_format src_buffer src_size
        (audio_format_init dest_format.sample_rate SAMPLE_FORMAT_S24_P32
          dest_format.channels) := by
    intro r16 r24 r32
    rw [pcm_convert_24_eq_run_chain, pcm_convert_24_eq_run_chain]
    exact h3 r24
  rw [← pcm_convert_24_eq_run_chain] at h1 h2
  unfold pcm_convert_24_packed
  simp only [h3]
  rcases hret : (pcm_convert_24 k state src_format src_buffer src_size
      (audio_format_init dest_format.sample_rate SAMPLE_FORMAT_S24_P32
        dest_format.channels)).ret with _ | buffer
  · refine ⟨h1, ?_, fun _ _ _ => trivial⟩
    intro t ht
    rcases h2 t ht with h4 | h4 | h4
    · exact Or.inl h4
    · exact Or.inr (Or.inl h4)
    · exact Or.inr (Or.inr (Or.inl h4))
  · have hmem : ∀ t ∈ (pcm_convert_24 k state src_format src_buffer src_size
        (audio_format_init dest_format.sample_rate SAMPLE_FORMAT_S24_P32
          dest_format.channels)).calls ++ [stage_call.pcm_pack_24],
        t = stage_call.pcm_convert_to_24 ∨
        t = stage_call.pcm_convert_channels_24 ∨
        t = stage_call.pcm_byteswap_32 ∨ t = stage_call.pcm_pack_24 := by
      intro t ht
      simp only [List.mem_append, List.mem_singleton] at ht
      rcases ht with ht | ht
      · rcases h2 t ht with h4 | h4 | h4
        · exact Or.inl h4
        · exact Or.inr (Or.inl h4)
        · exact Or.inr (Or.inr (Or.inl h4))
      · exact Or.inr (Or.inr (Or.inr ht))
    simp only []
    split
    · exact ⟨h1, hmem, fun _ _ _ => trivial⟩
    · exact ⟨h1, hmem, fun _ _ _ => trivial⟩

/-- C4: for every destination format and every input, when
`src.sample_rate == dest.sample_rate` the call of `pcm_convert` makes no call
of a resample kernel, leaves the resampler state inside the conversion state
as it was, and its whole outcome is the same whatever the resample kernels
are: what the stage after the resampling step receives is what the stage
before it produced. -/
theorem pcm_convert_equal_rates (k : pcm_kernels R D)
    (state : pcm_convert_state R D) (src_format : audio_format)
    (src : List Nat) (src_size : Nat) (dest_format : audio_format)
    (h : src_format.sample_rate = dest_format.sample_rate) :
    let r := pcm_convert k state src_format src src_size dest_format
    (stage_call.pcm_resample_16 ∉ r.calls ∧
      stage_call.pcm_resample_24 ∉ r.calls ∧
      stage_call.pcm_resample_32 ∉ r.calls) ∧
      r.state.resample = state.resample ∧
      ∀ r16 r24 r32, pcm_convert
        { k with pcm_resample_16 := r16, pcm_resample_24 := r24,
                 pcm_resample_32 := r32 }
        state src_format src src_size dest_format = r := by
  rcases hf : dest_format.format
  case SAMPLE_FORMAT_UNDEFINED => simp [pcm_convert, hf]
  case SAMPLE_FORMAT_S8 => simp [pcm_convert, hf]
  case SAMPLE_FORMAT_S16 =>
    obtain ⟨h1, h2, h3⟩ := run_chain_equal_rates (chain_16 k) state src_format
      src src_size dest_format h
    simp only [pcm_convert, hf, pcm_convert_16_eq_run_chain]
    refine ⟨⟨?_, ?_, ?_⟩, h1, fun r16 r24 r32 => h3 r16⟩ <;>
      intro hm <;> rcases h2 _ hm with h4 | h4 | h4 <;> cases h4
  case SAMPLE_FORMAT_S24 =>
    obtain ⟨h1, h2, h3⟩ := pcm_convert_24_packed_equal_rates k state
      src_format src src_size dest_format h
    simp only [pcm_convert, hf]
    refine ⟨⟨?_, ?_, ?_⟩, h1, h3⟩ <;>
      intro hm <;> rcases h2 _ hm with h4 | h4 | h4 | h4 <;> cases h4
  case SAMPLE_FORMAT_S24_P32 =>
    obtain ⟨h1, h2, h3⟩ := run_chain_equal_rates (chain_24 k) state src_format
      src src_size dest_format h
    simp only [pcm_convert, hf, pcm_convert_24_eq_run_chain]
    refine ⟨⟨?_, ?_, ?_⟩, h1, fun r16 r24 r32 => h3 r24⟩ <;>
      intro hm <;> rcases h2 _ hm with h4 | h4 | h4 <;> cases h4
  case SAMPLE_FORMAT_S32 =>
    obtain ⟨h1, h2, h3⟩ := run_chain_equal_rates (chain_32 k) state src_format
      src src_size dest_format h
    simp only [pcm_convert, hf, pcm_convert_32_eq_run_chain]
    refine ⟨⟨?_, ?_, ?_⟩, h1, fun r16 r24 r32 => h3 r32⟩ <;>
      intro hm <;> rcases h2 _ hm with h4 | h4 | h4 <;> cases h4


/-- C4 at a concrete input: 8 bit mono towards 16 bit stereo, both at
44100 Hz. -/
theorem pcm_convert_equal_rates_witness :
    (⟨44100, SAMPLE_FORMAT_S8, 1, false⟩ : audio_format).sample_rate
        = (⟨44100, SAMPLE_FORMAT_S16, 2, true⟩ : audio_format).sample_rate ∧
      (let r := pcm_convert example_kernels example_state
          ⟨44100, SAMPLE_FORMAT_S8, 1, false⟩ [1, 2] 2
          ⟨44100, SAMPLE_FORMAT_S16, 2, true⟩
       (stage_call.pcm_resample_16 ∉ r.calls ∧
          stage_call.pcm_resample_24 ∉ r.calls ∧
          stage_call.pcm_resample_32 ∉ r.calls) ∧
        r.state.resample = example_state.resample ∧
        ∀ r16 r24 r32, pcm_convert
          { example_kernels with pcm_resample_16 := r16,
                                 pcm_resample_24 := r24,
                                 pcm_resample_32 := r32 }
          example_state ⟨44100, SAMPLE_FORMAT_S8, 1, false⟩ [1, 2] 2
          ⟨44100, SAMPLE_FORMAT_S16, 2, true⟩ = r) :=
  ⟨rfl, pcm_convert_equal_rates example_kernels example_state
    ⟨44100, SAMPLE_FORMAT_S8, 1, false⟩ [1, 2] 2
    ⟨44100, SAMPLE_FORMAT_S16, 2, true⟩ rfl⟩


/-! ### Byte order -/

theorem chain_channels_native (c : chain_kernels R D)
    (src_format dest_format : audio_format) (buf : List Nat) (len : Nat)
    (state1 : pcm_convert_state R D) (calls1 : List stage_call)
    (h : dest_format.reverse_endian = false) :
    let r := chain_channels c src_format dest_format buf len state1 calls1
    r.state.byteswap_buffer = state1.byteswap_buffer ∧
      (∀ t ∈ r.calls, t ∈ calls1 ∨ t = c.channels_call ∨ t = c.resample_call) ∧
      ∀ f, chain_channels { c with byteswap := f } src_format dest_format buf
        len state1 calls1 = r := by
  have hsw : ∀ (b : List Nat) (l : Nat) (e : Option String)
      (st : pcm_convert_state R D) (cs : List stage_call)
      (c : chain_kernels R D),
      chain_byteswap c dest_format b l e st cs
        = { ret := some b, dest_size := some l, error := e, state := st,
            calls := cs } := by
    intro b l e st cs c
    simp [chain_byteswap, h]
  have hres : ∀ (b : List Nat) (l : Nat) (st : pcm_convert_state R D)
      (cs : List stage_call),
      let r := chain_resample c src_format dest_format b l st cs
      r.state.byteswap_buffer = st.byteswap_buffer ∧
        (∀ t ∈ r.calls, t ∈ cs ∨ t = c.resample_call) ∧
        ∀ f, chain_resample { c with byteswap := f } src_format dest_format b
          l st cs = r := by
    intro b l st cs
    unfold chain_resample
    simp only [hsw]
    by_cases hr : src_format.sample_rate = dest_format.sample_rate
    · rw [if_neg (not_not.mpr hr)]
      simp only [if_neg (not_not.mpr hr)]
      exact ⟨trivial, fun t ht => Or.inl ht, fun f => trivial⟩
    · rw [if_pos hr]
      rcases c.resample st.resample dest_format.channels
        src_format.sample_rate b l dest_format.sample_rate
        with ⟨_ | ⟨b3, l3⟩, e3, r3⟩ <;> simp
  unfold chain_channels
  by_cases hc : src_format.channels = dest_format.channels
  · simp only [if_neg (not_not.mpr hc)]
    obtain ⟨h1, h2, h3⟩ := hres buf len state1 calls1
    refine ⟨h1, ?_, h3⟩
    intro t ht
    rcases h2 t ht with h4 | h4
    · exact Or.inl h4
    · exact Or.inr (Or.inr h4)
  · simp only [if_pos hc]
    rcases c.channels state1.channels_buffer dest_format.channels
      src_format.channels buf len with ⟨_ | ⟨b2, l2⟩, cb⟩
    · refine ⟨rfl, ?_, fun f => rfl⟩
      simp only [List.mem_append, List.mem_singleton]
      rintro t (h4 | h4)
      · exact Or.inl h4
      · exact Or.inr (Or.inl h4)
    · obtain ⟨h1, h2, h3⟩ := hres b2 l2
        { state1 with channels_buffer := cb } (calls1 ++ [c.channels_call])
      refine ⟨h1, ?_, h3⟩
      intro t ht
      rcases h2 t ht with h4 | h4
      · simp only [List.mem_append, List.mem_singleton] at h4
        rcases h4 with h4 | h4
        · exact Or.inl h4
        · exact Or.inr (Or.inl h4)
      · exact Or.inr (Or.inr h4)

theorem run_chain_native (c : chain_kernels R D)
    (state : pcm_convert_state R D) (src_format : audio_format)
    (src_buffer : List Nat) (src_size : Nat) (dest_format : audio_format)
    (h : dest_format.reverse_endian = false) :
    let r := run_chain c state src_format src_buffer src_size dest_format
    r.state.byteswap_buffer = state.byteswap_buffer ∧
      (∀ t ∈ r.calls,
        t = c.format_call ∨ t = c.channels_call ∨ t = c.resample_call) ∧
      ∀ f, run_chain { c with byteswap := f } state src_format src_buffer
        src_size dest_format = r := by
  simp only [run_chain_eq]
  rcases c.format state.format_buffer state.dither src_format.format
    src_buffer src_size with ⟨_ | ⟨b, l⟩, fb, d⟩
  · refine ⟨rfl, ?_, fun f => rfl⟩
    simp
  · obtain ⟨h1, h2, h3⟩ := chain_channels_native c src_format dest_format
      b l { state with format_buffer := fb, dither := d } [c.format_call] h
    refine ⟨h1, ?_, h3⟩
    intro t ht
    rcases h2 t ht with h4 | h4
    · exact Or.inl (by simpa using h4)
    · exact Or.inr h4

theorem run_chain_swapped (c : chain_kernels R D)
    (state : pcm_convert_state R D) (src_format : audio_format)
    (src_buffer : List Nat) (src_size : Nat) (dest_format : audio_format) :
    swapped_after c.byteswap c.byteswap_call
      (run_chain c state src_format src_buffer src_size
        { dest_format with reverse_endian := false })
      (run_chain c state src_format src_buffer src_size
        { dest_format with reverse_endian := true }) := by
  simp only [run_chain_eq]
  rcases c.format state.format_buffer state.dither src_format.format
    src_buffer src_size with ⟨_ | ⟨b1, l1⟩, fb, d⟩
  · simp [swapped_after]
  · simp only [chain_channels]
    by_cases hc : src_format.channels = dest_format.channels
    · simp only [if_neg (not_not.mpr hc), chain_resample]
      by_cases hr : src_format.sample_rate = dest_format.sample_rate
      · simp [if_neg (not_not.mpr hr), chain_byteswap, swapped_after]
      · simp only [if_pos hr]
        rcases c.resample state.resample dest_format.channels
          src_format.sample_rate b1 l1 dest_format.sample_rate
          with ⟨_ | ⟨b3, l3⟩, e3, r3⟩ <;>
        simp [chain_byteswap, swapped_after]
    · simp only [if_pos hc]
      rcases c.channels state.channels_buffer dest_format.channels
        src_format.channels b1 l1 with ⟨_ | ⟨b2, l2⟩, cb⟩
      · simp [swapped_after]
      · simp only [chain_resample]
        by_cases hr : src_format.sample_rate = dest_format.sample_rate
        · simp [if_neg (not_not.mpr hr), chain_byteswap, swapped_after]
        · simp only [if_pos hr]
          rcases c.resample state.resample dest_format.channels
            src_format.sample_rate b2 l2 dest_format.sample_rate
            with ⟨_ | ⟨b3, l3⟩, e3, r3⟩ <;>
          simp [chain_byteswap, swapped_after]


/-- C5: for the destinations S16, S24_P32 and S32, byte-order correction is
applied if and only if `dest.reverse_endian` is true, with the width of the
destination.  Let `p` be the call with `reverse_endian` false and `r` the call
with `reverse_endian` true.  Then `p` calls no byte-swap kernel, leaves the
byte-swap buffer untouched and does not depend on the byte-swap kernels (it
returns the buffer of the previous stage); and `r` is `p` followed by one call
of `pcm_byteswap_16` (S16) or `pcm_byteswap_32` (S24_P32, S32) on the buffer
and size `p` returns, the size being kept; when `p` returns `NULL`, so does
`r`, with no byte swap. -/
theorem pcm_convert_byte_order (k : pcm_kernels R D)
    (state : pcm_convert_state R D) (src_format : audio_format)
    (src : List Nat) (src_size : Nat) (dest_format : audio_format)
    (hd : dest_format.format = SAMPLE_FORMAT_S16 ∨
      dest_format.format = SAMPLE_FORMAT_S24_P32 ∨
      dest_format.format = SAMPLE_FORMAT_S32) :
    let p := pcm_convert k state src_format src src_size
      { dest_format with reverse_endian := false }
    let r := pcm_convert k state src_format src src_size
      { dest_format with reverse_endian := true }
    (stage_call.pcm_byteswap_16 ∉ p.calls ∧
      stage_call.pcm_byteswap_32 ∉ p.calls ∧
      p.state.byteswap_buffer = state.byteswap_buffer ∧
      ∀ s16 s32, pcm_convert
        { k with pcm_byteswap_16 := s16, pcm_byteswap_32 := s32 }
        state src_format src src_size
        { dest_format with reverse_endian := false } = p) ∧
      (dest_format.format = SAMPLE_FORMAT_S16 →
        swapped_after k.pcm_byteswap_16 stage_call.pcm_byteswap_16 p r) ∧
      (dest_format.format = SAMPLE_FORMAT_S24_P32 ∨
        dest_format.format = SAMPLE_FORMAT_S32 →
        swapped_after k.pcm_byteswap_32 stage_call.pcm_byteswap_32 p r) := by
  rcases hd with hd | hd | hd
  · obtain ⟨h1, h2, h3⟩ := run_chain_native (chain_16 k) state src_format src
      src_size { dest_format with reverse_endian := false } rfl
    have h4 := run_chain_swapped (chain_16 k) state src_format src src_size
      dest_format
    simp only [pcm_convert, hd, pcm_convert_16_eq_run_chain]
    refine ⟨⟨?_, ?_, h1, fun s16 s32 => h3 s16⟩, fun _ => h4, ?_⟩
    · intro hm
      rcases h2 _ hm with h5 | h5 | h5 <;> cases h5
    · intro hm
      rcases h2 _ hm with h5 | h5 | h5 <;> cases h5
    · rintro (h5 | h5) <;> cases h5
  · obtain ⟨h1, h2, h3⟩ := run_chain_native (chain_24 k) state src_format src
      src_size { dest_format with reverse_endian := false } rfl
    have h4 := run_chain_swapped (chain_24 k) state src_format src src_size
      dest_format
    simp only [pcm_convert, hd, pcm_convert_24_eq_run_chain]
    refine ⟨⟨?_, ?_, h1, fun s16 s32 => h3 s32⟩, ?_, fun _ => h4⟩
    · intro hm
      rcases h2 _ hm with h5 | h5 | h5 <;> cases h5
    · intro hm
      rcases h2 _ hm with h5 | h5 | h5 <;> cases h5
    · intro h5
      cases h5
  · obtain ⟨h1, h2, h3⟩ := run_chain_native (chain_32 k) state src_format src
      src_size { dest_format with reverse_endian := false } rfl
    have h4 := run_chain_swapped (chain_32 k) state src_format src src_size
      dest_format
    simp only [pcm_convert, hd, pcm_convert_32_eq_run_chain]
    refine ⟨⟨?_, ?_, h1, fun s16 s32 => h3 s32⟩, ?_, fun _ => h4⟩
    · intro hm
      rcases h2 _ hm with h5 | h5 | h5 <;> cases h5
    · intro hm
      rcases h2 _ hm with h5 | h5 | h5 <;> cases h5
    · intro h5
      cases h5


/-- C5 at a concrete input: 16 bit stereo towards 16 bit stereo. -/
theorem pcm_convert_byte_order_witness :
    ((⟨44100, SAMPLE_FORMAT_S16, 2, true⟩ : audio_format).format
        = SAMPLE_FORMAT_S16 ∨
      (⟨44100, SAMPLE_FORMAT_S16, 2, true⟩ : audio_format).format
        = SAMPLE_FORMAT_S24_P32 ∨
      (⟨44100, SAMPLE_FORMAT_S16, 2, true⟩ : audio_format).format
        = SAMPLE_FORMAT_S32) ∧
      (let p := pcm_convert example_kernels example_state
          ⟨44100, SAMPLE_FORMAT_S16, 2, false⟩ [1, 2, 3, 4] 4
          ⟨44100, SAMPLE_FORMAT_S16, 2, false⟩
       let r := pcm_convert example_kernels example_state
          ⟨44100, SAMPLE_FORMAT_S16, 2, false⟩ [1, 2, 3, 4] 4
          ⟨44100, SAMPLE_FORMAT_S16, 2, true⟩
       (stage_call.pcm_byteswap_16 ∉ p.calls ∧
          stage_call.pcm_byteswap_32 ∉ p.calls ∧
          p.state.byteswap_buffer = example_state.byteswap_buffer ∧
          ∀ s16 s32, pcm_convert
            { example_kernels with pcm_byteswap_16 := s16,
                                   pcm_byteswap_32 := s32 }
            example_state ⟨44100, SAMPLE_FORMAT_S16, 2, false⟩ [1, 2, 3, 4] 4
            ⟨44100, SAMPLE_FORMAT_S16, 2, false⟩ = p) ∧
        (SAMPLE_FORMAT_S16 = SAMPLE_FORMAT_S16 →
          swapped_after example_kernels.pcm_byteswap_16
            stage_call.pcm_byteswap_16 p r) ∧
        (SAMPLE_FORMAT_S16 = SAMPLE_FORMAT_S24_P32 ∨
          SAMPLE_FORMAT_S16 = SAMPLE_FORMAT_S32 →
          swapped_after example_kernels.pcm_byteswap_32
            stage_call.pcm_byteswap_32 p r)) :=
  ⟨Or.inl rfl, pcm_convert_byte_order example_kernels example_state
    ⟨44100, SAMPLE_FORMAT_S16, 2, false⟩ [1, 2, 3, 4] 4
    ⟨44100, SAMPLE_FORMAT_S16, 2, true⟩ (Or.inl rfl)⟩

/-! ### The packed 24 bit destination -/

theorem pcm_convert_24_packed_eq (k : pcm_kernels R D)
    (state : pcm_convert_state R D) (src_format : audio_format)
    (src : List Nat) (src_size : Nat) (dest_format : audio_format)
    (p : pcm_convert_result R D)
    (hp : p = run_chain (chain_24 k) state src_format src src_size
      { dest_format with format := SAMPLE_FORMAT_S24_P32,
                         reverse_endian := false }) :
    pcm_convert_24_packed k state src_format src src_size dest_format =
      match p.ret with
      | none =>
        { ret := none, dest_size := none, error := p.error,
          state := p.state, calls := p.calls }
      | some buffer =>
        { ret := (k.pcm_buffer_get p.state.pack_buffer
              ((p.dest_size.getD 0 / 4) % 2 ^ 32 * 3 % 2 ^ 32)).map
            fun got => (k.pcm_pack_24 got buffer
              ((p.dest_size.getD 0 / 4) % 2 ^ 32)
              dest_format.reverse_endian).1,
          dest_size := some ((p.dest_size.getD 0 / 4) % 2 ^ 32 * 3 % 2 ^ 32),
          error := p.error,
          state :=
            match k.pcm_buffer_get p.state.pack_buffer
              ((p.dest_size.getD 0 / 4) % 2 ^ 32 * 3 % 2 ^ 32) with
            | none => p.state
            | some got =>
              { p.state with
                pack_buffer := (k.pcm_pack_24 got buffer
                  ((p.dest_size.getD 0 / 4) % 2 ^ 32)
                  dest_format.reverse_endian).2 },
          calls := p.calls ++ [stage_call.pcm_pack_24] } := by
  subst hp
  unfold pcm_convert_24_packed
  rw [pcm_convert_24_eq_run_chain]
  simp only [audio_format_init]
  split
  · rfl
  · split
    · next hget => simp only [hget, Option.map_none']
    · next got hget => simp only [hget, Option.map_some']

/-- C6 as stated fails: 24-in-32 mono towards packed 24 bit mono with
`reverse_endian` set succeeds, and `pcm_byteswap_32` is not among the calls:
the only calls are the sample-format kernel and the pack kernel. -/
theorem pcm_convert_24_packed_no_byteswap :
    (⟨44100, SAMPLE_FORMAT_S24, 1, true⟩ : audio_format).reverse_endian = true ∧
      (pcm_convert example_kernels example_state
        ⟨44100, SAMPLE_FORMAT_S24_P32, 1, false⟩ [1, 2, 3, 0] 4
        ⟨44100, SAMPLE_FORMAT_S24, 1, true⟩).ret = some [3, 2, 1] ∧
      stage_call.pcm_byteswap_32 ∉
        (pcm_convert example_kernels example_state
          ⟨44100, SAMPLE_FORMAT_S24_P32, 1, false⟩ [1, 2, 3, 0] 4
          ⟨44100, SAMPLE_FORMAT_S24, 1, true⟩).calls ∧
      (pcm_convert example_kernels example_state
        ⟨44100, SAMPLE_FORMAT_S24_P32, 1, false⟩ [1, 2, 3, 0] 4
        ⟨44100, SAMPLE_FORMAT_S24, 1, true⟩).calls
        = [stage_call.pcm_convert_to_24, stage_call.pcm_pack_24] := by
  decide

/-- C6, amended: for a packed 24 bit (S24) destination, whatever
`reverse_endian` is, no byte-swap kernel is called and the byte-swap buffer is
untouched: the 24-in-32 chain is run towards a native-order format, and the
pack stage consumes its buffer as it is, the byte order being handed to
`pcm_pack_24` as its `reverse_endian` argument.  With `p` the conversion
towards 24-in-32 in native order at the same rate and channel count: if `p`
returns `NULL` so does the call, without packing; otherwise the call returns
the pointer of `pcm_buffer_get`, holding what `pcm_pack_24` makes of the buffer
of `p` and of `dest.reverse_endian` (and `NULL` when `pcm_buffer_get` gave
`NULL`), and its calls are those of `p` followed by the pack call. -/
theorem pcm_convert_24_packed_byte_order (k : pcm_kernels R D)
    (state : pcm_convert_state R D) (src_format : audio_format)
    (src : List Nat) (src_size : Nat) (dest_format : audio_format)
    (hd : dest_format.format = SAMPLE_FORMAT_S24) :
    let p := pcm_convert k state src_format src src_size
      { dest_format with format := SAMPLE_FORMAT_S24_P32,
                         reverse_endian := false }
    let r := pcm_convert k state src_format src src_size dest_format
    (stage_call.pcm_byteswap_16 ∉ r.calls ∧
      stage_call.pcm_byteswap_32 ∉ r.calls ∧
      r.state.byteswap_buffer = state.byteswap_buffer ∧
      ∀ s16 s32, pcm_convert
        { k with pcm_byteswap_16 := s16, pcm_byteswap_32 := s32 }
        state src_format src src_size dest_format = r) ∧
      (p.ret = none → r.ret = none ∧ r.calls = p.calls) ∧
      ∀ buffer size, p.ret = some buffer → p.dest_size = some size →
        r.ret = (k.pcm_buffer_get p.state.pack_buffer
            ((size / 4) % 2 ^ 32 * 3 % 2 ^ 32)).map (fun got =>
          (k.pcm_pack_24 got buffer ((size / 4) % 2 ^ 32)
            dest_format.reverse_endian).1) ∧
        r.calls = p.calls ++ [stage_call.pcm_pack_24] := by
  obtain ⟨h1, h2, h3⟩ := run_chain_native (chain_24 k) state src_format src
    src_size { dest_format with format := SAMPLE_FORMAT_S24_P32,
                                reverse_endian := false } rfl
  have hk : ∀ s16 s32, pcm_convert_24_packed
      { k with pcm_byteswap_16 := s16, pcm_byteswap_32 := s32 }
      state src_format src src_size dest_format
      = pcm_convert_24_packed k state src_format src src_size dest_format := by
    intro s16 s32
    rw [pcm_convert_24_packed_eq _ state src_format src src_size dest_format
        _ rfl,
      pcm_convert_24_packed_eq k state src_format src src_size dest_format
        _ rfl]
    have := h3 s32
    simp only [chain_24] at this ⊢
    rw [this]
  simp only [pcm_convert, hd, hk, pcm_convert_24_eq_run_chain]
  rw [pcm_convert_24_packed_eq k state src_format src src_size dest_format
    _ rfl]
  have hmem : ∀ t, t = stage_call.pcm_byteswap_16 ∨
      t = stage_call.pcm_byteswap_32 →
      t ∉ (run_chain (chain_24 k) state src_format src src_size
        { dest_format with format := SAMPLE_FORMAT_S24_P32,
                           reverse_endian := false }).calls := by
    intro t ht hm
    rcases h2 t hm with h5 | h5 | h5 <;> subst h5 <;>
      rcases ht with ht | ht <;> cases ht
  rcases hret : (run_chain (chain_24 k) state src_format src src_size
      { dest_format with format := SAMPLE_FORMAT_S24_P32,
                         reverse_endian := false }).ret with _ | buffer
  · simp only [true_and, implies_true, and_true]
    refine ⟨⟨hmem _ (Or.inl rfl), hmem _ (Or.inr rfl), h1⟩, ?_⟩
    intro buffer size hb
    cases hb
  · simp only [List.mem_append, List.mem_singleton, not_or, true_and,
      implies_true, and_true]
    refine ⟨⟨⟨hmem _ (Or.inl rfl), by decide⟩,
      ⟨hmem _ (Or.inr rfl), by decide⟩, by split <;> exact h1⟩, ?_, ?_⟩
    · intro hb
      cases hb
    · intro b size hb hs
      cases hb
      simp [hs]


/-- C6, amended, at a concrete input: 24-in-32 mono towards packed 24 bit mono
in reverse byte order. -/
theorem pcm_convert_24_packed_byte_order_witness :
    (⟨44100, SAMPLE_FORMAT_S24, 1, true⟩ : audio_format).format
        = SAMPLE_FORMAT_S24 ∧
      (let p := pcm_convert example_kernels example_state
          ⟨44100, SAMPLE_FORMAT_S24_P32, 1, false⟩ [1, 2, 3, 0] 4
          ⟨44100, SAMPLE_FORMAT_S24_P32, 1, false⟩
       let r := pcm_convert example_kernels example_state
          ⟨44100, SAMPLE_FORMAT_S24_P32, 1, false⟩ [1, 2, 3, 0] 4
          ⟨44100, SAMPLE_FORMAT_S24, 1, true⟩
       (stage_call.pcm_byteswap_16 ∉ r.calls ∧
          stage_call.pcm_byteswap_32 ∉ r.calls ∧
          r.state.byteswap_buffer = example_state.byteswap_buffer ∧
          ∀ s16 s32, pcm_convert
            { example_kernels with pcm_byteswap_16 := s16,
                                   pcm_byteswap_32 := s32 }
            example_state ⟨44100, SAMPLE_FORMAT_S24_P32, 1, false⟩
            [1, 2, 3, 0] 4 ⟨44100, SAMPLE_FORMAT_S24, 1, true⟩ = r) ∧
        (p.ret = none → r.ret = none ∧ r.calls = p.calls) ∧
        ∀ buffer size, p.ret = some buffer → p.dest_size = some size →
          r.ret = (example_kernels.pcm_buffer_get p.state.pack_buffer
              ((size / 4) % 2 ^ 32 * 3 % 2 ^ 32)).map (fun got =>
            (example_kernels.pcm_pack_24 got buffer ((size / 4) % 2 ^ 32)
              true).1) ∧
          r.calls = p.calls ++ [stage_call.pcm_pack_24]) :=
  ⟨rfl, pcm_convert_24_packed_byte_order example_kernels example_state
    ⟨44100, SAMPLE_FORMAT_S24_P32, 1, false⟩ [1, 2, 3, 0] 4
    ⟨44100, SAMPLE_FORMAT_S24, 1, true⟩ rfl⟩

/-! ### Sizes -/

theorem run_chain_pack_buffer (c : chain_kernels R D)
    (state : pcm_convert_state R D) (src_format : audio_format)
    (src_buffer : List Nat) (src_size : Nat) (dest_format : audio_format) :
    (run_chain c state src_format src_buffer src_size
      dest_format).state.pack_buffer = state.pack_buffer := by
  simp only [run_chain_eq, chain_channels, chain_resample, chain_byteswap]
  rcases c.format state.format_buffer state.dither src_format.format
    src_buffer src_size with ⟨_ | ⟨b, l⟩, fb, d⟩
  · rfl
  · simp only []
    repeat' split
    all_goals rfl

/-- Sizes with packing: once the 24-in-32 chain has returned a buffer of
`size` bytes, the size stored is `(size / 4) mod 2^32` samples times 3, again
modulo 2^32, whether `pcm_buffer_get` gave a region or `NULL`; what is
returned is the region `pcm_buffer_get` gave for that size, after
`pcm_pack_24` wrote into it. -/
theorem pcm_convert_24_packed_size (k : pcm_kernels R D)
    (state : pcm_convert_state R D) (src_format : audio_format)
    (src : List Nat) (src_size : Nat) (dest_format : audio_format)
    (hd : dest_format.format = SAMPLE_FORMAT_S24)
    (buffer : List Nat) (size : Nat)
    (hret : (pcm_convert k state src_format src src_size
      { dest_format with format := SAMPLE_FORMAT_S24_P32,
                         reverse_endian := false }).ret = some buffer)
    (hsize : (pcm_convert k state src_format src src_size
      { dest_format with format := SAMPLE_FORMAT_S24_P32,
                         reverse_endian := false }).dest_size = some size) :
    let p := pcm_convert k state src_format src src_size
      { dest_format with format := SAMPLE_FORMAT_S24_P32,
                         reverse_endian := false }
    let r := pcm_convert k state src_format src src_size dest_format
    r.ret = (k.pcm_buffer_get state.pack_buffer
        ((size / 4) % 2 ^ 32 * 3 % 2 ^ 32)).map (fun got =>
          (k.pcm_pack_24 got buffer ((size / 4) % 2 ^ 32)
            dest_format.reverse_endian).1) ∧
      r.dest_size = some ((size / 4) % 2 ^ 32 * 3 % 2 ^ 32) ∧
      r.calls = p.calls ++ [stage_call.pcm_pack_24] ∧
      r.error = p.error := by
  simp only [pcm_convert, pcm_convert_24_eq_run_chain] at hret hsize
  simp only [pcm_convert, hd, pcm_convert_24_eq_run_chain]
  rw [pcm_convert_24_packed_eq k state src_format src src_size dest_format
    _ rfl]
  simp [hret, hsize, run_chain_pack_buffer]

/-- C7 at the failing input: when the 24-in-32 chain hands 2^34 + 8 bytes
(2^32 + 2 samples, a multiple of 4) to the pack stage and `pcm_buffer_get`
gives a region for 6 bytes, the conversion towards packed 24 bit returns that
region with 2 samples packed into it and stores the size 6, not
3 * (2^32 + 2) = 12884901894: the sample count is narrowed to the 32 bit
`unsigned num_samples`. -/
theorem pcm_convert_24_packed_size_wraps (k : pcm_kernels R D)
    (state : pcm_convert_state R D) (src_format : audio_format)
    (src : List Nat) (src_size : Nat) (dest_format : audio_format)
    (hd : dest_format.format = SAMPLE_FORMAT_S24)
    (buffer : List Nat)
    (hret : (pcm_convert k state src_format src src_size
      { dest_format with format := SAMPLE_FORMAT_S24_P32,
                         reverse_endian := false }).ret = some buffer)
    (hsize : (pcm_convert k state src_format src src_size
      { dest_format with format := SAMPLE_FORMAT_S24_P32,
                         reverse_endian := false }).dest_size
      = some (2 ^ 34 + 8))
    (got : pcm_buffer)
    (hget : k.pcm_buffer_get state.pack_buffer 6 = some got) :
    let r := pcm_convert k state src_format src src_size dest_format
    r.ret = some (k.pcm_pack_24 got buffer 2 dest_format.reverse_endian).1 ∧
      r.dest_size = some 6 ∧
      (2 ^ 34 + 8) % 4 = 0 ∧ (2 ^ 34 + 8) / 4 * 3 = 12884901894 := by
  obtain ⟨h1, h2, _, _⟩ := pcm_convert_24_packed_size k state src_format src
    src_size dest_format hd buffer (2 ^ 34 + 8) hret hsize
  have e1 : (2 ^ 34 + 8) / 4 % 2 ^ 32 = 2 := by norm_num
  have e2 : 2 * 3 % 2 ^ 32 = 6 := by norm_num
  rw [e1, e2] at h1 h2
  rw [hget] at h1
  exact ⟨h1, h2, by norm_num, by norm_num⟩

/-- C7 at the failing input, on the example kernels: a 24-in-32 mono buffer
of 2^34 + 8 bytes towards packed 24 bit, on a fresh conversion state. -/
theorem pcm_convert_24_packed_size_wraps_witness :
    (⟨44100, SAMPLE_FORMAT_S24, 1, false⟩ : audio_format).format
        = SAMPLE_FORMAT_S24 ∧
      (pcm_convert example_kernels example_state
        ⟨44100, SAMPLE_FORMAT_S24_P32, 1, false⟩
        (List.replicate (2 ^ 34 + 8) 0) (2 ^ 34 + 8)
        ⟨44100, SAMPLE_FORMAT_S24_P32, 1, false⟩).ret
        = some (List.replicate (2 ^ 34 + 8) 0) ∧
      (pcm_convert example_kernels example_state
        ⟨44100, SAMPLE_FORMAT_S24_P32, 1, false⟩
        (List.replicate (2 ^ 34 + 8) 0) (2 ^ 34 + 8)
        ⟨44100, SAMPLE_FORMAT_S24_P32, 1, false⟩).dest_size
        = some (2 ^ 34 + 8) ∧
      example_kernels.pcm_buffer_get example_state.pack_buffer 6
        = some { buffer := [0, 0, 0, 0, 0, 0] } ∧
      (let r := pcm_convert example_kernels example_state
          ⟨44100, SAMPLE_FORMAT_S24_P32, 1, false⟩
          (List.replicate (2 ^ 34 + 8) 0) (2 ^ 34 + 8)
          ⟨44100, SAMPLE_FORMAT_S24, 1, false⟩
       r.ret = some [0, 0, 0, 0, 0, 0] ∧ r.dest_size = some 6 ∧
        (2 ^ 34 + 8) % 4 = 0 ∧ (2 ^ 34 + 8) / 4 * 3 = 12884901894) :=
  ⟨rfl, rfl, rfl, rfl,
    pcm_convert_24_packed_size_wraps example_kernels example_state
      ⟨44100, SAMPLE_FORMAT_S24_P32, 1, false⟩
      (List.replicate (2 ^ 34 + 8) 0) (2 ^ 34 + 8)
      ⟨44100, SAMPLE_FORMAT_S24, 1, false⟩ rfl
      (List.replicate (2 ^ 34 + 8) 0) rfl rfl
      { buffer := [0, 0, 0, 0, 0, 0] } rfl⟩


theorem run_chain_size (c : chain_kernels R D)
    (state : pcm_convert_state R D) (src_format : audio_format)
    (src_buffer : List Nat) (src_size : Nat) (dest_format : audio_format)
    (hch : src_format.channels = dest_format.channels)
    (hrate : src_format.sample_rate = dest_format.sample_rate)
    (b : List Nat) (l : Nat)
    (hfmt : (c.format state.format_buffer state.dither src_format.format
      src_buffer src_size).1 = some (b, l)) :
    let r := run_chain c state src_format src_buffer src_size dest_format
    r.ret.isSome = true ∧ r.dest_size = some l ∧
      (dest_format.reverse_endian = false → r.ret = some b) := by
  simp only [run_chain_eq]
  rcases hf : c.format state.format_buffer state.dither src_format.format
    src_buffer src_size with ⟨_ | ⟨b1, l1⟩, fb, d⟩
  · rw [hf] at hfmt
    cases hfmt
  · rw [hf] at hfmt
    cases hfmt
    simp only [chain_channels, if_neg (not_not.mpr hch), chain_resample,
      if_neg (not_not.mpr hrate), chain_byteswap]
    cases dest_format.reverse_endian <;> simp

/-- Sizes without packing: for the destinations S16, S24_P32 and
S32, with equal channel counts and equal rates, the size stored is the length
the sample-format kernel gave, whatever `reverse_endian` is. -/
theorem pcm_convert_size_unpacked (k : pcm_kernels R D)
    (state : pcm_convert_state R D) (src_format : audio_format)
    (src : List Nat) (src_size : Nat) (dest_format : audio_format)
    (c : chain_kernels R D)
    (hd : dest_format.format = SAMPLE_FORMAT_S16 ∨
      dest_format.format = SAMPLE_FORMAT_S24_P32 ∨
      dest_format.format = SAMPLE_FORMAT_S32)
    (hc : chain_of k dest_format.format = some c)
    (hch : src_format.channels = dest_format.channels)
    (hrate : src_format.sample_rate = dest_format.sample_rate)
    (b : List Nat) (l : Nat)
    (hfmt : (c.format state.format_buffer state.dither src_format.format
      src src_size).1 = some (b, l)) :
    let r := pcm_convert k state src_format src src_size dest_format
    r.ret.isSome = true ∧ r.dest_size = some l := by
  rcases hd with hd | hd | hd <;>
    simp only [hd, chain_of, Option.some.injEq] at hc <;> subst hc <;>
    simp only [pcm_convert, hd, pcm_convert_16_eq_run_chain,
      pcm_convert_24_eq_run_chain, pcm_convert_32_eq_run_chain] <;>
    exact ⟨(run_chain_size _ state src_format src src_size dest_format hch
      hrate b l hfmt).1, (run_chain_size _ state src_format src src_size
      dest_format hch hrate b l hfmt).2.1⟩

theorem frame_count_mul (n s ch w : Nat) (h : n % (s * ch) = 0) :
    n / s * w = n / (s * ch) * (w * ch) := by
  rcases Nat.eq_zero_or_pos s with hs | hs
  · subst hs
    simp
  rcases Nat.eq_zero_or_pos ch with hch | hch
  · subst hch
    simp only [Nat.mul_zero, Nat.mod_zero] at h
    subst h
    simp
  obtain ⟨q, hq⟩ := Nat.dvd_of_mod_eq_zero h
  have h1 : n / s = ch * q := by
    rw [hq, Nat.mul_assoc, Nat.mul_div_cancel_left _ hs]
  have h2 : n / (s * ch) = q := by
    rw [hq, Nat.mul_div_cancel_left _ (Nat.mul_pos hs hch)]
  rw [h1, h2]
  ring

/-- Sizes without packing, in frames: for the destinations S16,
S24_P32 and S32, with equal channel counts and rates, a source size that is a
whole number of frames and a sample-format stage that emits one sample of the
destination width per source sample, the size stored is the frame count times
the destination frame size. -/
theorem pcm_convert_frame_size_unpacked (k : pcm_kernels R D)
    (state : pcm_convert_state R D) (src_format : audio_format)
    (src : List Nat) (src_size : Nat) (dest_format : audio_format)
    (c : chain_kernels R D)
    (hd : dest_format.format = SAMPLE_FORMAT_S16 ∨
      dest_format.format = SAMPLE_FORMAT_S24_P32 ∨
      dest_format.format = SAMPLE_FORMAT_S32)
    (hc : chain_of k dest_format.format = some c)
    (hch : src_format.channels = dest_format.channels)
    (hrate : src_format.sample_rate = dest_format.sample_rate)
    (halign : src_size % audio_format_frame_size src_format = 0)
    (b : List Nat)
    (hfmt : (c.format state.format_buffer state.dither src_format.format
      src src_size).1 = some (b, src_size /
        sample_format_size src_format.format *
        sample_format_size dest_format.format)) :
    (pcm_convert k state src_format src src_size dest_format).dest_size
      = some (src_size / audio_format_frame_size src_format *
          audio_format_frame_size dest_format) := by
  have h := (pcm_convert_size_unpacked k state src_format src src_size
    dest_format c hd hc hch hrate b _ hfmt).2
  rw [h]
  unfold audio_format_frame_size at halign ⊢
  rw [← hch, frame_count_mul _ _ _ _ halign]

/-- Sizes with packing, in frames, for the packed 24 bit destination: under
the same assumptions, the sample-format stage emitting one 4-byte sample per
source sample, the size stored is the frame count times the destination frame
size as long as three times the sample count is below 2^32. -/
theorem pcm_convert_frame_size_packed (k : pcm_kernels R D)
    (state : pcm_convert_state R D) (src_format : audio_format)
    (src : List Nat) (src_size : Nat) (dest_format : audio_format)
    (hd : dest_format.format = SAMPLE_FORMAT_S24)
    (hch : src_format.channels = dest_format.channels)
    (hrate : src_format.sample_rate = dest_format.sample_rate)
    (halign : src_size % audio_format_frame_size src_format = 0)
    (hfit : src_size / sample_format_size src_format.format * 3 < 2 ^ 32)
    (b : List Nat)
    (hfmt : (k.pcm_convert_to_24 state.format_buffer src_format.format src
      src_size).1 = some (b, src_size /
        sample_format_size src_format.format * 4)) :
    (pcm_convert k state src_format src src_size dest_format).dest_size
      = some (src_size / audio_format_frame_size src_format *
          audio_format_frame_size dest_format) := by
  obtain ⟨h1, h2, h3⟩ := run_chain_size (chain_24 k) state src_format src
    src_size { dest_format with format := SAMPLE_FORMAT_S24_P32,
                                reverse_endian := false } hch hrate b _
    (by simpa [chain_24] using hfmt)
  have h4 := (pcm_convert_24_packed_size k state src_format src src_size
    dest_format hd b _
    (by simpa [pcm_convert, pcm_convert_24_eq_run_chain] using h3 rfl)
    (by simpa [pcm_convert, pcm_convert_24_eq_run_chain] using h2)).2.1
  rw [h4]
  unfold audio_format_frame_size at halign ⊢
  rw [← hch, hd, ← frame_count_mul _ _ _ _ halign]
  rw [show sample_format_size SAMPLE_FORMAT_S24 = 3 from rfl]
  congr 1
  rw [Nat.mul_div_cancel _ (by norm_num : 0 < 4)]
  have h5 : src_size / sample_format_size src_format.format < 2 ^ 32 := by
    omega
  rw [Nat.mod_eq_of_lt h5, Nat.mod_eq_of_lt hfit]

/-- C8 at the failing input: a 24-in-32 source of 2^34 + 32 bytes, converted
towards packed 24 bit with the same channel count and rate, the sample-format
stage emitting one 4-byte sample per source sample, and `pcm_buffer_get`
giving a region for 24 bytes.  The conversion returns that region with 8
samples packed into it and stores the size 24, while the input is a whole
number of frames and the frame count times the destination frame size is
3 * (2^32 + 8) = 12884901912, for 1, 2, 4 or 8 channels. -/
theorem pcm_convert_packed_frame_size_wraps (k : pcm_kernels R D)
    (state : pcm_convert_state R D) (src_format : audio_format)
    (src : List Nat) (dest_format : audio_format)
    (hs : src_format.format = SAMPLE_FORMAT_S24_P32)
    (hd : dest_format.format = SAMPLE_FORMAT_S24)
    (hch : src_format.channels = dest_format.channels)
    (hrate : src_format.sample_rate = dest_format.sample_rate)
    (hn : dest_format.channels = 1 ∨ dest_format.channels = 2 ∨
      dest_format.channels = 4 ∨ dest_format.channels = 8)
    (b : List Nat)
    (hfmt : (k.pcm_convert_to_24 state.format_buffer src_format.format src
      (2 ^ 34 + 32)).1
      = some (b, (2 ^ 34 + 32) / sample_format_size src_format.format * 4))
    (got : pcm_buffer)
    (hget : k.pcm_buffer_get state.pack_buffer 24 = some got) :
    let r := pcm_convert k state src_format src (2 ^ 34 + 32) dest_format
    r.ret = some (k.pcm_pack_24 got b 8 dest_format.reverse_endian).1 ∧
      r.dest_size = some 24 ∧
      (2 ^ 34 + 32) % audio_format_frame_size src_format = 0 ∧
      (2 ^ 34 + 32) / audio_format_frame_size src_format
        * audio_format_frame_size dest_format = 12884901912 := by
  have hp := run_chain_size (chain_24 k) state src_format src (2 ^ 34 + 32)
    { dest_format with format := SAMPLE_FORMAT_S24_P32,
                       reverse_endian := false } hch hrate b (2 ^ 34 + 32)
    (by simpa [chain_24, hs, sample_format_size] using hfmt)
  obtain ⟨h1, h2, h3⟩ := hp
  obtain ⟨h4, h5, _, _⟩ := pcm_convert_24_packed_size k state src_format src
    (2 ^ 34 + 32) dest_format hd b (2 ^ 34 + 32)
    (by simpa [pcm_convert, pcm_convert_24_eq_run_chain] using h3 rfl)
    (by simpa [pcm_convert, pcm_convert_24_eq_run_chain] using h2)
  have e1 : (2 ^ 34 + 32) / 4 % 2 ^ 32 = 8 := by norm_num
  have e2 : 8 * 3 % 2 ^ 32 = 24 := by norm_num
  rw [e1, e2] at h4 h5
  rw [hget] at h4
  refine ⟨h4, h5, ?_, ?_⟩ <;>
    rcases hn with hn | hn | hn | hn <;>
    simp [audio_format_frame_size, hs, hd, hch, hn, sample_format_size]

/-- C8 at the failing input, on the example kernels: 2^34 + 32 bytes of
24-in-32 mono at 44100 Hz towards packed 24 bit mono at 44100 Hz, on a fresh
conversion state. -/
theorem pcm_convert_packed_frame_size_wraps_witness :
    example_kernels.pcm_buffer_get example_state.pack_buffer 24
        = some { buffer := List.replicate 24 0 } ∧
    (let r := pcm_convert example_kernels example_state
        ⟨44100, SAMPLE_FORMAT_S24_P32, 1, false⟩
        (List.replicate (2 ^ 34 + 32) 0) (2 ^ 34 + 32)
        ⟨44100, SAMPLE_FORMAT_S24, 1, false⟩
     r.ret = some (List.replicate 24 0) ∧ r.dest_size = some 24 ∧
      (2 ^ 34 + 32) % audio_format_frame_size
        ⟨44100, SAMPLE_FORMAT_S24_P32, 1, false⟩ = 0 ∧
      (2 ^ 34 + 32) / audio_format_frame_size
          ⟨44100, SAMPLE_FORMAT_S24_P32, 1, false⟩
        * audio_format_frame_size ⟨44100, SAMPLE_FORMAT_S24, 1, false⟩
        = 12884901912) :=
  ⟨rfl, pcm_convert_packed_frame_size_wraps example_kernels example_state
    ⟨44100, SAMPLE_FORMAT_S24_P32, 1, false⟩
    (List.replicate (2 ^ 34 + 32) 0)
    ⟨44100, SAMPLE_FORMAT_S24, 1, false⟩ rfl rfl rfl rfl (Or.inl rfl)
    (List.replicate (2 ^ 34 + 32) 0) rfl { buffer := List.replicate 24 0 }
    rfl⟩


/-! ### Errors of the sample-format and channel stages -/

theorem run_chain_format_error (c : chain_kernels R D)
    (state : pcm_convert_state R D) (src_format : audio_format)
    (src_buffer : List Nat) (src_size : Nat) (dest_format : audio_format)
    (hrej : (c.format state.format_buffer state.dither src_format.format
      src_buffer src_size).1 = none) :
    let r := run_chain c state src_format src_buffer src_size dest_format
    r.ret = none ∧ r.dest_size = none ∧
      r.error = some (c.format_error src_format.format) ∧
      r.calls = [c.format_call] := by
  simp only [run_chain_eq]
  rcases hf : c.format state.format_buffer state.dither src_format.format
    src_buffer src_size with ⟨_ | ⟨b1, l1⟩, fb, d⟩
  · exact ⟨rfl, rfl, rfl, rfl⟩
  · rw [hf] at hrej
    cases hrej

theorem run_chain_channels_error (c : chain_kernels R D)
    (state : pcm_convert_state R D) (src_format : audio_format)
    (src_buffer : List Nat) (src_size : Nat) (dest_format : audio_format)
    (b1 : List Nat) (l1 : Nat)
    (hfmt : (c.format state.format_buffer state.dither src_format.format
      src_buffer src_size).1 = some (b1, l1))
    (hne : src_format.channels ≠ dest_format.channels)
    (hrule : (c.channels state.channels_buffer dest_format.channels
      src_format.channels b1 l1).1 = none) :
    let r := run_chain c state src_format src_buffer src_size dest_format
    r.ret = none ∧ r.dest_size = none ∧
      r.error = some ("Conversion from " ++ format_u src_format.channels ++
        " to " ++ format_u dest_format.channels ++
        " channels is not implemented") ∧
      r.calls = [c.format_call, c.channels_call] := by
  simp only [run_chain_eq]
  rcases hf : c.format state.format_buffer state.dither src_format.format
    src_buffer src_size with ⟨_ | ⟨b, l⟩, fb, d⟩
  · rw [hf] at hfmt
    cases hfmt
  · rw [hf] at hfmt
    cases hfmt
    simp only [chain_channels, if_pos hne]
    rcases hch : c.channels state.channels_buffer dest_format.channels
      src_format.channels b1 l1 with ⟨_ | ⟨b2, l2⟩, cb⟩
    · exact ⟨rfl, rfl, rfl, rfl⟩
    · rw [hch] at hrule
      cases hrule

/-- C9 at the failing input: for a 32 bit destination, whenever
`pcm_convert_to_32` rejects the source format, `pcm_convert` returns `NULL`
after that one call and the error reads "Conversion from <source format> to
24 bit is not implemented": it names the depth 24, not the requested 32. -/
theorem pcm_convert_32_format_error (k : pcm_kernels R D)
    (state : pcm_convert_state R D) (src_format : audio_format)
    (src : List Nat) (src_size : Nat) (dest_format : audio_format)
    (hd : dest_format.format = SAMPLE_FORMAT_S32)
    (hrej : (k.pcm_convert_to_32 state.format_buffer src_format.format src
      src_size).1 = none) :
    let r := pcm_convert k state src_format src src_size dest_format
    r.ret = none ∧ r.calls = [stage_call.pcm_convert_to_32] ∧
      r.error = some ("Conversion from " ++
        sample_format_to_string src_format.format ++
        " to 24 bit is not implemented") ∧
      r.error ≠ some ("Conversion from " ++
        sample_format_to_string src_format.format ++
        " to 32 bit is not implemented") := by
  obtain ⟨h1, _, h3, h4⟩ := run_chain_format_error (chain_32 k) state
    src_format src src_size dest_format hrej
  simp only [pcm_convert, hd, pcm_convert_32_eq_run_chain]
  refine ⟨h1, h4, h3, ?_⟩
  rw [h3]
  simp only [chain_32]
  cases src_format.format <;> decide

/-- C9 at the failing input, on the example kernels: a source of undefined
sample format towards 32 bit stereo. -/
theorem pcm_convert_32_format_error_witness :
    (⟨44100, SAMPLE_FORMAT_S32, 2, false⟩ : audio_format).format
        = SAMPLE_FORMAT_S32 ∧
      (example_kernels.pcm_convert_to_32 example_state.format_buffer
        SAMPLE_FORMAT_UNDEFINED [1, 2, 3, 4] 4).1 = none ∧
      (let r := pcm_convert example_kernels example_state
          ⟨44100, SAMPLE_FORMAT_UNDEFINED, 2, false⟩ [1, 2, 3, 4] 4
          ⟨44100, SAMPLE_FORMAT_S32, 2, false⟩
       r.ret = none ∧ r.calls = [stage_call.pcm_convert_to_32] ∧
        r.error = some "Conversion from ? to 24 bit is not implemented" ∧
        r.error ≠ some "Conversion from ? to 32 bit is not implemented") :=
  ⟨rfl, rfl, pcm_convert_32_format_error example_kernels example_state
    ⟨44100, SAMPLE_FORMAT_UNDEFINED, 2, false⟩ [1, 2, 3, 4] 4
    ⟨44100, SAMPLE_FORMAT_S32, 2, false⟩ rfl rfl⟩

/-- The sample-format errors that name the requested depth: for
the destinations S16, S24_P32 and S24, a rejected source format is reported
as a conversion to 16 bit, 24 bit and 24 bit. -/
theorem pcm_convert_format_error_named (k : pcm_kernels R D)
    (state : pcm_convert_state R D) (src_format : audio_format)
    (src : List Nat) (src_size : Nat) (dest_format : audio_format) :
    let r := pcm_convert k state src_format src src_size dest_format
    (dest_format.format = SAMPLE_FORMAT_S16 →
      (k.pcm_convert_to_16 state.format_buffer state.dither
        src_format.format src src_size).1 = none →
      r.ret = none ∧ r.error = some ("Conversion from " ++
        sample_format_to_string src_format.format ++
        " to 16 bit is not implemented")) ∧
    (dest_format.format = SAMPLE_FORMAT_S24_P32 ∨
        dest_format.format = SAMPLE_FORMAT_S24 →
      (k.pcm_convert_to_24 state.format_buffer src_format.format src
        src_size).1 = none →
      r.ret = none ∧ r.error = some ("Conversion from " ++
        sample_format_to_string src_format.format ++
        " to 24 bit is not implemented")) := by
  refine ⟨?_, ?_⟩
  · intro hd hrej
    obtain ⟨h1, _, h3, _⟩ := run_chain_format_error (chain_16 k) state
      src_format src src_size dest_format hrej
    simp only [pcm_convert, hd, pcm_convert_16_eq_run_chain]
    exact ⟨h1, h3⟩
  · rintro (hd | hd) hrej
    · obtain ⟨h1, _, h3, _⟩ := run_chain_format_error (chain_24 k) state
        src_format src src_size dest_format hrej
      simp only [pcm_convert, hd, pcm_convert_24_eq_run_chain]
      exact ⟨h1, h3⟩
    · obtain ⟨h1, _, h3, _⟩ := run_chain_format_error (chain_24 k) state
        src_format src src_size
        { dest_format with format := SAMPLE_FORMAT_S24_P32,
                           reverse_endian := false } hrej
      simp only [pcm_convert, hd]
      rw [pcm_convert_24_packed_eq k state src_format src src_size
        dest_format _ rfl, h1]
      exact ⟨rfl, h3⟩

/-- C10: for every destination format that has a chain (S16, S24, S24_P32,
S32), whenever the sample-format stage of the chain succeeds,
`src.channels != dest.channels`, and the channel kernel of the chain has no
rule for the pair (it returns `NULL`), `pcm_convert` returns `NULL`, stores no
size, and sets the error "Conversion from <src.channels> to <dest.channels>
channels is not implemented", the source count first and the destination
count second, both in decimal. -/
theorem pcm_convert_channels_error (k : pcm_kernels R D)
    (state : pcm_convert_state R D) (src_format : audio_format)
    (src : List Nat) (src_size : Nat) (dest_format : audio_format)
    (c : chain_kernels R D)
    (hc : chain_of k dest_format.format = some c)
    (b1 : List Nat) (l1 : Nat)
    (hfmt : (c.format state.format_buffer state.dither src_format.format
      src src_size).1 = some (b1, l1))
    (hne : src_format.channels ≠ dest_format.channels)
    (hrule : (c.channels state.channels_buffer dest_format.channels
      src_format.channels b1 l1).1 = none) :
    let r := pcm_convert k state src_format src src_size dest_format
    r.ret = none ∧ r.dest_size = none ∧
      r.error = some ("Conversion from " ++ toString src_format.channels ++
        " to " ++ toString dest_format.channels ++
        " channels is not implemented") ∧
      r.calls = [c.format_call, c.channels_call] := by
  rcases hf : dest_format.format <;>
    simp only [hf, chain_of, Option.some.injEq, reduceCtorEq] at hc <;>
    subst hc
  · simp only [pcm_convert, hf, pcm_convert_16_eq_run_chain]
    exact run_chain_channels_error _ state src_format src src_size
      dest_format b1 l1 hfmt hne hrule
  · obtain ⟨h1, h2, h3, h4⟩ := run_chain_channels_error (chain_24 k) state
      src_format src src_size
      { dest_format with format := SAMPLE_FORMAT_S24_P32,
                         reverse_endian := false } b1 l1 hfmt hne hrule
    simp only [pcm_convert, hf]
    rw [pcm_convert_24_packed_eq k state src_format src src_size
      dest_format _ rfl, h1]
    exact ⟨rfl, rfl, h3, h4⟩
  · simp only [pcm_convert, hf, pcm_convert_24_eq_run_chain]
    exact run_chain_channels_error _ state src_format src src_size
      dest_format b1 l1 hfmt hne hrule
  · simp only [pcm_convert, hf, pcm_convert_32_eq_run_chain]
    exact run_chain_channels_error _ state src_format src src_size
      dest_format b1 l1 hfmt hne hrule

/-- C10 at a concrete input: 16 bit stereo towards 16 bit mono, for which the
example channel kernel has no rule. -/
theorem pcm_convert_channels_error_witness :
    chain_of example_kernels SAMPLE_FORMAT_S16
        = some (chain_16 example_kernels) ∧
      (2 : Nat) ≠ 1 ∧
      (pcm_convert example_kernels example_state
        ⟨44100, SAMPLE_FORMAT_S16, 2, false⟩ [1, 2, 3, 4] 4
        ⟨44100, SAMPLE_FORMAT_S16, 1, false⟩).error
        = some "Conversion from 2 to 1 channels is not implemented" :=
  ⟨rfl, by decide, (pcm_convert_channels_error example_kernels example_state
    ⟨44100, SAMPLE_FORMAT_S16, 2, false⟩ [1, 2, 3, 4] 4
    ⟨44100, SAMPLE_FORMAT_S16, 1, false⟩ (chain_16 example_kernels) rfl
    [1, 2, 3, 4] 4 rfl (by decide) rfl).2.2.1⟩


/-! ### Failure -/

theorem run_chain_failure (c : chain_kernels R D)
    (state : pcm_convert_state R D) (src_format : audio_format)
    (src_buffer : List Nat) (src_size : Nat) (dest_format : audio_format) :
    let r := run_chain c state src_format src_buffer src_size dest_format
    let s1 := spec_format_stage c src_format.format state src_buffer src_size
    let s2 := spec_after_channels c state src_format src_buffer src_size
      dest_format
    let s3 := spec_after_resample c state src_format src_buffer src_size
      dest_format
    (r.ret = none ↔ s3 = none) ∧
      (r.ret = none ↔ r.dest_size = none) ∧
      (s1 = none → r.calls = [c.format_call]) ∧
      (∀ x1, s1 = some x1 → s2 = none →
        r.calls = x1.calls ++ [c.channels_call]) ∧
      (∀ x2, s2 = some x2 → s3 = none →
        r.calls = x2.calls ++ [c.resample_call]) := by
  simp only [run_chain_eq, spec_after_resample, spec_after_channels,
    spec_format_stage]
  rcases c.format state.format_buffer state.dither src_format.format
    src_buffer src_size with ⟨_ | ⟨b1, l1⟩, fb, d⟩
  · simp
  · simp only [chain_channels, Option.some_bind]
    by_cases hc : src_format.channels = dest_format.channels
    · have hb : (src_format.channels != dest_format.channels) = false := by
        simpa using hc
      rw [if_neg (not_not.mpr hc)]
      simp only [hb, spec_applied_when_false, Option.some_bind, chain_resample]
      by_cases hr : src_format.sample_rate = dest_format.sample_rate
      · have hb2 : (src_format.sample_rate != dest_format.sample_rate)
            = false := by simpa using hr
        rw [if_neg (not_not.mpr hr)]
        simp only [hb2, spec_applied_when_false, chain_byteswap]
        cases dest_format.reverse_endian <;> simp
      · have hb2 : (src_format.sample_rate != dest_format.sample_rate)
            = true := by simpa using hr
        rw [if_pos hr]
        simp only [hb2, spec_applied_when_true, spec_resample_stage]
        rcases c.resample state.resample dest_format.channels
          src_format.sample_rate b1 l1 dest_format.sample_rate
          with ⟨_ | ⟨b3, l3⟩, e3, r3⟩
        · simp
        · simp only [chain_byteswap]
          cases dest_format.reverse_endian <;> simp
    · have hb : (src_format.channels != dest_format.channels) = true := by
        simpa using hc
      rw [if_pos hc]
      simp only [hb, spec_applied_when_true, spec_channels_stage]
      rcases c.channels state.channels_buffer dest_format.channels
        src_format.channels b1 l1 with ⟨_ | ⟨b2, l2⟩, cb⟩
      · simp
      · simp only [Option.some_bind, chain_resample]
        by_cases hr : src_format.sample_rate = dest_format.sample_rate
        · have hb2 : (src_format.sample_rate != dest_format.sample_rate)
              = false := by simpa using hr
          rw [if_neg (not_not.mpr hr)]
          simp only [hb2, spec_applied_when_false, chain_byteswap]
          cases dest_format.reverse_endian <;> simp
        · have hb2 : (src_format.sample_rate != dest_format.sample_rate)
              = true := by simpa using hr
          rw [if_pos hr]
          simp only [hb2, spec_applied_when_true, spec_resample_stage]
          rcases c.resample state.resample dest_format.channels
            src_format.sample_rate b2 l2 dest_format.sample_rate
            with ⟨_ | ⟨b3, l3⟩, e3, r3⟩
          · simp
          · simp only [chain_byteswap]
            cases dest_format.reverse_endian <;> simp


theorem run_chain_calls_mem (c : chain_kernels R D)
    (state : pcm_convert_state R D) (src_format : audio_format)
    (src_buffer : List Nat) (src_size : Nat) (dest_format : audio_format) :
    ∀ t ∈ (run_chain c state src_format src_buffer src_size dest_format).calls,
      t = c.format_call ∨ t = c.channels_call ∨ t = c.resample_call ∨
        t = c.byteswap_call := by
  have hn := (run_chain_native c state src_format src_buffer src_size
    { dest_format with reverse_endian := false } rfl).2.1
  rcases he : dest_format.reverse_endian
  · have hd : dest_format = { dest_format with reverse_endian := false } := by
      cases dest_format
      simp_all
    rw [hd]
    intro t ht
    rcases hn t ht with h | h | h
    · exact Or.inl h
    · exact Or.inr (Or.inl h)
    · exact Or.inr (Or.inr (Or.inl h))
  · have hd : dest_format = { dest_format with reverse_endian := true } := by
      cases dest_format
      simp_all
    rw [hd]
    obtain ⟨h1, h2⟩ := run_chain_swapped c state src_format src_buffer
      src_size dest_format
    have hf := (run_chain_failure c state src_format src_buffer src_size
      { dest_format with reverse_endian := false }).2.1
    intro t ht
    rcases hret : (run_chain c state src_format src_buffer src_size
      { dest_format with reverse_endian := false }).ret with _ | buf
    · rw [h1 hret] at ht
      rcases hn t ht with h | h | h
      · exact Or.inl h
      · exact Or.inr (Or.inl h)
      · exact Or.inr (Or.inr (Or.inl h))
    · rcases hsz : (run_chain c state src_format src_buffer src_size
        { dest_format with reverse_endian := false }).dest_size with _ | len
      · rw [hf.mpr hsz] at hret
        cases hret
      · rw [h2 buf len hret hsz] at ht
        simp only [List.mem_append, List.mem_singleton] at ht
        rcases ht with ht | ht
        · rcases hn t ht with h | h | h
          · exact Or.inl h
          · exact Or.inr (Or.inl h)
          · exact Or.inr (Or.inr (Or.inl h))
        · exact Or.inr (Or.inr (Or.inr ht))

/-- The `NULL` results of `pcm_convert`, stage by stage.  Nothing is stored
through `dest_size_r` exactly when the destination format is unsupported or
one of the stages that can fail (the sample-format stage, the channel stage
when it is invoked, the resample stage when it is invoked) returns `NULL`;
then `NULL` is returned, the failing stage is the last kernel called and the
pack stage is not called.  For the destinations S16, S24_P32 and S32 there is
no other way to `NULL`.  For the packed 24 bit destination `NULL` is also
returned, with the size stored, when `pcm_buffer_get` gives `NULL` for that
size. -/
theorem pcm_convert_null_stages (k : pcm_kernels R D)
    (state : pcm_convert_state R D) (src_format : audio_format)
    (src : List Nat) (src_size : Nat) (dest_format : audio_format) :
    let r := pcm_convert k state src_format src src_size dest_format
    (r.dest_size = none → r.ret = none) ∧
      (dest_format.format ≠ SAMPLE_FORMAT_S24 → r.ret = none →
        r.dest_size = none) ∧
      (∀ size, dest_format.format = SAMPLE_FORMAT_S24 →
        r.dest_size = some size →
        (r.ret = none ↔ k.pcm_buffer_get state.pack_buffer size = none)) ∧
      (r.dest_size = none → stage_call.pcm_pack_24 ∉ r.calls) ∧
      (chain_of k dest_format.format = none →
        r.ret = none ∧ r.dest_size = none ∧ r.calls = []) ∧
      ∀ c, chain_of k dest_format.format = some c →
        let s1 := spec_format_stage c src_format.format state src src_size
        let s2 := spec_after_channels c state src_format src src_size
          dest_format
        let s3 := spec_after_resample c state src_format src src_size
          dest_format
        (r.dest_size = none ↔ s3 = none) ∧
          (s1 = none → r.calls = [c.format_call]) ∧
          (∀ x1, s1 = some x1 → s2 = none →
            r.calls = x1.calls ++ [c.channels_call]) ∧
          (∀ x2, s2 = some x2 → s3 = none →
            r.calls = x2.calls ++ [c.resample_call]) := by
  have hnp : ∀ (c : chain_kernels R D) (d : audio_format),
      c.format_call ≠ stage_call.pcm_pack_24 →
      c.channels_call ≠ stage_call.pcm_pack_24 →
      c.resample_call ≠ stage_call.pcm_pack_24 →
      c.byteswap_call ≠ stage_call.pcm_pack_24 →
      stage_call.pcm_pack_24 ∉
        (run_chain c state src_format src src_size d).calls := by
    intro c d h1 h2 h3 h4 hm
    rcases run_chain_calls_mem c state src_format src src_size d _ hm
      with h | h | h | h
    · exact h1 h.symm
    · exact h2 h.symm
    · exact h3 h.symm
    · exact h4 h.symm
  rcases hf : dest_format.format
  case SAMPLE_FORMAT_UNDEFINED => simp [pcm_convert, hf, chain_of]
  case SAMPLE_FORMAT_S8 => simp [pcm_convert, hf, chain_of]
  case SAMPLE_FORMAT_S16 =>
    obtain ⟨h1, h2, h3, h4, h5⟩ := run_chain_failure (chain_16 k) state
      src_format src src_size dest_format
    simp only [pcm_convert, hf, pcm_convert_16_eq_run_chain, chain_of,
      Option.some.injEq, reduceCtorEq, false_implies, true_and, ne_eq,
      not_false_eq_true, implies_true]
    refine ⟨h2.mpr, fun _ => h2.mp, fun _ => hnp _ _
      (by simp [chain_16, chain_24, chain_32])
      (by simp [chain_16, chain_24, chain_32])
      (by simp [chain_16, chain_24, chain_32])
      (by simp [chain_16, chain_24, chain_32]), ?_⟩
    rintro c rfl
    exact ⟨h2.symm.trans h1, h3, h4, h5⟩
  case SAMPLE_FORMAT_S24 =>
    obtain ⟨h1, h2, h3, h4, h5⟩ := run_chain_failure (chain_24 k) state
      src_format src src_size
      { dest_format with format := SAMPLE_FORMAT_S24_P32,
                         reverse_endian := false }
    have e1 : spec_after_channels (chain_24 k) state src_format src src_size
        { dest_format with format := SAMPLE_FORMAT_S24_P32,
                           reverse_endian := false }
        = spec_after_channels (chain_24 k) state src_format src src_size
          dest_format := rfl
    have e2 : spec_after_resample (chain_24 k) state src_format src src_size
        { dest_format with format := SAMPLE_FORMAT_S24_P32,
                           reverse_endian := false }
        = spec_after_resample (chain_24 k) state src_format src src_size
          dest_format := rfl
    rw [e2] at h1 h5
    rw [e1] at h4 h5
    have hp := hnp (chain_24 k)
      { dest_format with format := SAMPLE_FORMAT_S24_P32,
                         reverse_endian := false }
      (by simp [chain_24]) (by simp [chain_24]) (by simp [chain_24])
      (by simp [chain_24])
    simp only [pcm_convert, hf, chain_of, Option.some.injEq, reduceCtorEq,
      false_implies, true_and, ne_eq, not_true_eq_false, forall_const]
    rw [pcm_convert_24_packed_eq k state src_format src src_size dest_format
      _ rfl]
    rcases hret : (run_chain (chain_24 k) state src_format src src_size
      { dest_format with format := SAMPLE_FORMAT_S24_P32,
                         reverse_endian := false }).ret with _ | buffer
    · refine ⟨by simp, by simp, fun _ => hp, ?_⟩
      rintro c rfl
      exact ⟨by simpa using h1.mp hret, h3, h4, h5⟩
    · refine ⟨by simp, ?_, fun h => by simp at h, ?_⟩
      · intro size hs
        simp only [Option.some.injEq] at hs
        subst hs
        simp [run_chain_pack_buffer]
      · rintro c rfl
        rw [hret] at h1
        have h6 : spec_after_resample (chain_24 k) state src_format src
            src_size dest_format ≠ none := fun h => by simpa using h1.mpr h
        refine ⟨by simpa using h6, ?_, ?_, ?_⟩
        · intro hs1
          exact absurd (by
            simp only [spec_after_resample, spec_after_channels]
            rw [hs1]
            rfl) h6
        · intro x1 _ hs2
          exact absurd (by
            simp only [spec_after_resample]
            rw [hs2]
            rfl) h6
        · intro x2 _ hs3
          exact absurd hs3 h6
  case SAMPLE_FORMAT_S24_P32 =>
    obtain ⟨h1, h2, h3, h4, h5⟩ := run_chain_failure (chain_24 k) state
      src_format src src_size dest_format
    simp only [pcm_convert, hf, pcm_convert_24_eq_run_chain, chain_of,
      Option.some.injEq, reduceCtorEq, false_implies, true_and, ne_eq,
      not_false_eq_true, implies_true]
    refine ⟨h2.mpr, fun _ => h2.mp, fun _ => hnp _ _
      (by simp [chain_16, chain_24, chain_32])
      (by simp [chain_16, chain_24, chain_32])
      (by simp [chain_16, chain_24, chain_32])
      (by simp [chain_16, chain_24, chain_32]), ?_⟩
    rintro c rfl
    exact ⟨h2.symm.trans h1, h3, h4, h5⟩
  case SAMPLE_FORMAT_S32 =>
    obtain ⟨h1, h2, h3, h4, h5⟩ := run_chain_failure (chain_32 k) state
      src_format src src_size dest_format
    simp only [pcm_convert, hf, pcm_convert_32_eq_run_chain, chain_of,
      Option.some.injEq, reduceCtorEq, false_implies, true_and, ne_eq,
      not_false_eq_true, implies_true]
    refine ⟨h2.mpr, fun _ => h2.mp, fun _ => hnp _ _
      (by simp [chain_16, chain_24, chain_32])
      (by simp [chain_16, chain_24, chain_32])
      (by simp [chain_16, chain_24, chain_32])
      (by simp [chain_16, chain_24, chain_32]), ?_⟩
    rintro c rfl
    exact ⟨h2.symm.trans h1, h3, h4, h5⟩

/-- C11 at the failing input: for the packed 24 bit destination, when the
conversion towards 24-in-32 returns a buffer without a sample to pack and
`pcm_buffer_get` gives `NULL` for the 0 bytes asked for, `pcm_convert` returns
`NULL` although the destination format is supported and the sample-format,
channel and resample stages all gave a buffer; the size 0 is stored through
`dest_size_r`, the pack stage is called as the last call, and the error is
what the stages left. -/
theorem pcm_convert_null_unchecked (k : pcm_kernels R D)
    (state : pcm_convert_state R D) (src_format : audio_format)
    (src : List Nat) (src_size : Nat) (dest_format : audio_format)
    (hd : dest_format.format = SAMPLE_FORMAT_S24)
    (buffer : List Nat) (size : Nat)
    (hret : (pcm_convert k state src_format src src_size
      { dest_format with format := SAMPLE_FORMAT_S24_P32,
                         reverse_endian := false }).ret = some buffer)
    (hsize : (pcm_convert k state src_format src src_size
      { dest_format with format := SAMPLE_FORMAT_S24_P32,
                         reverse_endian := false }).dest_size = some size)
    (hzero : (size / 4) % 2 ^ 32 = 0)
    (hget : k.pcm_buffer_get state.pack_buffer 0 = none) :
    let p := pcm_convert k state src_format src src_size
      { dest_format with format := SAMPLE_FORMAT_S24_P32,
                         reverse_endian := false }
    let r := pcm_convert k state src_format src src_size dest_format
    r.ret = none ∧ r.dest_size = some 0 ∧
      r.calls = p.calls ++ [stage_call.pcm_pack_24] ∧
      r.error = p.error ∧
      chain_of k dest_format.format = some (chain_24 k) ∧
      spec_after_resample (chain_24 k) state src_format src src_size
        dest_format ≠ none := by
  obtain ⟨h1, h2, h3, h4⟩ := pcm_convert_24_packed_size k state src_format
    src src_size dest_format hd buffer size hret hsize
  rw [hzero] at h1 h2
  rw [show 0 * 3 % 2 ^ 32 = 0 from rfl] at h1 h2
  rw [hget] at h1
  refine ⟨h1, h2, h3, h4, by rw [hd]; rfl, ?_⟩
  have h5 := (run_chain_failure (chain_24 k) state src_format src src_size
    { dest_format with format := SAMPLE_FORMAT_S24_P32,
                       reverse_endian := false }).1
  simp only [pcm_convert, pcm_convert_24_eq_run_chain] at hret
  intro h6
  have h7 := h5.mpr h6
  rw [hret] at h7
  cases h7

/-- C11 at the failing input, on the example kernels: an empty 24-in-32 mono
input towards packed 24 bit mono at the same rate, on a fresh conversion
state.  The sample-format stage hands the empty input on, `pcm_buffer_get`
has no region for 0 bytes, and the call returns `NULL` with the size 0
stored, after the pack call and without an error. -/
theorem pcm_convert_null_unchecked_witness :
    (⟨44100, SAMPLE_FORMAT_S24, 1, false⟩ : audio_format).format
        = SAMPLE_FORMAT_S24 ∧
      (pcm_convert example_kernels example_state
        ⟨44100, SAMPLE_FORMAT_S24_P32, 1, false⟩ [] 0
        ⟨44100, SAMPLE_FORMAT_S24_P32, 1, false⟩).ret = some [] ∧
      (pcm_convert example_kernels example_state
        ⟨44100, SAMPLE_FORMAT_S24_P32, 1, false⟩ [] 0
        ⟨44100, SAMPLE_FORMAT_S24_P32, 1, false⟩).dest_size = some 0 ∧
      (0 / 4) % 2 ^ 32 = 0 ∧
      example_kernels.pcm_buffer_get example_state.pack_buffer 0 = none ∧
      (let r := pcm_convert example_kernels example_state
          ⟨44100, SAMPLE_FORMAT_S24_P32, 1, false⟩ [] 0
          ⟨44100, SAMPLE_FORMAT_S24, 1, false⟩
       r.ret = none ∧ r.dest_size = some 0 ∧
        r.calls = [stage_call.pcm_convert_to_24, stage_call.pcm_pack_24] ∧
        r.error = none ∧
        chain_of example_kernels SAMPLE_FORMAT_S24
          = some (chain_24 example_kernels) ∧
        spec_after_resample (chain_24 example_kernels) example_state
          ⟨44100, SAMPLE_FORMAT_S24_P32, 1, false⟩ [] 0
          ⟨44100, SAMPLE_FORMAT_S24, 1, false⟩ ≠ none) :=
  ⟨rfl, rfl, rfl, rfl, rfl,
    pcm_convert_null_unchecked example_kernels example_state
      ⟨44100, SAMPLE_FORMAT_S24_P32, 1, false⟩ [] 0
      ⟨44100, SAMPLE_FORMAT_S24, 1, false⟩ rfl [] 0 rfl rfl rfl rfl⟩


/-! ### The dither state -/

theorem chain_channels_dither (c : chain_kernels R D)
    (src_format dest_format : audio_format) (buf : List Nat) (len : Nat)
    (state1 : pcm_convert_state R D) (calls1 : List stage_call) (d : D) :
    let r := chain_channels c src_format dest_format buf len state1 calls1
    let r2 := chain_channels c src_format dest_format buf len
      { state1 with dither := d } calls1
    r.state.dither = state1.dither ∧
      r2.ret = r.ret ∧ r2.dest_size = r.dest_size ∧ r2.error = r.error ∧
      r2.calls = r.calls ∧ r2.state = { r.state with dither := d } := by
  simp only [chain_channels]
  by_cases hc : src_format.channels = dest_format.channels
  · simp only [if_neg (not_not.mpr hc), chain_resample]
    by_cases hr : src_format.sample_rate = dest_format.sample_rate
    · simp only [if_neg (not_not.mpr hr), chain_byteswap]
      cases dest_format.reverse_endian <;> simp
    · simp only [if_pos hr]
      rcases c.resample state1.resample dest_format.channels
        src_format.sample_rate buf len dest_format.sample_rate
        with ⟨_ | ⟨b3, l3⟩, e3, r3⟩
      · simp
      · simp only [chain_byteswap]
        cases dest_format.reverse_endian <;> simp
  · simp only [if_pos hc]
    rcases c.channels state1.channels_buffer dest_format.channels
      src_format.channels buf len with ⟨_ | ⟨b2, l2⟩, cb⟩
    · simp
    · simp only [chain_resample]
      by_cases hr : src_format.sample_rate = dest_format.sample_rate
      · simp only [if_neg (not_not.mpr hr), chain_byteswap]
        cases dest_format.reverse_endian <;> simp
      · simp only [if_pos hr]
        rcases c.resample state1.resample dest_format.channels
          src_format.sample_rate b2 l2 dest_format.sample_rate
          with ⟨_ | ⟨b3, l3⟩, e3, r3⟩
        · simp
        · simp only [chain_byteswap]
          cases dest_format.reverse_endian <;> simp

theorem run_chain_dither (c : chain_kernels R D)
    (state : pcm_convert_state R D) (src_format : audio_format)
    (src_buffer : List Nat) (src_size : Nat) (dest_format : audio_format) :
    (run_chain c state src_format src_buffer src_size dest_format).state.dither
      = (c.format state.format_buffer state.dither src_format.format
          src_buffer src_size).2.2 := by
  simp only [run_chain_eq]
  rcases c.format state.format_buffer state.dither src_format.format
    src_buffer src_size with ⟨_ | ⟨b1, l1⟩, fb, d⟩
  · rfl
  · exact (chain_channels_dither c src_format dest_format b1 l1
      { state with format_buffer := fb, dither := d } [c.format_call] d).1

theorem run_chain_dither_free (c : chain_kernels R D)
    (g : pcm_buffer → sample_format → List Nat → Nat →
      Option (List Nat × Nat) × pcm_buffer)
    (hfree : ∀ fb d f b n,
      c.format fb d f b n = ((g fb f b n).1, (g fb f b n).2, d))
    (state : pcm_convert_state R D) (src_format : audio_format)
    (src_buffer : List Nat) (src_size : Nat) (dest_format : audio_format)
    (d : D) :
    let r := run_chain c state src_format src_buffer src_size dest_format
    let r2 := run_chain c { state with dither := d } src_format src_buffer
      src_size dest_format
    r.state.dither = state.dither ∧
      r2.ret = r.ret ∧ r2.dest_size = r.dest_size ∧ r2.error = r.error ∧
      r2.calls = r.calls ∧ r2.state = { r.state with dither := d } := by
  simp only [run_chain_eq, hfree]
  rcases g state.format_buffer src_format.format src_buffer src_size
    with ⟨_ | ⟨b1, l1⟩, fb⟩
  · simp
  · have h := chain_channels_dither c src_format dest_format b1 l1
      { state with format_buffer := fb } [c.format_call] d
    simpa using h


/-- C12 as stated fails for 32 bit towards 24-in-32: the conversion succeeds
after the one call of `pcm_convert_to_24`, the dither accumulator of the
conversion state is the same after the call as before (5), and a call from a
state with another accumulator (0) returns the same samples. -/
theorem pcm_convert_to_24_no_dither :
    (pcm_convert example_kernels_narrowing { example_state with dither := 5 }
        ⟨44100, SAMPLE_FORMAT_S32, 1, false⟩ [1, 2, 3, 4] 4
        ⟨44100, SAMPLE_FORMAT_S24_P32, 1, false⟩).ret = some [2, 3, 4, 0] ∧
      (pcm_convert example_kernels_narrowing { example_state with dither := 5 }
        ⟨44100, SAMPLE_FORMAT_S32, 1, false⟩ [1, 2, 3, 4] 4
        ⟨44100, SAMPLE_FORMAT_S24_P32, 1, false⟩).calls
        = [stage_call.pcm_convert_to_24] ∧
      (pcm_convert example_kernels_narrowing { example_state with dither := 5 }
        ⟨44100, SAMPLE_FORMAT_S32, 1, false⟩ [1, 2, 3, 4] 4
        ⟨44100, SAMPLE_FORMAT_S24_P32, 1, false⟩).state.dither = 5 ∧
      (pcm_convert example_kernels_narrowing { example_state with dither := 0 }
        ⟨44100, SAMPLE_FORMAT_S32, 1, false⟩ [1, 2, 3, 4] 4
        ⟨44100, SAMPLE_FORMAT_S24_P32, 1, false⟩).ret = some [2, 3, 4, 0] := by
  decide

/-- C12, amended: the dither accumulator of the conversion state is handed to
the sample-format conversion for a 16 bit destination only, and there for
every source format: the first call is `pcm_convert_to_16` on `state.dither`,
and the accumulator after `pcm_convert` is the one that call leaves.  For
every other destination (24-in-32, packed 24 bit and 32 bit included) the
accumulator is neither read nor written: it is the same after the call, and
the call from a state with another accumulator `d` returns the same buffer,
size and error after the same kernel calls, and leaves the same state but for
`d`. -/
theorem pcm_convert_dither (k : pcm_kernels R D)
    (state : pcm_convert_state R D) (src_format : audio_format)
    (src : List Nat) (src_size : Nat) (dest_format : audio_format) :
    let r := pcm_convert k state src_format src src_size dest_format
    (dest_format.format = SAMPLE_FORMAT_S16 →
      r.calls.head? = some stage_call.pcm_convert_to_16 ∧
      r.state.dither = (k.pcm_convert_to_16 state.format_buffer state.dither
        src_format.format src src_size).2.2) ∧
    (dest_format.format ≠ SAMPLE_FORMAT_S16 →
      r.state.dither = state.dither ∧
      ∀ d, let r2 := pcm_convert k { state with dither := d } src_format src
             src_size dest_format
        r2.ret = r.ret ∧ r2.dest_size = r.dest_size ∧ r2.error = r.error ∧
        r2.calls = r.calls ∧ r2.state = { r.state with dither := d }) := by
  rcases hf : dest_format.format
  case SAMPLE_FORMAT_UNDEFINED => simp [pcm_convert, hf]
  case SAMPLE_FORMAT_S8 => simp [pcm_convert, hf]
  case SAMPLE_FORMAT_S16 =>
    obtain ⟨l, hl⟩ := run_chain_calls (chain_16 k) state src_format src
      src_size dest_format
    have hd := run_chain_dither (chain_16 k) state src_format src src_size
      dest_format
    simp only [pcm_convert, hf, pcm_convert_16_eq_run_chain, ne_eq,
      not_true_eq_false, false_implies, and_true, true_implies]
    exact ⟨by rw [hl]; rfl, hd⟩
  case SAMPLE_FORMAT_S24 =>
    simp only [pcm_convert, hf, reduceCtorEq, false_implies, ne_eq,
      not_false_eq_true, true_implies, true_and]
    have h1 := fun d => run_chain_dither_free (chain_24 k)
      k.pcm_convert_to_24 (fun _ _ _ _ _ => rfl) state src_format src
      src_size { dest_format with format := SAMPLE_FORMAT_S24_P32,
                                  reverse_endian := false } d
    rw [pcm_convert_24_packed_eq k state src_format src src_size dest_format
      _ rfl]
    refine ⟨?_, ?_⟩
    · have h2 := (h1 state.dither).1
      rcases (run_chain (chain_24 k) state src_format src src_size
        { dest_format with format := SAMPLE_FORMAT_S24_P32,
                           reverse_endian := false }).ret with _ | buffer
      · exact h2
      · simp only []
        split <;> exact h2
    · intro d
      obtain ⟨_, h3, h4, h5, h6, h7⟩ := h1 d
      rw [pcm_convert_24_packed_eq k { state with dither := d } src_format
        src src_size dest_format _ rfl, h3]
      rcases (run_chain (chain_24 k) state src_format src src_size
        { dest_format with format := SAMPLE_FORMAT_S24_P32,
                           reverse_endian := false }).ret with _ | buffer
      · exact ⟨rfl, rfl, h5, h6, h7⟩
      · simp only [h4, h5, h6, h7]
        split <;> simp
  case SAMPLE_FORMAT_S24_P32 =>
    simp only [pcm_convert, hf, pcm_convert_24_eq_run_chain, reduceCtorEq,
      false_implies, ne_eq, not_false_eq_true, true_implies, true_and]
    have h1 := fun d => run_chain_dither_free (chain_24 k)
      k.pcm_convert_to_24 (fun _ _ _ _ _ => rfl) state src_format src
      src_size dest_format d
    exact ⟨(h1 state.dither).1, fun d => (h1 d).2⟩
  case SAMPLE_FORMAT_S32 =>
    simp only [pcm_convert, hf, pcm_convert_32_eq_run_chain, reduceCtorEq,
      false_implies, ne_eq, not_false_eq_true, true_implies, true_and]
    have h1 := fun d => run_chain_dither_free (chain_32 k)
      k.pcm_convert_to_32 (fun _ _ _ _ _ => rfl) state src_format src
      src_size dest_format d
    exact ⟨(h1 state.dither).1, fun d => (h1 d).2⟩


/-! ### Output plugins -/

/-- C18: once `winmm_output_open` is past the creation of the event, the
audio format it hands back has the sample format S8 if S8 was requested and
S16 for every other requested format, the channel count
`min(requested channels, 2)`, and the requested sample rate; this holds
whether `waveOutOpen` succeeds or not. -/
theorem winmm_output_open_format (api : winmm_api) (wo : winmm_output)
    (audio_format : audio_format) (e : Nat)
    (h : api.CreateEvent = some e) :
    let r := winmm_output_open api wo audio_format
    r.audio_format.format
        = (if audio_format.format = SAMPLE_FORMAT_S8 then SAMPLE_FORMAT_S8
           else SAMPLE_FORMAT_S16) ∧
      r.audio_format.channels = min audio_format.channels 2 ∧
      r.audio_format.sample_rate = audio_format.sample_rate := by
  unfold winmm_output_open
  simp only [h]
  rcases audio_format with ⟨rate, fmt, ch, rev⟩
  cases fmt <;> simp only [] <;> split_ifs <;> simp_all <;> omega


/-- C18 at a concrete input: 24-in-32 samples on six channels at 48000 Hz,
with `waveOutOpen` succeeding. -/
theorem winmm_output_open_format_witness :
    (some 7 : Option Nat) = some 7 ∧
      (let r := winmm_output_open
          { CreateEvent := some 7, waveOutOpen := fun _ _ => (0, 1),
            WAVE_FORMAT_PCM := 1, MMSYSERR_NOERROR := 0 }
          { device_id := 0, handle := 0, event := none, buffers := [],
            next_buffer := 5 }
          ⟨48000, SAMPLE_FORMAT_S24_P32, 6, false⟩
       r.audio_format.format
          = (if SAMPLE_FORMAT_S24_P32 = SAMPLE_FORMAT_S8 then SAMPLE_FORMAT_S8
             else SAMPLE_FORMAT_S16) ∧
        r.audio_format.channels = min 6 2 ∧
        r.audio_format.sample_rate = 48000) :=
  ⟨rfl, winmm_output_open_format
    { CreateEvent := some 7, waveOutOpen := fun _ _ => (0, 1),
      WAVE_FORMAT_PCM := 1, MMSYSERR_NOERROR := 0 }
    { device_id := 0, handle := 0, event := none, buffers := [],
      next_buffer := 5 }
    ⟨48000, SAMPLE_FORMAT_S24_P32, 6, false⟩ 7 rfl⟩

/-- C19: once `roar_open` has connected (the connection and the stream object
are there), whatever `roar_vs_stream` answers: `reverse_endian` of the format
handed back is cleared; S24_P32 is replaced by S32 and an undefined format by
S16, while S8, S16, S24 and S32 are kept; `info.bits` is 8, 16, 24 or 32, the
width in bits of one sample of the resulting format; rate and channel count
are copied to the stream info and left unchanged in the format. -/
theorem roar_open_format (api : roar_api) (self : roar)
    (audio_format : audio_format) (v : Nat)
    (hc : 0 ≤ api.roar_simple_connect)
    (hv : api.roar_vs_new_from_con = (some v, api.ROAR_ERROR_NONE)) :
    let r := roar_open api self audio_format
    r.audio_format.reverse_endian = false ∧
      r.audio_format.format
        = (match audio_format.format with
           | SAMPLE_FORMAT_S24_P32 => SAMPLE_FORMAT_S32
           | SAMPLE_FORMAT_UNDEFINED => SAMPLE_FORMAT_S16
           | f => f) ∧
      r.self.info.bits = sample_format_size r.audio_format.format * 8 ∧
      (r.self.info.bits = 8 ∨ r.self.info.bits = 16 ∨
        r.self.info.bits = 24 ∨ r.self.info.bits = 32) ∧
      r.self.info.rate = audio_format.sample_rate ∧
      r.self.info.channels = audio_format.channels ∧
      r.audio_format.sample_rate = audio_format.sample_rate ∧
      r.audio_format.channels = audio_format.channels := by
  unfold roar_open
  simp only [hv, if_neg (not_lt.mpr hc)]
  rcases audio_format with ⟨rate, fmt, ch, rev⟩
  cases fmt <;> simp only [] <;> split_ifs <;>
    simp_all [sample_format_size]

/-- C19 at a concrete input: 24-in-32 stereo in reverse byte order. -/
theorem roar_open_format_witness :
    (0 : Int) ≤ 0 ∧ ((some 3, 0) : Option Nat × Nat) = (some 3, 0) ∧
      (let r := roar_open
          { roar_simple_connect := 0, roar_vs_new_from_con := (some 3, 0),
            roar_vs_stream := fun _ => 0, ROAR_ERROR_NONE := 0,
            ROAR_CODEC_PCM_S := 1 }
          { vss := none, err := 0, role := 0,
            info := { rate := 0, bits := 0, channels := 0, codec := 0 },
            alive := false }
          ⟨44100, SAMPLE_FORMAT_S24_P32, 2, true⟩
       r.audio_format.reverse_endian = false ∧
        r.audio_format.format = SAMPLE_FORMAT_S32 ∧
        r.self.info.bits = sample_format_size r.audio_format.format * 8 ∧
        (r.self.info.bits = 8 ∨ r.self.info.bits = 16 ∨
          r.self.info.bits = 24 ∨ r.self.info.bits = 32) ∧
        r.self.info.rate = 44100 ∧ r.self.info.channels = 2 ∧
        r.audio_format.sample_rate = 44100 ∧
        r.audio_format.channels = 2) :=
  ⟨le_refl 0, rfl, roar_open_format
    { roar_simple_connect := 0, roar_vs_new_from_con := (some 3, 0),
      roar_vs_stream := fun _ => 0, ROAR_ERROR_NONE := 0,
      ROAR_CODEC_PCM_S := 1 }
    { vss := none, err := 0, role := 0,
      info := { rate := 0, bits := 0, channels := 0, codec := 0 },
      alive := false }
    ⟨44100, SAMPLE_FORMAT_S24_P32, 2, true⟩ 3 (le_refl 0) rfl⟩

/-! ### The archive plugin registry -/

theorem archive_plugin_from_suffix_loop_spec
    (string_array_contains : List String → String → Bool)
    (archive_plugins_enabled : List Bool) (suffix : String) :
    ∀ (rest : List archive_plugin) (i : Nat),
      (∀ n, archive_suffix_match string_array_contains rest
          (archive_plugins_enabled.drop i) suffix n →
        (∀ j, j < n → ¬ archive_suffix_match string_array_contains rest
          (archive_plugins_enabled.drop i) suffix j) →
        archive_plugin_from_suffix_loop string_array_contains
          archive_plugins_enabled suffix rest i = rest[n]?) ∧
      ((∀ n, ¬ archive_suffix_match string_array_contains rest
          (archive_plugins_enabled.drop i) suffix n) →
        archive_plugin_from_suffix_loop string_array_contains
          archive_plugins_enabled suffix rest i = none) := by
  intro rest
  induction rest with
  | nil =>
    intro i
    refine ⟨?_, fun _ => rfl⟩
    rintro n ⟨_, p, l, hp, _⟩ _
    simp at hp
  | cons plugin rest ih =>
    intro i
    have hget : ∀ n, (List.drop i archive_plugins_enabled).getD (n + 1) false
        = (List.drop (i + 1) archive_plugins_enabled).getD n false := by
      intro n
      simp [List.getD, List.getElem?_drop, Nat.add_assoc, Nat.add_comm 1 n]
    have hget0 : (List.drop i archive_plugins_enabled).getD 0 false
        = archive_plugins_enabled.getD i false := by
      simp [List.getD, List.getElem?_drop]
    have hshift : ∀ n, archive_suffix_match string_array_contains
        (plugin :: rest) (archive_plugins_enabled.drop i) suffix (n + 1)
        ↔ archive_suffix_match string_array_contains rest
          (archive_plugins_enabled.drop (i + 1)) suffix n := by
      intro n
      simp only [archive_suffix_match, hget, List.getElem?_cons_succ]
    have h0 : archive_suffix_match string_array_contains (plugin :: rest)
        (archive_plugins_enabled.drop i) suffix 0
        ↔ (archive_plugins_enabled.getD i false = true ∧
            plugin.suffixes ≠ none ∧
            string_array_contains (plugin.suffixes.getD []) suffix = true) := by
      simp only [archive_suffix_match, hget0, List.getElem?_cons_zero,
        Option.some.injEq]
      constructor
      · rintro ⟨he, p, l, rfl, hs, hc⟩
        exact ⟨he, by simp [hs], by simpa [hs] using hc⟩
      · rintro ⟨he, hs, hc⟩
        rcases hl : plugin.suffixes with _ | l
        · exact absurd hl hs
        · exact ⟨he, plugin, l, rfl, hl, by simpa [hl] using hc⟩
    unfold archive_plugin_from_suffix_loop
    by_cases hm : archive_plugins_enabled.getD i false = true ∧
        plugin.suffixes ≠ none ∧
        string_array_contains (plugin.suffixes.getD []) suffix = true
    · rw [if_pos hm]
      refine ⟨?_, fun hno => absurd (h0.mpr hm) (hno 0)⟩
      intro n _ hfirst
      rcases n with _ | n
      · simp
      · exact absurd (h0.mpr hm) (hfirst 0 (Nat.succ_pos n))
    · rw [if_neg hm]
      refine ⟨?_, ?_⟩
      · intro n hn hfirst
        rcases n with _ | n
        · exact absurd (h0.mp hn) hm
        · rw [List.getElem?_cons_succ]
          exact (ih (i + 1)).1 n ((hshift n).mp hn)
            (fun j hj hmj => hfirst (j + 1) (Nat.succ_lt_succ hj)
              ((hshift j).mpr hmj))
      · intro hno
        exact (ih (i + 1)).2 (fun n hn => hno (n + 1) ((hshift n).mpr hn))

/-- C20: `archive_plugin_from_suffix` returns `NULL` for a `NULL` suffix.
Otherwise it returns the first plugin, in the order of the table, that is
enabled, has a suffix list, and whose suffix list contains the suffix
(`string_array_contains`): if index `n` answers for the suffix and no smaller
index does, the plugin at `n` is returned; and it returns `NULL` when no index
does. -/
theorem archive_plugin_from_suffix_first
    (string_array_contains : List String → String → Bool)
    (archive_plugins : List archive_plugin)
    (archive_plugins_enabled : List Bool) :
    archive_plugin_from_suffix string_array_contains archive_plugins
        archive_plugins_enabled none = none ∧
      ∀ suffix : String,
        (∀ n, archive_suffix_match string_array_contains archive_plugins
            archive_plugins_enabled suffix n →
          (∀ j, j < n → ¬ archive_suffix_match string_array_contains
            archive_plugins archive_plugins_enabled suffix j) →
          archive_plugin_from_suffix string_array_contains archive_plugins
            archive_plugins_enabled (some suffix) = archive_plugins[n]?) ∧
        ((∀ n, ¬ archive_suffix_match string_array_contains archive_plugins
            archive_plugins_enabled suffix n) →
          archive_plugin_from_suffix string_array_contains archive_plugins
            archive_plugins_enabled (some suffix) = none) := by
  refine ⟨rfl, fun suffix => ?_⟩
  have h := archive_plugin_from_suffix_loop_spec string_array_contains
    archive_plugins_enabled suffix archive_plugins 0
  simpa [archive_plugin_from_suffix] using h


theorem archive_plugin_from_suffix_example :
    archive_plugin_from_suffix (fun l s => l.contains s)
        [⟨"bz2", some ["bz2"], some true, true⟩,
         ⟨"zzip", some ["zip"], some false, true⟩,
         ⟨"iso", some ["iso", "zip"], none, false⟩]
        [true, false, true] (some "zip")
      = some ⟨"iso", some ["iso", "zip"], none, false⟩ := by
  decide

/-! ### The format-description string -/

theorem c_bytes_ascii (s : String) (h : is_ascii s = true) :
    c_bytes s = s.data.map Char.toNat := by
  rcases s with ⟨l⟩
  simp only [is_ascii, c_bytes, List.all_eq_true, decide_eq_true_eq] at h ⊢
  induction l with
  | nil => rfl
  | cons c l ih =>
    simp only [List.flatMap_cons, List.map_cons]
    rw [ih (fun x hx => h x (List.mem_cons_of_mem c hx))]
    simp [utf8_bytes, h c (List.mem_cons_self c l)]

theorem c_bytes_length (s : String) (h : is_ascii s = true) :
    (c_bytes s).length = s.length := by
  rw [c_bytes_ascii s h, List.length_map]
  rfl

theorem c_string_c_bytes (s : String) (h : is_ascii s = true) :
    c_string (c_bytes s) = s := by
  rw [c_bytes_ascii s h]
  rcases s with ⟨l⟩
  simp only [c_string, List.map_map]
  congr 1
  induction l with
  | nil => rfl
  | cons c l ih =>
    simp only [List.map_cons, Function.comp, Char.ofNat_toNat]
    congr 1
    exact ih (by
      simp only [is_ascii, List.all_cons, Bool.and_eq_true] at h ⊢
      exact h.2)

theorem snprintf_fits (size : Nat) (text : List Nat)
    (h : text.length < size) : snprintf size text = text := by
  unfold snprintf
  exact List.take_of_length_le (by omega)

theorem is_ascii_append (a b : String) (ha : is_ascii a = true)
    (hb : is_ascii b = true) : is_ascii (a ++ b) = true := by
  simp only [is_ascii, String.data_append, List.all_append, Bool.and_eq_true] at *
  exact ⟨ha, hb⟩

theorem digitChar_ascii (d : Nat) : (Nat.digitChar d).toNat < 0x80 := by
  by_cases h : d < 16
  · interval_cases d <;> decide
  · have h2 : Nat.digitChar d = '*' := by
      unfold Nat.digitChar
      repeat (rw [if_neg (by omega)])
    rw [h2]
    decide

theorem toDigitsCore_ascii (b : Nat) :
    ∀ (f n : Nat) (ds : List Char), (∀ c ∈ ds, c.toNat < 0x80) →
      ∀ c ∈ Nat.toDigitsCore b f n ds, c.toNat < 0x80 := by
  intro f
  induction f with
  | zero =>
    intro n ds h
    simpa [Nat.toDigitsCore] using h
  | succ f ih =>
    intro n ds h
    have h2 : ∀ c ∈ Nat.digitChar (n % b) :: ds, c.toNat < 0x80 := by
      intro c hc
      rcases List.mem_cons.mp hc with hc | hc
      · rw [hc]
        exact digitChar_ascii _
      · exact h c hc
    simp only [Nat.toDigitsCore]
    split_ifs
    · exact h2
    · exact ih _ _ h2

theorem nat_toString_ascii (n : Nat) : is_ascii (toString n) = true := by
  show is_ascii (Nat.repr n) = true
  simp only [is_ascii, Nat.repr, Nat.toDigits, List.asString, List.all_eq_true,
    decide_eq_true_eq]
  exact toDigitsCore_ascii 10 _ _ [] (by simp)

theorem int_toString_ascii (n : Int) : is_ascii (toString n) = true := by
  cases n with
  | ofNat m => exact nat_toString_ascii m
  | negSucc m =>
    show is_ascii ("-" ++ toString (m + 1)) = true
    exact is_ascii_append _ _ (by decide) (nat_toString_ascii _)

theorem format_02d_ascii (n : Int) : is_ascii (format_02d n) = true := by
  unfold format_02d
  split_ifs
  · exact is_ascii_append _ _ (by decide) (int_toString_ascii n)
  · exact int_toString_ascii n

theorem char_ofNat_toNat_ascii (b : Nat) (h : b < 0x80) :
    (Char.ofNat b).toNat = b := by
  interval_cases b <;> rfl

theorem c_bytes_c_string (bytes : List Nat) (h : ∀ b ∈ bytes, b < 0x80) :
    c_bytes (c_string bytes) = bytes := by
  induction bytes with
  | nil => rfl
  | cons b l ih =>
    have hb := h b (List.mem_cons_self b l)
    have e : c_bytes (c_string (b :: l))
        = utf8_bytes (Char.ofNat b) ++ c_bytes (c_string l) := rfl
    rw [e, ih (fun x hx => h x (List.mem_cons_of_mem b hx))]
    simp [utf8_bytes, char_ofNat_toNat_ascii b hb, hb]

/-- The bytes `audio_format_to_string` leaves in the buffer are ASCII, whatever
the size of the buffer, so the text given for the buffer has exactly these
bytes. -/
theorem audio_format_to_string_bytes (big_endian : Bool) (buffer_size : Nat)
    (af : audio_format) :
    (∀ b ∈ snprintf buffer_size (c_bytes
        (format_u af.sample_rate ++ ":" ++
          sample_format_to_string af.format ++
          (if af.reverse_endian then REVERSE_ENDIAN_SUFFIX big_endian
            else "") ++
          ":" ++ format_u af.channels)), b < 0x80) ∧
      c_bytes (audio_format_to_string big_endian buffer_size af)
        = snprintf buffer_size (c_bytes
            (format_u af.sample_rate ++ ":" ++
              sample_format_to_string af.format ++
              (if af.reverse_endian then REVERSE_ENDIAN_SUFFIX big_endian
                else "") ++
              ":" ++ format_u af.channels)) := by
  have hascii : is_ascii (format_u af.sample_rate ++ ":" ++
      sample_format_to_string af.format ++
      (if af.reverse_endian then REVERSE_ENDIAN_SUFFIX big_endian else "") ++
      ":" ++ format_u af.channels) = true := by
    refine is_ascii_append _ _ (is_ascii_append _ _ (is_ascii_append _ _
      (is_ascii_append _ _ (is_ascii_append _ _ (nat_toString_ascii _)
        (by decide)) ?_) ?_) (by decide)) (nat_toString_ascii _)
    · cases af.format <;> decide
    · cases af.reverse_endian <;> cases big_endian <;> decide
  have h1 : ∀ b ∈ snprintf buffer_size (c_bytes
      (format_u af.sample_rate ++ ":" ++
        sample_format_to_string af.format ++
        (if af.reverse_endian then REVERSE_ENDIAN_SUFFIX big_endian
          else "") ++
        ":" ++ format_u af.channels)), b < 0x80 := by
    intro b hb
    rw [c_bytes_ascii _ hascii] at hb
    have hb2 := List.mem_of_mem_take hb
    obtain ⟨c, hc, rfl⟩ := List.mem_map.mp hb2
    simp only [is_ascii, List.all_eq_true, decide_eq_true_eq] at hascii
    exact hascii c hc
  exact ⟨h1, c_bytes_c_string _ h1⟩

/-- C13: with the rate an unsigned 32 bit number, the channel count an
unsigned 8 bit number and a string buffer of at least 23 bytes,
`audio_format_to_string` renders the format as
`<sample_rate>:<bits><suffix>:<channels>` with the rate and the channel count
in decimal, `<bits>` being `sample_format_to_string` of the sample format
(`24_3` for packed 24 bit only, `24` for 24-in-32) and `<suffix>` being empty
when `reverse_endian` is false, `_be` on a little-endian host and `_le` on a
big-endian host otherwise. -/
theorem audio_format_to_string_rendering (big_endian : Bool)
    (buffer_size : Nat) (af : audio_format)
    (hsize : 23 ≤ buffer_size)
    (hrate : af.sample_rate < 2 ^ 32) (hch : af.channels < 2 ^ 8) :
    audio_format_to_string big_endian buffer_size af
        = toString af.sample_rate ++ ":" ++
          sample_format_to_string af.format ++
          (if af.reverse_endian = false then ""
           else if big_endian = false then "_be" else "_le") ++
          ":" ++ toString af.channels ∧
      (sample_format_to_string af.format = "24_3"
        ↔ af.format = SAMPLE_FORMAT_S24) ∧
      (sample_format_to_string af.format = "24"
        ↔ af.format = SAMPLE_FORMAT_S24_P32) := by
  have h1 : (toString af.sample_rate).length ≤ 10 :=
    Nat.repr_length af.sample_rate 10 (by norm_num)
      (lt_of_lt_of_le hrate (by norm_num))
  have h2 : (toString af.channels).length ≤ 3 :=
    Nat.repr_length af.channels 3 (by norm_num)
      (lt_of_lt_of_le hch (by norm_num))
  have h3 : (sample_format_to_string af.format).length ≤ 4 := by
    cases af.format <;> decide
  refine ⟨?_, ?_, ?_⟩
  · unfold audio_format_to_string
    have hs : (if af.reverse_endian = true then REVERSE_ENDIAN_SUFFIX big_endian
        else "") = (if af.reverse_endian = false then ""
           else if big_endian = false then "_be" else "_le") := by
      cases af.reverse_endian <;> cases big_endian <;> rfl
    have h4 : (if af.reverse_endian = false then ""
           else if big_endian = false then "_be" else "_le").length ≤ 3 := by
      cases af.reverse_endian <;> cases big_endian <;> decide
    rw [hs]
    have h5 : (":" : String).length = 1 := rfl
    have hascii : is_ascii (format_u af.sample_rate ++ ":" ++
        sample_format_to_string af.format ++
        (if af.reverse_endian = false then ""
          else if big_endian = false then "_be" else "_le") ++
        ":" ++ format_u af.channels) = true := by
      refine is_ascii_append _ _ (is_ascii_append _ _ (is_ascii_append _ _
        (is_ascii_append _ _ (is_ascii_append _ _ (nat_toString_ascii _)
          (by decide)) ?_) ?_) (by decide)) (nat_toString_ascii _)
      · cases af.format <;> decide
      · cases af.reverse_endian <;> cases big_endian <;> decide
    rw [snprintf_fits _ _ (by
      rw [c_bytes_length _ hascii]
      simp only [String.length_append, format_u]
      omega)]
    exact c_string_c_bytes _ hascii
  · cases af.format <;> decide
  · cases af.format <;> decide

/-- C13 at the two inputs of the claim, on a little-endian host with a 24 byte
buffer. -/
theorem audio_format_to_string_rendering_witness :
    23 ≤ 24 ∧ 44100 < 2 ^ 32 ∧ 2 < 2 ^ 8 ∧
      audio_format_to_string false 24 ⟨44100, SAMPLE_FORMAT_S16, 2, false⟩
        = "44100:16:2" ∧
      audio_format_to_string false 24 ⟨48000, SAMPLE_FORMAT_S24, 1, true⟩
        = "48000:24_3_be:1" ∧
      audio_format_to_string true 24 ⟨48000, SAMPLE_FORMAT_S24, 1, true⟩
        = "48000:24_3_le:1" :=
  ⟨by decide, by decide, by decide,
    (audio_format_to_string_rendering false 24
      ⟨44100, SAMPLE_FORMAT_S16, 2, false⟩ (by decide) (by decide)
      (by decide)).1.trans (by decide),
    by decide, by decide⟩



/-! ### Streams of frames -/

theorem frames_length {α : Type} (n : Nat) (l : List α) :
    (frames n l).length = l.length / n := by
  simp [frames]

theorem frames_mem_length {α : Type} (n : Nat) (l : List α) (f : List α)
    (h : f ∈ frames n l) : f.length = n := by
  simp only [frames, List.mem_map, List.mem_range] at h
  obtain ⟨i, hi, rfl⟩ := h
  rw [List.length_take, List.length_drop]
  have h1 : 0 < n := by
    rcases Nat.eq_zero_or_pos n with h0 | h0
    · subst h0
      simp at hi
    · exact h0
  have h2 : (i + 1) * n ≤ l.length :=
    le_trans (Nat.mul_le_mul_right n hi) (Nat.div_mul_le_self l.length n)
  have h3 : (i + 1) * n = i * n + n := by ring
  omega

theorem frames_append {α : Type} (n : Nat) (a b : List α)
    (h : a.length % n = 0) :
    frames n (a ++ b) = frames n a ++ frames n b := by
  rcases Nat.eq_zero_or_pos n with h0 | h0
  · subst h0
    simp [frames]
  obtain ⟨m, hm⟩ := Nat.dvd_of_mod_eq_zero h
  have hdiv : (a ++ b).length / n = a.length / n + b.length / n := by
    rw [List.length_append, hm, Nat.mul_comm n m, Nat.add_comm,
      Nat.add_mul_div_right _ _ h0, Nat.mul_div_cancel _ h0, Nat.add_comm]
  have ham : a.length / n = m := by
    rw [hm, Nat.mul_div_cancel_left _ h0]
  unfold frames
  rw [hdiv, List.range_add, List.map_append, List.map_map]
  congr 1
  · apply List.map_congr_left
    intro i hi
    rw [List.mem_range, ham] at hi
    have h2 : (i + 1) * n ≤ a.length := by
      rw [hm, Nat.mul_comm n m]
      exact Nat.mul_le_mul_right n hi
    have h3 : (i + 1) * n = i * n + n := by ring
    rw [List.drop_append_of_le_length (by omega),
      List.take_append_of_le_length (by rw [List.length_drop]; omega)]
  · apply List.map_congr_left
    intro j _
    simp only [Function.comp]
    have h4 : (a.length / n + j) * n = a.length + j * n := by
      rw [ham, hm]
      ring
    rw [h4, List.drop_append]

theorem flatten_length_const {α : Type} (w : Nat) (L : List (List α))
    (h : ∀ x ∈ L, x.length = w) : L.flatten.length = w * L.length := by
  induction L with
  | nil => simp
  | cons x L ih =>
    simp only [List.flatten_cons, List.length_append, List.length_cons]
    rw [ih (fun y hy => h y (List.mem_cons_of_mem x hy)),
      h x (List.mem_cons_self x L)]
    ring

theorem frames_flatten {α : Type} (w : Nat) (hw : 0 < w) (L : List (List α))
    (h : ∀ x ∈ L, x.length = w) : frames w L.flatten = L := by
  induction L with
  | nil => simp [frames]
  | cons x L ih =>
    have hx : x.length = w := h x (List.mem_cons_self x L)
    rw [List.flatten_cons, frames_append w x L.flatten (by rw [hx]; simp),
      ih (fun y hy => h y (List.mem_cons_of_mem x hy))]
    have h1 : frames w x = [x] := by
      simp only [frames, hx, Nat.div_self hw]
      simp [List.range_succ, ← hx]
    rw [h1]
    rfl

theorem stream_fold_append {σ α β : Type} (step : σ → α → σ × List β)
    (s : σ) (a b : List α) :
    stream_fold step s (a ++ b)
      = ((stream_fold step (stream_fold step s a).1 b).1,
          (stream_fold step s a).2 ++
            (stream_fold step (stream_fold step s a).1 b).2) := by
  induction a generalizing s with
  | nil => simp [stream_fold]
  | cons x a ih => simp [stream_fold, ih, List.append_assoc]


/-! ### Samples and their bytes -/

theorem le_bytes_length (w n : Nat) : (le_bytes w n).length = w := by
  induction w generalizing n with
  | zero => rfl
  | succ w ih => simp [le_bytes, ih]

theorem le_value_le_bytes (w n : Nat) (h : n < 256 ^ w) :
    le_value (le_bytes w n) = n := by
  induction w generalizing n with
  | zero =>
    simp only [pow_zero, Nat.lt_one_iff] at h
    subst h
    rfl
  | succ w ih =>
    have h1 : n / 256 < 256 ^ w := by
      rw [Nat.div_lt_iff_lt_mul (by norm_num)]
      rw [pow_succ] at h
      exact h
    simp only [le_bytes, le_value, ih _ h1, Nat.mod_mod]
    omega

theorem encode_sample_length (w : Nat) (big_endian : Bool) (v : Int) :
    (encode_sample w big_endian v).length = w := by
  unfold encode_sample
  cases big_endian <;> simp [le_bytes_length]

theorem decode_encode_sample (w : Nat) (big_endian : Bool) (v : Int)
    (hw : 0 < w) (hlo : -(2 : Int) ^ (8 * w - 1) ≤ v)
    (hhi : v < (2 : Int) ^ (8 * w - 1)) :
    decode_sample big_endian (encode_sample w big_endian v) = v := by
  have hlen := encode_sample_length w big_endian v
  have hpow : (2 : Int) ^ (8 * w) = 2 * 2 ^ (8 * w - 1) := by
    rw [← pow_succ']
    congr 1
    omega
  have hH : (0 : Int) < 2 ^ (8 * w - 1) := by positivity
  have hnat : ((2 : Nat) ^ (8 * w - 1) : Nat) = ((2 : Int) ^ (8 * w - 1)) := by
    push_cast
    rfl
  have hmod_nonneg : 0 ≤ v % 2 ^ (8 * w) :=
    Int.emod_nonneg _ (by positivity)
  have hmod_lt : v % 2 ^ (8 * w) < 2 ^ (8 * w) :=
    Int.emod_lt_of_pos _ (by positivity)
  have h256 : (256 : Nat) ^ w = 2 ^ (8 * w) := by
    rw [show (256 : Nat) = 2 ^ 8 by norm_num, ← pow_mul]
  have hval : le_value (if big_endian = true
      then (encode_sample w big_endian v).reverse
      else encode_sample w big_endian v)
      = (v % 2 ^ (8 * w)).toNat := by
    have : (if big_endian = true then (encode_sample w big_endian v).reverse
        else encode_sample w big_endian v)
        = le_bytes w (v % 2 ^ (8 * w)).toNat := by
      unfold encode_sample
      cases big_endian <;> simp
    rw [this]
    apply le_value_le_bytes
    rw [h256]
    have : ((v % 2 ^ (8 * w)).toNat : Int) < ((2 ^ (8 * w) : Nat) : Int) := by
      rw [Int.toNat_of_nonneg hmod_nonneg]
      push_cast
      exact hmod_lt
    exact_mod_cast this
  unfold decode_sample
  simp only [hval, hlen]
  have hcast : (((v % 2 ^ (8 * w)).toNat : Nat) : Int) = v % 2 ^ (8 * w) :=
    Int.toNat_of_nonneg hmod_nonneg
  rcases lt_or_le v 0 with hneg | hpos
  · have hm : v % 2 ^ (8 * w) = v + 2 ^ (8 * w) := by
      rw [← Int.add_emod_self]
      exact Int.emod_eq_of_lt (by omega) (by omega)
    have hge : ¬ (v % 2 ^ (8 * w)).toNat < 2 ^ (8 * w - 1) := by
      intro hlt
      have : (((v % 2 ^ (8 * w)).toNat : Nat) : Int)
          < ((2 ^ (8 * w - 1) : Nat) : Int) := by exact_mod_cast hlt
      rw [hcast, hm, hnat] at this
      omega
    rw [if_neg hge, hcast, hm]
    ring
  · have hm : v % 2 ^ (8 * w) = v :=
      Int.emod_eq_of_lt hpos (by omega)
    have hlt : (v % 2 ^ (8 * w)).toNat < 2 ^ (8 * w - 1) := by
      have : (((v % 2 ^ (8 * w)).toNat : Nat) : Int)
          < ((2 ^ (8 * w - 1) : Nat) : Int) := by
        rw [hcast, hm, hnat]
        exact hhi
      exact_mod_cast this
    rw [if_pos hlt, hcast, hm]

theorem pcm_bytes_append (w : Nat) (big_endian : Bool) (a b : List Int) :
    pcm_bytes w big_endian (a ++ b)
      = pcm_bytes w big_endian a ++ pcm_bytes w big_endian b := by
  simp [pcm_bytes]

theorem pcm_bytes_length (w : Nat) (big_endian : Bool) (values : List Int) :
    (pcm_bytes w big_endian values).length = w * values.length := by
  unfold pcm_bytes
  rw [flatten_length_const w _ (by
    intro x hx
    simp only [List.mem_map] at hx
    obtain ⟨v, _, rfl⟩ := hx
    exact encode_sample_length w big_endian v)]
  simp

theorem pcm_samples_append (w : Nat) (big_endian : Bool) (a b : List Nat)
    (h : a.length % w = 0) :
    pcm_samples w big_endian (a ++ b)
      = pcm_samples w big_endian a ++ pcm_samples w big_endian b := by
  simp [pcm_samples, frames_append w a b h]

theorem pcm_samples_length (w : Nat) (big_endian : Bool) (bytes : List Nat) :
    (pcm_samples w big_endian bytes).length = bytes.length / w := by
  simp [pcm_samples, frames_length]

theorem pcm_samples_pcm_bytes (w : Nat) (big_endian : Bool)
    (values : List Int) (hw : 0 < w)
    (h : ∀ v ∈ values, -(2 : Int) ^ (8 * w - 1) ≤ v ∧ v < 2 ^ (8 * w - 1)) :
    pcm_samples w big_endian (pcm_bytes w big_endian values) = values := by
  unfold pcm_samples pcm_bytes
  rw [frames_flatten w hw _ (by
    intro x hx
    simp only [List.mem_map] at hx
    obtain ⟨v, _, rfl⟩ := hx
    exact encode_sample_length w big_endian v)]
  rw [List.map_map]
  conv_rhs => rw [← List.map_id values]
  apply List.map_congr_left
  intro v hv
  exact decode_encode_sample w big_endian v hw (h v hv).1 (h v hv).2


/-! ### Widening 8 bit samples to 16 bit -/

theorem spec_pcm_convert_to_16_s8 (big_endian : Bool) (buffer : pcm_buffer)
    (dither : Int) (src : List Nat) :
    (spec_pcm_convert_to big_endian 16 buffer dither SAMPLE_FORMAT_S8 src
      src.length).1
      = some (pcm_bytes 2 big_endian
          ((pcm_samples 1 big_endian src).map fun v => v * 256),
        2 * (pcm_samples 1 big_endian src).length) := by
  simp [spec_pcm_convert_to, spec_format_bytes, spec_convert_samples,
    sample_format_bits, sample_format_size, chain_sample_width,
    pcm_bytes_length]

/-- C15: with the kernels modelled from the specification, converting signed
8 bit samples to a 16 bit destination with the same channel count and rate,
in native byte order, returns for the sample values `v` (each between -128
and 127) exactly the 16 bit samples `v * 256`, two bytes per sample; read
back, the returned buffer holds the values `v * 256`, so nothing is lost. -/
theorem pcm_convert_8_to_16 (big_endian : Bool)
    (state : pcm_convert_state spec_resample_state Int)
    (src_format dest_format : audio_format) (values : List Int)
    (hs : src_format.format = SAMPLE_FORMAT_S8)
    (hd : dest_format.format = SAMPLE_FORMAT_S16)
    (hch : src_format.channels = dest_format.channels)
    (hrate : src_format.sample_rate = dest_format.sample_rate)
    (hnative : dest_format.reverse_endian = false)
    (hrange : ∀ v ∈ values, -128 ≤ v ∧ v < 128) :
    let src := pcm_bytes 1 big_endian values
    let r := pcm_convert (spec_kernels big_endian) state src_format src
      src.length dest_format
    r.ret = some (pcm_bytes 2 big_endian (values.map fun v => v * 256)) ∧
      r.dest_size = some (2 * values.length) ∧
      pcm_samples 2 big_endian
          (pcm_bytes 2 big_endian (values.map fun v => v * 256))
        = values.map fun v => v * 256 := by
  have hdec : pcm_samples 1 big_endian (pcm_bytes 1 big_endian values)
      = values :=
    pcm_samples_pcm_bytes 1 big_endian values (by norm_num) (by
      intro v hv
      have := hrange v hv
      norm_num
      omega)
  have hfmt := spec_pcm_convert_to_16_s8 big_endian state.format_buffer
    state.dither (pcm_bytes 1 big_endian values)
  rw [hdec] at hfmt
  obtain ⟨_, h2, h3⟩ := run_chain_size (chain_16 (spec_kernels big_endian))
    state src_format (pcm_bytes 1 big_endian values)
    (pcm_bytes 1 big_endian values).length dest_format hch hrate _ _
    (by rw [hs]; exact hfmt)
  simp only [pcm_convert, hd, pcm_convert_16_eq_run_chain]
  refine ⟨h3 hnative, h2, ?_⟩
  apply pcm_samples_pcm_bytes 2 big_endian _ (by norm_num)
  intro v hv
  simp only [List.mem_map] at hv
  obtain ⟨u, hu, rfl⟩ := hv
  have := hrange u hu
  norm_num
  omega

/-- C15 at the value of the claim, on a little-endian host: 0x7F (the byte
0x7F) becomes 0x7F00 (the bytes 0x00, 0x7F), and -128 becomes -32768. -/
theorem pcm_convert_8_to_16_witness :
    (∀ v ∈ [(0x7F : Int), -128], -128 ≤ v ∧ v < 128) ∧
      (let src := pcm_bytes 1 false [0x7F, -128]
       let r := pcm_convert (spec_kernels false) spec_state
          ⟨44100, SAMPLE_FORMAT_S8, 1, false⟩ src src.length
          ⟨44100, SAMPLE_FORMAT_S16, 1, false⟩
       r.ret = some (pcm_bytes 2 false
          ([(0x7F : Int), -128].map fun v => v * 256)) ∧
        r.dest_size = some (2 * [(0x7F : Int), -128].length) ∧
        pcm_samples 2 false
            (pcm_bytes 2 false ([(0x7F : Int), -128].map fun v => v * 256))
          = [(0x7F : Int), -128].map fun v => v * 256) ∧
      pcm_bytes 1 false [0x7F, -128] = [0x7F, 0x80] ∧
      pcm_bytes 2 false [0x7F00, -32768] = [0x00, 0x7F, 0x00, 0x80] ∧
      [(0x7F : Int), -128].map (fun v => v * 256) = [0x7F00, -32768] :=
  ⟨by decide,
    pcm_convert_8_to_16 false spec_state
      ⟨44100, SAMPLE_FORMAT_S8, 1, false⟩
      ⟨44100, SAMPLE_FORMAT_S16, 1, false⟩ [0x7F, -128] rfl rfl rfl rfl rfl
      (by decide),
    by decide, by decide, by decide⟩


/-! ### Stereo to mono -/

theorem run_chain_remix_size (c : chain_kernels R D)
    (state : pcm_convert_state R D) (src_format : audio_format)
    (src_buffer : List Nat) (src_size : Nat) (dest_format : audio_format)
    (hch : src_format.channels ≠ dest_format.channels)
    (hrate : src_format.sample_rate = dest_format.sample_rate)
    (b1 : List Nat) (l1 : Nat)
    (hfmt : (c.format state.format_buffer state.dither src_format.format
      src_buffer src_size).1 = some (b1, l1))
    (b2 : List Nat) (l2 : Nat)
    (hremix : (c.channels state.channels_buffer dest_format.channels
      src_format.channels b1 l1).1 = some (b2, l2)) :
    let r := run_chain c state src_format src_buffer src_size dest_format
    r.ret.isSome = true ∧ r.dest_size = some l2 ∧
      (dest_format.reverse_endian = false → r.ret = some b2) := by
  simp only [run_chain_eq]
  rcases hf : c.format state.format_buffer state.dither src_format.format
    src_buffer src_size with ⟨_ | ⟨b, l⟩, fb, d⟩
  · rw [hf] at hfmt
    cases hfmt
  · rw [hf] at hfmt
    cases hfmt
    simp only [chain_channels, if_pos hch]
    rcases hc : c.channels state.channels_buffer dest_format.channels
      src_format.channels b1 l1 with ⟨_ | ⟨b, l⟩, cb⟩
    · rw [hc] at hremix
      cases hremix
    · rw [hc] at hremix
      cases hremix
      simp only [chain_resample, if_neg (not_not.mpr hrate), chain_byteswap]
      cases dest_format.reverse_endian <;> simp

theorem spec_pcm_convert_channels_2_to_1 (big_endian : Bool) (w : Nat)
    (buffer : pcm_buffer) (src : List Nat) :
    (spec_pcm_convert_channels big_endian w buffer 1 2 src src.length).1
      = some (pcm_bytes w big_endian
          ((frames 2 (pcm_samples w big_endian src)).map
            fun f => (f.sum + 1) / 2),
        w * (frames 2 (pcm_samples w big_endian src)).length) := by
  simp [spec_pcm_convert_channels, spec_remix, pcm_bytes_length]

/-- C16: with the kernels modelled from the specification, converting a
16 bit stereo stream to a 16 bit mono destination at the same rate, in native
byte order, returns for the input frames `[l, r]` (16 bit values) the frames
`[(l + r + 1) / 2]` with the quotient rounded down: the average, a half
rounded up, by one rule for every frame.  There are as many output frames as
input frames (two bytes each), and read back the returned buffer holds these
averages. -/
theorem pcm_convert_stereo_to_mono (big_endian : Bool)
    (state : pcm_convert_state spec_resample_state Int)
    (src_format dest_format : audio_format) (stereo : List (Int × Int))
    (hs : src_format.format = SAMPLE_FORMAT_S16)
    (hd : dest_format.format = SAMPLE_FORMAT_S16)
    (hsc : src_format.channels = 2) (hdc : dest_format.channels = 1)
    (hrate : src_format.sample_rate = dest_format.sample_rate)
    (hnative : dest_format.reverse_endian = false)
    (hrange : ∀ f ∈ stereo, (-32768 ≤ f.1 ∧ f.1 < 32768) ∧
      (-32768 ≤ f.2 ∧ f.2 < 32768)) :
    let src := pcm_bytes 2 big_endian (stereo.flatMap fun f => [f.1, f.2])
    let mono := stereo.map fun f => (f.1 + f.2 + 1) / 2
    let r := pcm_convert (spec_kernels big_endian) state src_format src
      src.length dest_format
    r.ret = some (pcm_bytes 2 big_endian mono) ∧
      r.dest_size = some (2 * stereo.length) ∧
      mono.length = stereo.length ∧
      pcm_samples 2 big_endian (pcm_bytes 2 big_endian mono) = mono := by
  have hdec : pcm_samples 2 big_endian
      (pcm_bytes 2 big_endian (stereo.flatMap fun f => [f.1, f.2]))
      = stereo.flatMap fun f => [f.1, f.2] :=
    pcm_samples_pcm_bytes 2 big_endian _ (by norm_num) (by
      intro v hv
      simp only [List.mem_flatMap, List.mem_cons, List.mem_singleton,
        List.not_mem_nil, or_false] at hv
      obtain ⟨f, hf, hv⟩ := hv
      have := hrange f hf
      norm_num
      rcases hv with rfl | rfl <;> omega)
  have hfr : frames 2 (stereo.flatMap fun f => [f.1, f.2])
      = stereo.map fun f => [f.1, f.2] := by
    rw [List.flatMap_def]
    apply frames_flatten 2 (by norm_num)
    intro x hx
    simp only [List.mem_map] at hx
    obtain ⟨f, _, rfl⟩ := hx
    rfl
  have hremix := spec_pcm_convert_channels_2_to_1 big_endian 2
    state.channels_buffer
    (pcm_bytes 2 big_endian (stereo.flatMap fun f => [f.1, f.2]))
  rw [hdec, hfr, List.map_map, List.length_map] at hremix
  have hfmt : ((chain_16 (spec_kernels big_endian)).format state.format_buffer
      state.dither src_format.format
      (pcm_bytes 2 big_endian (stereo.flatMap fun f => [f.1, f.2]))
      (pcm_bytes 2 big_endian (stereo.flatMap fun f => [f.1, f.2])).length).1
      = some (pcm_bytes 2 big_endian (stereo.flatMap fun f => [f.1, f.2]),
          (pcm_bytes 2 big_endian
            (stereo.flatMap fun f => [f.1, f.2])).length) := by
    rw [hs]
    simp [chain_16, spec_kernels, spec_pcm_convert_to, sample_format_bits,
      sample_format_size, chain_sample_width]
  have hmap : (stereo.map fun f => (f.1 + f.2 + 1) / 2)
      = stereo.map ((fun f : List Int => (f.sum + 1) / 2) ∘
          fun f => [f.1, f.2]) := by
    apply List.map_congr_left
    intro f _
    simp
  obtain ⟨_, h2, h3⟩ := run_chain_remix_size
    (chain_16 (spec_kernels big_endian)) state src_format _ _ dest_format
    (by rw [hsc, hdc]; decide) hrate _ _ hfmt _ _
    (by rw [hsc, hdc]; exact hremix)
  simp only [pcm_convert, hd, pcm_convert_16_eq_run_chain]
  refine ⟨by rw [h3 hnative, hmap], h2, by simp, ?_⟩
  apply pcm_samples_pcm_bytes 2 big_endian _ (by norm_num)
  intro v hv
  simp only [List.mem_map] at hv
  obtain ⟨f, hf, rfl⟩ := hv
  have := hrange f hf
  norm_num
  omega

/-- C16 at the frames of the claim, on a little-endian host: `[100, 102]`
gives `[101]` and `[100, 101]` gives `[101]`. -/
theorem pcm_convert_stereo_to_mono_witness :
    (∀ f ∈ [((100 : Int), (102 : Int)), (100, 101)],
        (-32768 ≤ f.1 ∧ f.1 < 32768) ∧ (-32768 ≤ f.2 ∧ f.2 < 32768)) ∧
      (let stereo : List (Int × Int) := [(100, 102), (100, 101)]
       let src := pcm_bytes 2 false (stereo.flatMap fun f => [f.1, f.2])
       let mono := stereo.map fun f => (f.1 + f.2 + 1) / 2
       let r := pcm_convert (spec_kernels false) spec_state
          ⟨44100, SAMPLE_FORMAT_S16, 2, false⟩ src src.length
          ⟨44100, SAMPLE_FORMAT_S16, 1, false⟩
       r.ret = some (pcm_bytes 2 false mono) ∧
        r.dest_size = some (2 * stereo.length) ∧
        mono.length = stereo.length ∧
        pcm_samples 2 false (pcm_bytes 2 false mono) = mono) ∧
      [((100 : Int), (102 : Int)), (100, 101)].map
        (fun f => (f.1 + f.2 + 1) / 2) = [101, 101] :=
  ⟨by decide,
    pcm_convert_stereo_to_mono false spec_state
      ⟨44100, SAMPLE_FORMAT_S16, 2, false⟩
      ⟨44100, SAMPLE_FORMAT_S16, 1, false⟩ [(100, 102), (100, 101)]
      rfl rfl rfl rfl rfl rfl (by decide),
    by decide⟩


/-! ### Packing 24 bit samples and unpacking them -/

theorem spec_pack_24_pcm_bytes (big_endian reverse_endian : Bool)
    (values : List Int)
    (h : ∀ v ∈ values, -(2 : Int) ^ 23 ≤ v ∧ v < 2 ^ 23) :
    spec_pack_24 big_endian (pcm_bytes 4 big_endian values) values.length
        reverse_endian
      = pcm_bytes 3 (big_endian != reverse_endian) values := by
  unfold spec_pack_24 pcm_bytes
  rw [frames_flatten 4 (by norm_num) _ (by
    intro x hx
    simp only [List.mem_map] at hx
    obtain ⟨v, _, rfl⟩ := hx
    exact encode_sample_length 4 big_endian v)]
  rw [List.take_of_length_le (by simp), List.map_map]
  congr 1
  apply List.map_congr_left
  intro v hv
  simp only [Function.comp]
  rw [decode_encode_sample 4 big_endian v (by norm_num)
    (by have := h v hv; norm_num; omega)
    (by have := h v hv; norm_num; omega)]

theorem spec_pcm_convert_to_24_unpack (big_endian : Bool)
    (buffer : pcm_buffer) (values : List Int)
    (h : ∀ v ∈ values, -(2 : Int) ^ 23 ≤ v ∧ v < 2 ^ 23) :
    ((spec_kernels big_endian).pcm_convert_to_24 buffer SAMPLE_FORMAT_S24
        (pcm_bytes 3 big_endian values)
        (pcm_bytes 3 big_endian values).length).1
      = some (pcm_bytes 4 big_endian values, 4 * values.length) := by
  have hdec := pcm_samples_pcm_bytes 3 big_endian values (by norm_num) (by
    intro v hv
    have := h v hv
    norm_num
    omega)
  simp only [spec_kernels, spec_pcm_convert_to, spec_format_bytes,
    spec_convert_samples, sample_format_bits, sample_format_size,
    chain_sample_width, List.take_length, hdec]
  simp [pcm_bytes_length]

/-- C17 as stated fails when the packed format is in reverse byte order: on a
little-endian host the 24-in-32 value 1 is packed as the bytes 0, 0, 1, and
converting these back to 24-in-32 (the source byte order is never looked at)
gives the bytes 0, 0, 1, 0: the value 65536, not 1. -/
theorem pcm_convert_pack_unpack_reversed :
    (pcm_convert (spec_kernels false) spec_state
        ⟨44100, SAMPLE_FORMAT_S24_P32, 1, false⟩ (pcm_bytes 4 false [1]) 4
        ⟨44100, SAMPLE_FORMAT_S24, 1, true⟩).ret = some [0, 0, 1] ∧
      (pcm_convert (spec_kernels false)
        (pcm_convert (spec_kernels false) spec_state
          ⟨44100, SAMPLE_FORMAT_S24_P32, 1, false⟩ (pcm_bytes 4 false [1]) 4
          ⟨44100, SAMPLE_FORMAT_S24, 1, true⟩).state
        ⟨44100, SAMPLE_FORMAT_S24, 1, true⟩ [0, 0, 1] 3
        ⟨44100, SAMPLE_FORMAT_S24_P32, 1, false⟩).ret = some [0, 0, 1, 0] ∧
      pcm_samples 4 false [0, 0, 1, 0] = [65536] ∧
      pcm_samples 4 false [0, 0, 1, 0] ≠ [1] := by
  decide

/-- C17, amended: with the kernels modelled from the specification, for every
buffer of 24-in-32 samples with values in the signed 24 bit range and a
sample count whose triple is below 2^32, converting it to the packed 24 bit
destination in native byte order and converting the result back to 24-in-32
in native byte order, with the same channel count and rate and through the
same conversion state, returns the original buffer: every 24 bit value is
recovered.  The packed buffer has 3 bytes per sample. -/
theorem pcm_convert_pack_unpack (big_endian : Bool)
    (state : pcm_convert_state spec_resample_state Int)
    (padded packed : audio_format) (values : List Int)
    (hp32 : padded.format = SAMPLE_FORMAT_S24_P32)
    (hp : packed.format = SAMPLE_FORMAT_S24)
    (hch : padded.channels = packed.channels)
    (hrate : padded.sample_rate = packed.sample_rate)
    (hnative : packed.reverse_endian = false)
    (hnative32 : padded.reverse_endian = false)
    (hrange : ∀ v ∈ values, -(2 : Int) ^ 23 ≤ v ∧ v < 2 ^ 23)
    (hfit : 3 * values.length < 2 ^ 32) :
    let src := pcm_bytes 4 big_endian values
    let r1 := pcm_convert (spec_kernels big_endian) state padded src
      src.length packed
    let r2 := pcm_convert (spec_kernels big_endian) r1.state packed
      (pcm_bytes 3 big_endian values) (3 * values.length) padded
    r1.ret = some (pcm_bytes 3 big_endian values) ∧
      r1.dest_size = some (3 * values.length) ∧
      r2.ret = some src ∧ r2.dest_size = some src.length ∧
      pcm_samples 4 big_endian src = values := by
  have hlen4 := pcm_bytes_length 4 big_endian values
  have hlen3 := pcm_bytes_length 3 big_endian values
  -- the 24-in-32 chain passes the source through
  have hfmt : ((chain_24 (spec_kernels big_endian)).format state.format_buffer
      state.dither padded.format (pcm_bytes 4 big_endian values)
      (pcm_bytes 4 big_endian values).length).1
      = some (pcm_bytes 4 big_endian values,
          (pcm_bytes 4 big_endian values).length) := by
    rw [hp32]
    simp [chain_24, spec_kernels, spec_pcm_convert_to, sample_format_bits,
      sample_format_size, chain_sample_width]
  obtain ⟨_, h2, h3⟩ := run_chain_size (chain_24 (spec_kernels big_endian))
    state padded _ _
    { packed with format := SAMPLE_FORMAT_S24_P32, reverse_endian := false }
    hch hrate _ _ hfmt
  have h3 := h3 rfl
  have hn1 : (pcm_bytes 4 big_endian values).length / 4 % 2 ^ 32
      = values.length := by
    rw [hlen4, Nat.mul_div_cancel_left _ (by norm_num : 0 < 4)]
    exact Nat.mod_eq_of_lt (by omega)
  have hn2 : values.length * 3 % 2 ^ 32 = 3 * values.length := by
    rw [Nat.mul_comm]
    exact Nat.mod_eq_of_lt hfit
  have hpack : ∀ got, ((spec_kernels big_endian).pcm_pack_24 got
      (pcm_bytes 4 big_endian values) values.length packed.reverse_endian).1
      = pcm_bytes 3 big_endian values := by
    intro got
    simp only [spec_kernels]
    rw [spec_pack_24_pcm_bytes big_endian packed.reverse_endian values hrange,
      hnative]
    simp
  have hunpack := spec_pcm_convert_to_24_unpack big_endian
    (pcm_convert (spec_kernels big_endian) state padded
      (pcm_bytes 4 big_endian values) (pcm_bytes 4 big_endian values).length
      packed).state.format_buffer values hrange
  rw [hlen3] at hunpack
  obtain ⟨_, h5, h6⟩ := run_chain_size (chain_24 (spec_kernels big_endian))
    (pcm_convert (spec_kernels big_endian) state padded
      (pcm_bytes 4 big_endian values) (pcm_bytes 4 big_endian values).length
      packed).state packed (pcm_bytes 3 big_endian values)
    (3 * values.length) padded hch.symm hrate.symm _ _
    (by rw [hp]; exact hunpack)
  refine ⟨?_, ?_, ?_, ?_, ?_⟩
  · simp only [pcm_convert, hp]
    rw [pcm_convert_24_packed_eq (spec_kernels big_endian) state padded _ _
      packed _ rfl, h3]
    simp only [h2, Option.getD_some, hn1, hn2, hpack]
    simp [spec_kernels]
  · simp only [pcm_convert, hp]
    rw [pcm_convert_24_packed_eq (spec_kernels big_endian) state padded _ _
      packed _ rfl, h3]
    simp only [h2, Option.getD_some, hn1, hn2]
  · simp only [pcm_convert, hp32, pcm_convert_24_eq_run_chain] at h6 ⊢
    exact h6 hnative32
  · simp only [pcm_convert, hp32, pcm_convert_24_eq_run_chain] at h5 ⊢
    rw [h5, hlen4]
  · exact pcm_samples_pcm_bytes 4 big_endian values (by norm_num) (by
      intro v hv
      have := hrange v hv
      norm_num
      omega)


/-- C17, amended, at a concrete input on a little-endian host: the values
1, -1 and 8388607 on one channel. -/
theorem pcm_convert_pack_unpack_witness :
    (∀ v ∈ [(1 : Int), -1, 8388607], -(2 : Int) ^ 23 ≤ v ∧ v < 2 ^ 23) ∧
      3 * [(1 : Int), -1, 8388607].length < 2 ^ 32 ∧
      (let src := pcm_bytes 4 false [1, -1, 8388607]
       let r1 := pcm_convert (spec_kernels false) spec_state
          ⟨44100, SAMPLE_FORMAT_S24_P32, 1, false⟩ src src.length
          ⟨44100, SAMPLE_FORMAT_S24, 1, false⟩
       let r2 := pcm_convert (spec_kernels false) r1.state
          ⟨44100, SAMPLE_FORMAT_S24, 1, false⟩
          (pcm_bytes 3 false [1, -1, 8388607])
          (3 * [(1 : Int), -1, 8388607].length)
          ⟨44100, SAMPLE_FORMAT_S24_P32, 1, false⟩
       r1.ret = some (pcm_bytes 3 false [1, -1, 8388607]) ∧
        r1.dest_size = some (3 * [(1 : Int), -1, 8388607].length) ∧
        r2.ret = some src ∧ r2.dest_size = some src.length ∧
        pcm_samples 4 false src = [1, -1, 8388607]) :=
  ⟨by decide, by decide,
    pcm_convert_pack_unpack false spec_state
      ⟨44100, SAMPLE_FORMAT_S24_P32, 1, false⟩
      ⟨44100, SAMPLE_FORMAT_S24, 1, false⟩ [1, -1, 8388607]
      rfl rfl rfl rfl rfl rfl (by decide) (by decide)⟩

/-! ### Streaming: the stages of the model on a stream cut in two -/

theorem mod_mul_split (n w c : Nat) (h : n % (w * c) = 0) :
    n % w = 0 ∧ (n / w) % c = 0 := by
  obtain ⟨q, hq⟩ := Nat.dvd_of_mod_eq_zero h
  rcases Nat.eq_zero_or_pos w with h0 | h0
  · subst h0
    simp at hq
    simp [hq]
  · have e : n = w * (c * q) := by rw [hq, Nat.mul_assoc]
    refine ⟨by rw [e]; exact Nat.mul_mod_right _ _, ?_⟩
    rw [e, Nat.mul_div_cancel_left _ h0]
    exact Nat.mul_mod_right _ _

theorem stream_fold_length_one {σ α β : Type} (step : σ → α → σ × List β)
    (h : ∀ s x, (step s x).2.length = 1) (s : σ) (l : List α) :
    (stream_fold step s l).2.length = l.length := by
  induction l generalizing s with
  | nil => simp [stream_fold]
  | cons x l ih =>
    simp only [stream_fold, List.length_append, h, ih, List.length_cons]
    omega

theorem spec_convert_samples_append (bits : Nat) (format : sample_format)
    (dither : Int) (a b : List Int) :
    spec_convert_samples bits format dither (a ++ b)
      = ((spec_convert_samples bits format
            (spec_convert_samples bits format dither a).1 b).1,
          (spec_convert_samples bits format dither a).2 ++
            (spec_convert_samples bits format
              (spec_convert_samples bits format dither a).1 b).2) := by
  unfold spec_convert_samples
  split_ifs
  · simp
  · simp [stream_fold_append]
  · simp

theorem spec_convert_samples_length (bits : Nat) (format : sample_format)
    (dither : Int) (a : List Int) :
    (spec_convert_samples bits format dither a).2.length = a.length := by
  unfold spec_convert_samples
  split_ifs
  · simp
  · rw [stream_fold_length_one dither_step (fun _ _ => rfl)]
    simp
  · simp

theorem spec_format_bytes_append (big_endian : Bool) (bits : Nat)
    (format : sample_format) (dither : Int) (a b : List Nat)
    (h : a.length % sample_format_size format = 0) :
    spec_format_bytes big_endian bits format dither (a ++ b)
      = ((spec_format_bytes big_endian bits format
            (spec_format_bytes big_endian bits format dither a).1 b).1,
          (spec_format_bytes big_endian bits format dither a).2 ++
            (spec_format_bytes big_endian bits format
              (spec_format_bytes big_endian bits format dither a).1 b).2) := by
  unfold spec_format_bytes
  split_ifs
  · rfl
  · simp only []
    rw [pcm_samples_append _ _ _ _ h, spec_convert_samples_append,
      pcm_bytes_append]

theorem spec_format_bytes_length (big_endian : Bool) (bits : Nat)
    (format : sample_format) (dither : Int) (a : List Nat)
    (h : a.length % sample_format_size format = 0) :
    (spec_format_bytes big_endian bits format dither a).2.length
      = chain_sample_width bits * (a.length / sample_format_size format) := by
  unfold spec_format_bytes
  split_ifs with hp
  · simp only []
    rw [hp.2] at h ⊢
    exact (Nat.mul_div_cancel' (Nat.dvd_of_mod_eq_zero h)).symm
  · simp only []
    rw [pcm_bytes_length, spec_convert_samples_length, pcm_samples_length]

theorem spec_format_bytes_aligned (big_endian : Bool) (bits : Nat)
    (format : sample_format) (dither : Int) (a : List Nat) (channels : Nat)
    (h : a.length % (sample_format_size format * channels) = 0) :
    (spec_format_bytes big_endian bits format dither a).2.length
      % (chain_sample_width bits * channels) = 0 := by
  obtain ⟨h1, h2⟩ := mod_mul_split _ _ _ h
  rw [spec_format_bytes_length _ _ _ _ _ h1]
  obtain ⟨q, hq⟩ := Nat.dvd_of_mod_eq_zero h2
  rw [hq, ← Nat.mul_assoc]
  exact Nat.mul_mod_right _ _

theorem spec_remix_bytes_append (big_endian : Bool) (w : Nat)
    (dest_channels src_channels : Nat) (a b : List Nat)
    (h : a.length % (w * src_channels) = 0) :
    spec_remix_bytes big_endian w dest_channels src_channels (a ++ b)
      = spec_remix_bytes big_endian w dest_channels src_channels a ++
          spec_remix_bytes big_endian w dest_channels src_channels b := by
  obtain ⟨h1, h2⟩ := mod_mul_split _ _ _ h
  unfold spec_remix_bytes spec_remix
  rw [pcm_samples_append _ _ _ _ h1]
  split_ifs with h3 h4 h5
  · rfl
  · simp [pcm_bytes_append]
  · rw [frames_append 2 _ _ (by
      rw [pcm_samples_length, ← h5.1]
      exact h2)]
    simp [pcm_bytes_append]
  · simp [pcm_bytes]

theorem spec_remix_bytes_aligned (big_endian : Bool) (w : Nat)
    (dest_channels src_channels : Nat) (a : List Nat)
    (hs : src_channels = dest_channels ∨
      (src_channels = 1 ∧ dest_channels = 2) ∨
      (src_channels = 2 ∧ dest_channels = 1))
    (h : a.length % (w * src_channels) = 0) :
    (spec_remix_bytes big_endian w dest_channels src_channels a).length
      % (w * dest_channels) = 0 := by
  unfold spec_remix_bytes spec_remix
  rcases hs with hs | ⟨hs, hd⟩ | ⟨hs, hd⟩
  · simp [hs] at h ⊢
    exact h
  · subst hs hd
    simp only [OfNat.ofNat_ne_one, if_false, and_self, if_true, Option.getD_some]
    rw [pcm_bytes_length]
    have e : ∀ l : List Int,
        (l.flatMap fun v => [v, v]).length = 2 * l.length := by
      intro l
      induction l with
      | nil => rfl
      | cons x l ih =>
        simp only [List.flatMap_cons, List.length_append, ih, List.length_cons,
          List.length_nil]
        omega
    rw [e, ← Nat.mul_assoc]
    exact Nat.mul_mod_right _ _
  · subst hs hd
    simp [pcm_bytes_length]

theorem spec_resample_bytes_append (big_endian : Bool) (w : Nat)
    (channels src_rate dest_rate : Nat) (state : spec_resample_state)
    (a b : List Nat) (h : a.length % (w * channels) = 0) :
    spec_resample_bytes big_endian w channels src_rate dest_rate state (a ++ b)
      = ((spec_resample_bytes big_endian w channels src_rate dest_rate
            (spec_resample_bytes big_endian w channels src_rate dest_rate
              state a).1 b).1,
          (spec_resample_bytes big_endian w channels src_rate dest_rate
              state a).2 ++
            (spec_resample_bytes big_endian w channels src_rate dest_rate
              (spec_resample_bytes big_endian w channels src_rate dest_rate
                state a).1 b).2) := by
  obtain ⟨h1, h2⟩ := mod_mul_split _ _ _ h
  unfold spec_resample_bytes
  rw [pcm_samples_append _ _ _ _ h1, frames_append channels _ _ (by
    rw [pcm_samples_length]
    exact h2), stream_fold_append, pcm_bytes_append]

theorem spec_resample_bytes_aligned (big_endian : Bool) (w : Nat)
    (channels src_rate dest_rate : Nat) (state : spec_resample_state)
    (a : List Nat) :
    (spec_resample_bytes big_endian w channels src_rate dest_rate
      state a).2.length % w = 0 := by
  unfold spec_resample_bytes
  rw [pcm_bytes_length]
  exact Nat.mul_mod_right _ _

theorem spec_byteswap_append (w : Nat) (a b : List Nat)
    (h : a.length % w = 0) :
    spec_byteswap w (a ++ b) = spec_byteswap w a ++ spec_byteswap w b := by
  simp [spec_byteswap, frames_append w a b h]

theorem spec_stream_nil (big_endian : Bool) (bits : Nat)
    (src_format dest_format : audio_format) (s : spec_resample_state × Int) :
    spec_stream big_endian bits src_format dest_format s [] = (s, []) := by
  have e1 : ∀ w, pcm_samples w big_endian [] = [] := by
    intro w
    simp [pcm_samples, frames]
  have e2 : ∀ d, spec_convert_samples bits src_format.format d [] = (d, []) := by
    intro d
    unfold spec_convert_samples
    split_ifs <;> simp [stream_fold]
  have e3 : spec_format_bytes big_endian bits src_format.format s.2 []
      = (s.2, []) := by
    unfold spec_format_bytes
    split_ifs
    · rfl
    · simp [e1, e2, pcm_bytes]
  have e4 : spec_remix_bytes big_endian (chain_sample_width bits)
      dest_format.channels src_format.channels [] = [] := by
    unfold spec_remix_bytes spec_remix
    split_ifs <;> simp [e1, pcm_bytes, frames]
  have e5 : ∀ r, spec_resample_bytes big_endian (chain_sample_width bits)
      dest_format.channels src_format.sample_rate dest_format.sample_rate r []
      = (r, []) := by
    intro r
    simp [spec_resample_bytes, e1, frames, stream_fold, pcm_bytes]
  have e6 : spec_byteswap (chain_sample_width bits) [] = [] := by
    simp [spec_byteswap, frames]
  unfold spec_stream
  simp only [e3, e4, e5]
  split_ifs <;> simp [e6]

theorem spec_stream_append (big_endian : Bool) (bits : Nat)
    (src_format dest_format : audio_format) (s : spec_resample_state × Int)
    (a b : List Nat)
    (hs : src_format.channels = dest_format.channels ∨
      (src_format.channels = 1 ∧ dest_format.channels = 2) ∨
      (src_format.channels = 2 ∧ dest_format.channels = 1))
    (h : a.length % audio_format_frame_size src_format = 0) :
    spec_stream big_endian bits src_format dest_format s (a ++ b)
      = ((spec_stream big_endian bits src_format dest_format
            (spec_stream big_endian bits src_format dest_format s a).1 b).1,
          (spec_stream big_endian bits src_format dest_format s a).2 ++
            (spec_stream big_endian bits src_format dest_format
              (spec_stream big_endian bits src_format dest_format s a).1
              b).2) := by
  unfold audio_format_frame_size at h
  have hf := spec_format_bytes_append big_endian bits src_format.format s.2 a b
    (mod_mul_split _ _ _ h).1
  have hfa := spec_format_bytes_aligned big_endian bits src_format.format s.2 a
    src_format.channels h
  have hca := spec_remix_bytes_aligned big_endian (chain_sample_width bits)
    dest_format.channels src_format.channels _ hs hfa
  unfold spec_stream
  simp only []
  rw [hf]
  simp only []
  rw [spec_remix_bytes_append _ _ _ _ _ _ hfa]
  by_cases hr : src_format.sample_rate = dest_format.sample_rate
  · simp only [hr, ne_eq, not_true_eq_false, if_false]
    by_cases hrev : dest_format.reverse_endian = true
    · simp only [hrev, if_true]
      rw [spec_byteswap_append _ _ _ (mod_mul_split _ _ _ hca).1]
    · simp only [hrev, if_false]
      simp
  · simp only [hr, ne_eq, not_false_eq_true, if_true]
    rw [spec_resample_bytes_append _ _ _ _ _ _ _ _ hca]
    by_cases hrev : dest_format.reverse_endian = true
    · simp only [hrev, if_true]
      rw [spec_byteswap_append _ _ _ (spec_resample_bytes_aligned _ _ _ _ _ _ _)]
    · simp only [hrev, if_false]
      simp

/-! ### Streaming: one call of `pcm_convert` over the model is `spec_stream` -/

theorem spec_pcm_convert_to_stream (big_endian : Bool) (bits : Nat)
    (buffer : pcm_buffer) (dither : Int) (format : sample_format)
    (bytes : List Nat) (h : format ≠ SAMPLE_FORMAT_UNDEFINED) :
    (spec_pcm_convert_to big_endian bits buffer dither format bytes
        bytes.length).1
      = some ((spec_format_bytes big_endian bits format dither bytes).2,
          (spec_format_bytes big_endian bits format dither bytes).2.length) ∧
      (spec_pcm_convert_to big_endian bits buffer dither format bytes
        bytes.length).2.2
      = (spec_format_bytes big_endian bits format dither bytes).1 := by
  unfold spec_pcm_convert_to
  rw [if_neg h]
  by_cases hp : sample_format_bits format = bits ∧
      sample_format_size format = chain_sample_width bits
  · simp [spec_format_bytes, hp]
  · rw [if_neg hp]
    simp

theorem spec_format_bytes_dither_free (big_endian : Bool) (bits : Nat)
    (format : sample_format) (d1 d2 : Int) (bytes : List Nat)
    (h : bits ≠ 16) :
    (spec_format_bytes big_endian bits format d1 bytes).2
      = (spec_format_bytes big_endian bits format d2 bytes).2 ∧
      (spec_format_bytes big_endian bits format d1 bytes).1 = d1 := by
  unfold spec_format_bytes spec_convert_samples
  split_ifs <;> simp

theorem spec_pcm_convert_channels_stream (big_endian : Bool) (w : Nat)
    (buffer : pcm_buffer) (dest_channels src_channels : Nat)
    (bytes : List Nat)
    (hs : src_channels = dest_channels ∨
      (src_channels = 1 ∧ dest_channels = 2) ∨
      (src_channels = 2 ∧ dest_channels = 1)) :
    (spec_pcm_convert_channels big_endian w buffer dest_channels src_channels
        bytes bytes.length).1
      = some (spec_remix_bytes big_endian w dest_channels src_channels bytes,
          (spec_remix_bytes big_endian w dest_channels src_channels
            bytes).length) := by
  unfold spec_pcm_convert_channels spec_remix_bytes spec_remix
  rcases hs with hs | ⟨hs, hd⟩ | ⟨hs, hd⟩
  · simp [hs]
  · subst hs hd
    simp
  · subst hs hd
    simp

theorem spec_pcm_resample_stream (big_endian : Bool) (w : Nat)
    (state : spec_resample_state) (channels src_rate dest_rate : Nat)
    (bytes : List Nat) (h1 : src_rate ≠ 0) (h2 : dest_rate ≠ 0) :
    spec_pcm_resample big_endian w state channels src_rate bytes bytes.length
        dest_rate
      = (some ((spec_resample_bytes big_endian w channels src_rate dest_rate
            state bytes).2,
          (spec_resample_bytes big_endian w channels src_rate dest_rate
            state bytes).2.length), none,
          (spec_resample_bytes big_endian w channels src_rate dest_rate
            state bytes).1) := by
  simp [spec_pcm_resample, spec_resample_bytes, h1, h2]

theorem spec_byteswap_length (w : Nat) (bytes : List Nat)
    (h : bytes.length % w = 0) :
    (spec_byteswap w bytes).length = bytes.length := by
  unfold spec_byteswap
  rw [flatten_length_const w _ (by
    intro x hx
    simp only [List.mem_map] at hx
    obtain ⟨f, hf, rfl⟩ := hx
    rw [List.length_reverse]
    exact frames_mem_length w bytes f hf)]
  rw [List.length_map, frames_length]
  exact Nat.mul_div_cancel' (Nat.dvd_of_mod_eq_zero h)

theorem run_chain_spec_stream (c : chain_kernels spec_resample_state Int)
    (big_endian : Bool) (bits : Nat)
    (hf : ∀ fb d f b, f ≠ SAMPLE_FORMAT_UNDEFINED →
      (c.format fb d f b b.length).1
        = some ((spec_format_bytes big_endian bits f d b).2,
            (spec_format_bytes big_endian bits f d b).2.length) ∧
        (c.format fb d f b b.length).2.2
          = (spec_format_bytes big_endian bits f d b).1)
    (hc : c.channels
      = spec_pcm_convert_channels big_endian (chain_sample_width bits))
    (hr : c.resample = spec_pcm_resample big_endian (chain_sample_width bits))
    (hb : c.byteswap = spec_pcm_byteswap (chain_sample_width bits))
    (state : pcm_convert_state spec_resample_state Int)
    (src_format dest_format : audio_format) (bytes : List Nat)
    (hs : spec_supported src_format dest_format)
    (halign : bytes.length % audio_format_frame_size src_format = 0) :
    (run_chain c state src_format bytes bytes.length dest_format).ret
        = some (spec_stream big_endian bits src_format dest_format
            (state.resample, state.dither) bytes).2 ∧
      (run_chain c state src_format bytes bytes.length dest_format).dest_size
        = some (spec_stream big_endian bits src_format dest_format
            (state.resample, state.dither) bytes).2.length ∧
      (run_chain c state src_format bytes bytes.length
          dest_format).state.resample
        = (spec_stream big_endian bits src_format dest_format
            (state.resample, state.dither) bytes).1.1 ∧
      (run_chain c state src_format bytes bytes.length
          dest_format).state.dither
        = (spec_stream big_endian bits src_format dest_format
            (state.resample, state.dither) bytes).1.2 := by
  obtain ⟨hu, hch, hrate⟩ := hs
  obtain ⟨hf1, hf2⟩ := hf state.format_buffer state.dither src_format.format
    bytes hu
  unfold audio_format_frame_size at halign
  have hfa := spec_format_bytes_aligned big_endian bits src_format.format
    state.dither bytes src_format.channels halign
  have hca := spec_remix_bytes_aligned big_endian (chain_sample_width bits)
    dest_format.channels src_format.channels _ hch hfa
  have hcs := spec_pcm_convert_channels_stream big_endian
    (chain_sample_width bits) state.channels_buffer dest_format.channels
    src_format.channels
    (spec_format_bytes big_endian bits src_format.format state.dither bytes).2
    hch
  rw [run_chain_eq]
  rcases hX : c.format state.format_buffer state.dither src_format.format
    bytes bytes.length with ⟨o, fb, d⟩
  rw [hX] at hf1 hf2
  simp only [] at hf1 hf2
  subst hf1 hf2
  simp only [chain_channels, hc, hr, hb, spec_stream]
  have key : ∀ (st : pcm_convert_state spec_resample_state Int)
      (calls : List stage_call),
      st.resample = state.resample →
      st.dither = (spec_format_bytes big_endian bits src_format.format
        state.dither bytes).1 →
      let x := spec_remix_bytes big_endian (chain_sample_width bits)
        dest_format.channels src_format.channels
        (spec_format_bytes big_endian bits src_format.format state.dither
          bytes).2
      let r := chain_resample c src_format dest_format x x.length st calls
      let t := if src_format.sample_rate ≠ dest_format.sample_rate then
          spec_resample_bytes big_endian (chain_sample_width bits)
            dest_format.channels src_format.sample_rate
            dest_format.sample_rate state.resample x
        else (state.resample, x)
      let o := if dest_format.reverse_endian then
          spec_byteswap (chain_sample_width bits) t.2 else t.2
      r.ret = some o ∧ r.dest_size = some o.length ∧
        r.state.resample = t.1 ∧ r.state.dither = st.dither := by
    intro st calls hst1 hst2
    simp only [chain_resample, chain_byteswap, hr, hb]
    by_cases h2 : src_format.sample_rate = dest_format.sample_rate
    · simp only [h2, ne_eq, not_true_eq_false, if_false]
      by_cases h3 : dest_format.reverse_endian = true
      · simp [h3, spec_pcm_byteswap, hst1,
          spec_byteswap_length _ _ (mod_mul_split _ _ _ hca).1]
      · simp [h3, hst1]
    · have h4 := hrate.resolve_left h2
      simp only [h2, ne_eq, not_false_eq_true, if_true]
      rw [spec_pcm_resample_stream _ _ _ _ _ _ _ h4.1 h4.2]
      simp only []
      by_cases h3 : dest_format.reverse_endian = true
      · simp [h3, spec_pcm_byteswap, hst1,
          spec_byteswap_length _ _ (spec_resample_bytes_aligned _ _ _ _ _ _ _)]
      · simp [h3, hst1]
  by_cases h1 : src_format.channels = dest_format.channels
  · have e1 : spec_remix_bytes big_endian (chain_sample_width bits)
        dest_format.channels src_format.channels
        (spec_format_bytes big_endian bits src_format.format state.dither
          bytes).2
        = (spec_format_bytes big_endian bits src_format.format state.dither
          bytes).2 := by
      simp [spec_remix_bytes, h1]
    have hk := key
    rw [e1] at hk ⊢
    simp only [h1, ne_eq, not_true_eq_false, if_false]
    exact hk _ _ rfl rfl
  · simp only [h1, ne_eq, not_false_eq_true, if_true]
    rcases hY : spec_pcm_convert_channels big_endian (chain_sample_width bits)
      state.channels_buffer dest_format.channels src_format.channels
      (spec_format_bytes big_endian bits src_format.format state.dither
        bytes).2
      (spec_format_bytes big_endian bits src_format.format state.dither
        bytes).2.length with ⟨o2, cb⟩
    rw [hY] at hcs
    simp only [] at hcs
    subst hcs
    simp only []
    exact key _ _ rfl rfl

theorem spec_stream_aligned (big_endian : Bool) (bits : Nat)
    (src_format dest_format : audio_format) (s : spec_resample_state × Int)
    (a : List Nat)
    (hs : src_format.channels = dest_format.channels ∨
      (src_format.channels = 1 ∧ dest_format.channels = 2) ∨
      (src_format.channels = 2 ∧ dest_format.channels = 1))
    (h : a.length % audio_format_frame_size src_format = 0) :
    (spec_stream big_endian bits src_format dest_format s a).2.length
      % chain_sample_width bits = 0 := by
  unfold audio_format_frame_size at h
  have hfa := spec_format_bytes_aligned big_endian bits src_format.format s.2 a
    src_format.channels h
  have hca := spec_remix_bytes_aligned big_endian (chain_sample_width bits)
    dest_format.channels src_format.channels _ hs hfa
  unfold spec_stream
  simp only []
  by_cases hr : src_format.sample_rate = dest_format.sample_rate
  · simp only [hr, ne_eq, not_true_eq_false, if_false]
    by_cases hrev : dest_format.reverse_endian = true
    · simp only [hrev, if_true]
      rw [spec_byteswap_length _ _ (mod_mul_split _ _ _ hca).1]
      exact (mod_mul_split _ _ _ hca).1
    · simp only [hrev, if_false]
      exact (mod_mul_split _ _ _ hca).1
  · simp only [hr, ne_eq, not_false_eq_true, if_true]
    by_cases hrev : dest_format.reverse_endian = true
    · simp only [hrev, if_true]
      rw [spec_byteswap_length _ _ (spec_resample_bytes_aligned _ _ _ _ _ _ _)]
      exact spec_resample_bytes_aligned _ _ _ _ _ _ _
    · simp only [hrev, if_false]
      exact spec_resample_bytes_aligned _ _ _ _ _ _ _

theorem spec_pack_24_append (big_endian reverse_endian : Bool)
    (a b : List Nat) (h : a.length % 4 = 0) :
    spec_pack_24 big_endian (a ++ b) ((a ++ b).length / 4) reverse_endian
      = spec_pack_24 big_endian a (a.length / 4) reverse_endian ++
          spec_pack_24 big_endian b (b.length / 4) reverse_endian := by
  unfold spec_pack_24
  rw [List.take_of_length_le (by rw [frames_length]),
    List.take_of_length_le (by rw [frames_length]),
    List.take_of_length_le (by rw [frames_length]), frames_append 4 a b h]
  simp

theorem spec_pack_24_length (big_endian reverse_endian : Bool)
    (a : List Nat) :
    (spec_pack_24 big_endian a (a.length / 4) reverse_endian).length
      = 3 * (a.length / 4) := by
  unfold spec_pack_24
  rw [List.take_of_length_le (by rw [frames_length]),
    flatten_length_const 3 _ (by
      intro x hx
      simp only [List.mem_map] at hx
      obtain ⟨f, _, rfl⟩ := hx
      exact encode_sample_length 3 _ _)]
  rw [List.length_map, frames_length]

theorem spec_convert_stream_nil (big_endian : Bool)
    (src_format dest_format : audio_format) (s : spec_resample_state × Int) :
    spec_convert_stream big_endian src_format dest_format s [] = (s, []) := by
  unfold spec_convert_stream
  split_ifs
  · simp [spec_stream_nil, spec_pack_24, frames]
  · exact spec_stream_nil _ _ _ _ _

theorem spec_convert_stream_append (big_endian : Bool)
    (src_format dest_format : audio_format) (s : spec_resample_state × Int)
    (a b : List Nat)
    (hs : src_format.channels = dest_format.channels ∨
      (src_format.channels = 1 ∧ dest_format.channels = 2) ∨
      (src_format.channels = 2 ∧ dest_format.channels = 1))
    (h : a.length % audio_format_frame_size src_format = 0) :
    spec_convert_stream big_endian src_format dest_format s (a ++ b)
      = ((spec_convert_stream big_endian src_format dest_format
            (spec_convert_stream big_endian src_format dest_format s a).1 b).1,
          (spec_convert_stream big_endian src_format dest_format s a).2 ++
            (spec_convert_stream big_endian src_format dest_format
              (spec_convert_stream big_endian src_format dest_format s a).1
              b).2) := by
  unfold spec_convert_stream
  split_ifs
  · simp only []
    rw [spec_stream_append big_endian 24 src_format
      (audio_format_init dest_format.sample_rate SAMPLE_FORMAT_S24_P32
        dest_format.channels) s a b hs h]
    simp only []
    rw [spec_pack_24_append _ _ _ _
      (spec_stream_aligned big_endian 24 src_format
        (audio_format_init dest_format.sample_rate SAMPLE_FORMAT_S24_P32
          dest_format.channels) s a hs h)]
  · exact spec_stream_append _ _ _ _ _ _ _ hs h

theorem chain_16_spec_format (big_endian : Bool) (fb : pcm_buffer) (d : Int)
    (f : sample_format) (b : List Nat) (hu : f ≠ SAMPLE_FORMAT_UNDEFINED) :
    ((chain_16 (spec_kernels big_endian)).format fb d f b b.length).1
        = some ((spec_format_bytes big_endian 16 f d b).2,
            (spec_format_bytes big_endian 16 f d b).2.length) ∧
      ((chain_16 (spec_kernels big_endian)).format fb d f b b.length).2.2
        = (spec_format_bytes big_endian 16 f d b).1 :=
  spec_pcm_convert_to_stream big_endian 16 fb d f b hu

theorem chain_24_spec_format (big_endian : Bool) (fb : pcm_buffer) (d : Int)
    (f : sample_format) (b : List Nat) (hu : f ≠ SAMPLE_FORMAT_UNDEFINED) :
    ((chain_24 (spec_kernels big_endian)).format fb d f b b.length).1
        = some ((spec_format_bytes big_endian 24 f d b).2,
            (spec_format_bytes big_endian 24 f d b).2.length) ∧
      ((chain_24 (spec_kernels big_endian)).format fb d f b b.length).2.2
        = (spec_format_bytes big_endian 24 f d b).1 := by
  have h1 := (spec_pcm_convert_to_stream big_endian 24 fb 0 f b hu).1
  have h2 := spec_format_bytes_dither_free big_endian 24 f 0 d b (by decide)
  have h3 := spec_format_bytes_dither_free big_endian 24 f d 0 b (by decide)
  refine ⟨?_, h3.2.symm⟩
  rw [← h2.1]
  exact h1

theorem chain_32_spec_format (big_endian : Bool) (fb : pcm_buffer) (d : Int)
    (f : sample_format) (b : List Nat) (hu : f ≠ SAMPLE_FORMAT_UNDEFINED) :
    ((chain_32 (spec_kernels big_endian)).format fb d f b b.length).1
        = some ((spec_format_bytes big_endian 32 f d b).2,
            (spec_format_bytes big_endian 32 f d b).2.length) ∧
      ((chain_32 (spec_kernels big_endian)).format fb d f b b.length).2.2
        = (spec_format_bytes big_endian 32 f d b).1 := by
  have h1 := (spec_pcm_convert_to_stream big_endian 32 fb 0 f b hu).1
  have h2 := spec_format_bytes_dither_free big_endian 32 f 0 d b (by decide)
  have h3 := spec_format_bytes_dither_free big_endian 32 f d 0 b (by decide)
  refine ⟨?_, h3.2.symm⟩
  rw [← h2.1]
  exact h1

theorem pcm_convert_spec_stream (big_endian : Bool)
    (state : pcm_convert_state spec_resample_state Int)
    (src_format dest_format : audio_format) (bytes : List Nat)
    (hs : spec_supported src_format dest_format)
    (hd : dest_format.format = SAMPLE_FORMAT_S16 ∨
      dest_format.format = SAMPLE_FORMAT_S24 ∨
      dest_format.format = SAMPLE_FORMAT_S24_P32 ∨
      dest_format.format = SAMPLE_FORMAT_S32)
    (halign : bytes.length % audio_format_frame_size src_format = 0)
    (hfit : dest_format.format = SAMPLE_FORMAT_S24 →
      3 * ((spec_stream big_endian 24 src_format
        (audio_format_init dest_format.sample_rate SAMPLE_FORMAT_S24_P32
          dest_format.channels)
        (state.resample, state.dither) bytes).2.length / 4) < 2 ^ 32) :
    (pcm_convert (spec_kernels big_endian) state src_format bytes bytes.length
        dest_format).ret
        = some (spec_convert_stream big_endian src_format dest_format
            (state.resample, state.dither) bytes).2 ∧
      (pcm_convert (spec_kernels big_endian) state src_format bytes
        bytes.length dest_format).dest_size
        = some (spec_convert_stream big_endian src_format dest_format
            (state.resample, state.dither) bytes).2.length ∧
      (pcm_convert (spec_kernels big_endian) state src_format bytes
        bytes.length dest_format).state.resample
        = (spec_convert_stream big_endian src_format dest_format
            (state.resample, state.dither) bytes).1.1 ∧
      (pcm_convert (spec_kernels big_endian) state src_format bytes
        bytes.length dest_format).state.dither
        = (spec_convert_stream big_endian src_format dest_format
            (state.resample, state.dither) bytes).1.2 := by
  rcases hd with hd | hd | hd | hd
  · simp only [pcm_convert, spec_convert_stream, hd, sample_format_bits]
    rw [pcm_convert_16_eq_run_chain]
    exact run_chain_spec_stream (chain_16 (spec_kernels big_endian)) big_endian
      16 (chain_16_spec_format big_endian)
      rfl rfl rfl state src_format dest_format bytes hs halign
  · have hfit := hfit hd
    obtain ⟨p1, p2, p3, p4⟩ := run_chain_spec_stream
      (chain_24 (spec_kernels big_endian)) big_endian
      24 (chain_24_spec_format big_endian) rfl rfl rfl state src_format
      (audio_format_init dest_format.sample_rate SAMPLE_FORMAT_S24_P32
        dest_format.channels) bytes hs halign
    have hlen := spec_pack_24_length big_endian dest_format.reverse_endian
      (spec_stream big_endian 24 src_format
        (audio_format_init dest_format.sample_rate SAMPLE_FORMAT_S24_P32
          dest_format.channels) (state.resample, state.dither) bytes).2
    have hn1 : (spec_stream big_endian 24 src_format
        (audio_format_init dest_format.sample_rate SAMPLE_FORMAT_S24_P32
          dest_format.channels)
        (state.resample, state.dither) bytes).2.length / 4 % 2 ^ 32
        = (spec_stream big_endian 24 src_format
          (audio_format_init dest_format.sample_rate SAMPLE_FORMAT_S24_P32
            dest_format.channels)
          (state.resample, state.dither) bytes).2.length / 4 :=
      Nat.mod_eq_of_lt (by omega)
    have hn2 : (spec_stream big_endian 24 src_format
        (audio_format_init dest_format.sample_rate SAMPLE_FORMAT_S24_P32
          dest_format.channels)
        (state.resample, state.dither) bytes).2.length / 4 * 3 % 2 ^ 32
        = 3 * ((spec_stream big_endian 24 src_format
          (audio_format_init dest_format.sample_rate SAMPLE_FORMAT_S24_P32
            dest_format.channels)
          (state.resample, state.dither) bytes).2.length / 4) := by
      rw [Nat.mul_comm]
      exact Nat.mod_eq_of_lt hfit
    simp only [pcm_convert, spec_convert_stream, hd, if_true]
    rw [pcm_convert_24_packed_eq (spec_kernels big_endian) state src_format
      bytes bytes.length dest_format
      (run_chain (chain_24 (spec_kernels big_endian)) state src_format bytes
        bytes.length
        (audio_format_init dest_format.sample_rate SAMPLE_FORMAT_S24_P32
          dest_format.channels)) rfl]
    rw [p1]
    simp only [p2, p3, p4, Option.getD_some, hn1, hn2, hlen]
    simp [spec_kernels]
  · simp only [pcm_convert, spec_convert_stream, hd, sample_format_bits]
    rw [pcm_convert_24_eq_run_chain]
    exact run_chain_spec_stream (chain_24 (spec_kernels big_endian)) big_endian
      24 (chain_24_spec_format big_endian)
      rfl rfl rfl state src_format dest_format bytes hs halign
  · simp only [pcm_convert, spec_convert_stream, hd, sample_format_bits]
    rw [pcm_convert_32_eq_run_chain]
    exact run_chain_spec_stream (chain_32 (spec_kernels big_endian)) big_endian
      32 (chain_32_spec_format big_endian)
      rfl rfl rfl state src_format dest_format bytes hs halign

theorem flatten_aligned (n : Nat) (chunks : List (List Nat))
    (h : ∀ c ∈ chunks, c.length % n = 0) : chunks.flatten.length % n = 0 := by
  induction chunks with
  | nil => simp
  | cons c cs ih =>
    rw [List.flatten_cons, List.length_append, Nat.add_mod,
      h c (List.mem_cons_self c cs),
      ih (fun x hx => h x (List.mem_cons_of_mem c hx))]
    simp

theorem pcm_convert_chunks_spec_stream (big_endian : Bool)
    (src_format dest_format : audio_format)
    (hs : spec_supported src_format dest_format)
    (hd : dest_format.format = SAMPLE_FORMAT_S16 ∨
      dest_format.format = SAMPLE_FORMAT_S24 ∨
      dest_format.format = SAMPLE_FORMAT_S24_P32 ∨
      dest_format.format = SAMPLE_FORMAT_S32)
    (chunks : List (List Nat))
    (state : pcm_convert_state spec_resample_state Int)
    (halign : ∀ c ∈ chunks, c.length % audio_format_frame_size src_format = 0)
    (hfit : dest_format.format = SAMPLE_FORMAT_S24 →
      3 * ((spec_stream big_endian 24 src_format
        (audio_format_init dest_format.sample_rate SAMPLE_FORMAT_S24_P32
          dest_format.channels)
        (state.resample, state.dither) chunks.flatten).2.length / 4)
        < 2 ^ 32) :
    (pcm_convert_chunks (spec_kernels big_endian) src_format dest_format state
        chunks).1
        = some (spec_convert_stream big_endian src_format dest_format
            (state.resample, state.dither) chunks.flatten).2 ∧
      (pcm_convert_chunks (spec_kernels big_endian) src_format dest_format
        state chunks).2.resample
        = (spec_convert_stream big_endian src_format dest_format
            (state.resample, state.dither) chunks.flatten).1.1 ∧
      (pcm_convert_chunks (spec_kernels big_endian) src_format dest_format
        state chunks).2.dither
        = (spec_convert_stream big_endian src_format dest_format
            (state.resample, state.dither) chunks.flatten).1.2 := by
  induction chunks generalizing state with
  | nil => simp [pcm_convert_chunks, spec_convert_stream_nil]
  | cons c cs ih =>
    have hc := halign c (List.mem_cons_self c cs)
    have happ := spec_stream_append big_endian 24 src_format
      (audio_format_init dest_format.sample_rate SAMPLE_FORMAT_S24_P32
        dest_format.channels) (state.resample, state.dither) c cs.flatten
      hs.2.1 hc
    rw [List.flatten_cons, happ] at hfit
    simp only [List.length_append] at hfit
    obtain ⟨h1, h2, h3, h4⟩ := pcm_convert_spec_stream big_endian state
      src_format dest_format c hs hd hc (fun h => by
        have := hfit h
        omega)
    have e1 : (spec_convert_stream big_endian src_format dest_format
        (state.resample, state.dither) c).1
        = (spec_stream big_endian 24 src_format
          (audio_format_init dest_format.sample_rate SAMPLE_FORMAT_S24_P32
            dest_format.channels) (state.resample, state.dither) c).1 ∨
        dest_format.format ≠ SAMPLE_FORMAT_S24 := by
      by_cases h : dest_format.format = SAMPLE_FORMAT_S24
      · left
        simp [spec_convert_stream, h]
      · right
        exact h
    obtain ⟨i1, i2, i3⟩ := ih
      (pcm_convert (spec_kernels big_endian) state src_format c c.length
        dest_format).state
      (fun x hx => halign x (List.mem_cons_of_mem c hx))
      (fun h => by
        have := hfit h
        rcases e1 with e1 | e1
        · rw [h3, h4, Prod.mk.eta, e1]
          omega
        · exact absurd h e1)
    rw [h3, h4] at i1 i2 i3
    simp only [pcm_convert_chunks, h1, h2, i1, i2, i3, List.flatten_cons,
      Option.map_some', List.take_length]
    rw [spec_convert_stream_append _ _ _ _ _ _ hs.2.1 hc]
    exact ⟨rfl, rfl, rfl⟩

/-- C14: over the kernels modelled from the specification, for every
conversion the model has rules for (rates differing included, so that the
stateful resample stage runs) and every list of frame-aligned chunks:
converting the chunks one after another through `pcm_convert`, each call
with the state the previous one left, succeeds on every chunk and yields,
concatenated, exactly the bytes that one call of `pcm_convert` on the whole
stream returns, and both ways leave the same resampler and dither state.
For the packed 24 bit destination the sample count of the whole stream has
to fit the 32 bit arithmetic of `pcm_convert_24_packed`. -/
theorem pcm_convert_chunked (big_endian : Bool)
    (state : pcm_convert_state spec_resample_state Int)
    (src_format dest_format : audio_format) (chunks : List (List Nat))
    (hs : spec_supported src_format dest_format)
    (hd : dest_format.format = SAMPLE_FORMAT_S16 ∨
      dest_format.format = SAMPLE_FORMAT_S24 ∨
      dest_format.format = SAMPLE_FORMAT_S24_P32 ∨
      dest_format.format = SAMPLE_FORMAT_S32)
    (halign : ∀ c ∈ chunks, c.length % audio_format_frame_size src_format = 0)
    (hfit : dest_format.format = SAMPLE_FORMAT_S24 →
      3 * ((pcm_convert (spec_kernels big_endian) state src_format
        chunks.flatten chunks.flatten.length
        (audio_format_init dest_format.sample_rate SAMPLE_FORMAT_S24_P32
          dest_format.channels)).dest_size.getD 0 / 4) < 2 ^ 32) :
    let whole := pcm_convert (spec_kernels big_endian) state src_format
      chunks.flatten chunks.flatten.length dest_format
    let parts := pcm_convert_chunks (spec_kernels big_endian) src_format
      dest_format state chunks
    (∃ out, whole.ret = some out ∧ whole.dest_size = some out.length ∧
        parts.1 = some out) ∧
      parts.2.resample = whole.state.resample ∧
      parts.2.dither = whole.state.dither := by
  have hall := flatten_aligned _ chunks halign
  have hfit2 : dest_format.format = SAMPLE_FORMAT_S24 →
      3 * ((spec_stream big_endian 24 src_format
        (audio_format_init dest_format.sample_rate SAMPLE_FORMAT_S24_P32
          dest_format.channels)
        (state.resample, state.dither) chunks.flatten).2.length / 4)
        < 2 ^ 32 := by
    intro h
    have h0 := hfit h
    have h5 := (pcm_convert_spec_stream big_endian state src_format
      (audio_format_init dest_format.sample_rate SAMPLE_FORMAT_S24_P32
        dest_format.channels) chunks.flatten hs
      (Or.inr (Or.inr (Or.inl rfl))) hall (fun h6 => by cases h6)).2.1
    rw [h5] at h0
    simpa [spec_convert_stream, audio_format_init, sample_format_bits] using h0
  obtain ⟨h1, h2, h3, h4⟩ := pcm_convert_spec_stream big_endian state
    src_format dest_format chunks.flatten hs hd hall hfit2
  obtain ⟨i1, i2, i3⟩ := pcm_convert_chunks_spec_stream big_endian src_format
    dest_format hs hd chunks state halign hfit2
  exact ⟨⟨_, h1, h2, i1⟩, i2.trans h3.symm, i3.trans h4.symm⟩

/-- C14 at a concrete input on a little-endian host: 16 bit stereo at
44100 Hz towards packed 24 bit mono at 48000 Hz in reverse byte order, three
frames cut into a chunk of one frame and a chunk of two, so that every stage
runs. -/
theorem pcm_convert_chunked_witness :
    spec_supported ⟨44100, SAMPLE_FORMAT_S16, 2, false⟩
        ⟨48000, SAMPLE_FORMAT_S24, 1, true⟩ ∧
      (∀ c ∈ [[0, 1, 0, 3], [0, 5, 0, 7, 0, 9, 0, 11]],
        c.length % audio_format_frame_size ⟨44100, SAMPLE_FORMAT_S16, 2, false⟩
          = 0) ∧
      (let whole := pcm_convert (spec_kernels false) spec_state
          ⟨44100, SAMPLE_FORMAT_S16, 2, false⟩
          [[0, 1, 0, 3], [0, 5, 0, 7, 0, 9, 0, 11]].flatten
          [[0, 1, 0, 3], [0, 5, 0, 7, 0, 9, 0, 11]].flatten.length
          ⟨48000, SAMPLE_FORMAT_S24, 1, true⟩
       let parts := pcm_convert_chunks (spec_kernels false)
          ⟨44100, SAMPLE_FORMAT_S16, 2, false⟩
          ⟨48000, SAMPLE_FORMAT_S24, 1, true⟩ spec_state
          [[0, 1, 0, 3], [0, 5, 0, 7, 0, 9, 0, 11]]
       (∃ out, whole.ret = some out ∧ whole.dest_size = some out.length ∧
          parts.1 = some out) ∧
        parts.2.resample = whole.state.resample ∧
        parts.2.dither = whole.state.dither) :=
  ⟨⟨by decide, Or.inr (Or.inr ⟨rfl, rfl⟩), Or.inr ⟨by decide, by decide⟩⟩,
    by decide,
    pcm_convert_chunked false spec_state
      ⟨44100, SAMPLE_FORMAT_S16, 2, false⟩ ⟨48000, SAMPLE_FORMAT_S24, 1, true⟩
      [[0, 1, 0, 3], [0, 5, 0, 7, 0, 9, 0, 11]]
      ⟨by decide, Or.inr (Or.inr ⟨rfl, rfl⟩), Or.inr ⟨by decide, by decide⟩⟩
      (Or.inr (Or.inl rfl)) (by decide) (fun _ => by decide)⟩

/-- The chunked and the whole conversion at concrete inputs on a little-endian
host: the bytes they return, towards a packed 24 bit destination in reverse
byte order and towards a 16 bit destination at twice the rate. -/
theorem pcm_convert_chunks_example :
    (pcm_convert_chunks (spec_kernels false)
        ⟨44100, SAMPLE_FORMAT_S16, 2, false⟩
        ⟨48000, SAMPLE_FORMAT_S24, 1, true⟩ spec_state
        [[0, 1, 0, 3], [0, 5, 0, 7, 0, 9, 0, 11]]).1
        = some [0, 0, 0, 1, 214, 102, 5, 89, 153, 9, 6, 102] ∧
      (pcm_convert (spec_kernels false) spec_state
        ⟨44100, SAMPLE_FORMAT_S16, 2, false⟩
        [0, 1, 0, 3, 0, 5, 0, 7, 0, 9, 0, 11] 12
        ⟨48000, SAMPLE_FORMAT_S24, 1, true⟩).ret
        = some [0, 0, 0, 1, 214, 102, 5, 89, 153, 9, 6, 102] ∧
      (pcm_convert_chunks (spec_kernels false)
        ⟨22050, SAMPLE_FORMAT_S16, 1, false⟩
        ⟨44100, SAMPLE_FORMAT_S16, 1, false⟩ spec_state
        [[0, 1, 0, 2], [0, 3]]).1
        = some [0, 0, 128, 0, 0, 1, 128, 1, 0, 2, 128, 2] ∧
      (pcm_convert (spec_kernels false) spec_state
        ⟨22050, SAMPLE_FORMAT_S16, 1, false⟩ [0, 1, 0, 2, 0, 3] 6
        ⟨44100, SAMPLE_FORMAT_S16, 1, false⟩).ret
        = some [0, 0, 128, 0, 0, 1, 128, 1, 0, 2, 128, 2] := by
  decide

/-! ### The archive plugin registry: initialisation and lookups -/

theorem archive_plugin_init_all_loop_flags :
    ∀ (rest : List archive_plugin) (i : Nat) (enabled : List Bool),
      i + rest.length ≤ enabled.length →
      (archive_plugin_init_all_loop rest i enabled).1.length = enabled.length ∧
      ∀ j, (archive_plugin_init_all_loop rest i enabled).1.getD j false
        = (enabled.getD j false ||
            (decide (i ≤ j) &&
              ((rest[j - i]?).map archive_plugin_init_ok).getD false)) := by
  intro rest
  induction rest with
  | nil =>
    intro i enabled _
    simp [archive_plugin_init_all_loop]
  | cons plugin rest ih =>
    intro i enabled hlen
    simp only [List.length_cons] at hlen
    have hset : ∀ j, (enabled.set i true).getD j false
        = (enabled.getD j false || decide (i = j)) := by
      intro j
      simp only [List.getD_eq_getElem?_getD, List.getElem?_set]
      by_cases hij : i = j
      · subst hij
        have : i < enabled.length := by omega
        simp [this]
      · simp [hij]
    have key : ∀ (e1 : List Bool), e1.length = enabled.length →
        (∀ j, e1.getD j false = (enabled.getD j false ||
          (decide (i = j) && archive_plugin_init_ok plugin))) →
        (archive_plugin_init_all_loop rest (i + 1) e1).1.length
            = enabled.length ∧
          ∀ j, (archive_plugin_init_all_loop rest (i + 1) e1).1.getD j false
            = (enabled.getD j false ||
              (decide (i ≤ j) &&
                (((plugin :: rest)[j - i]?).map
                  archive_plugin_init_ok).getD false)) := by
      intro e1 h1 h2
      obtain ⟨l1, l2⟩ := ih (i + 1) e1 (by omega)
      refine ⟨by rw [l1, h1], fun j => ?_⟩
      rw [l2, h2]
      by_cases hij : i = j
      · subst hij
        simp
      · by_cases hlt : i < j
        · obtain ⟨m, rfl⟩ : ∃ m, j = i + 1 + m := ⟨j - (i + 1), by omega⟩
          have e1 : i + 1 + m - i = m + 1 := by omega
          have e2 : i + 1 + m - (i + 1) = m := by omega
          have e3 : i ≤ i + 1 + m := by omega
          simp [e1, e2, hij, e3]
        · have h3 : ¬ i ≤ j := by omega
          have h4 : ¬ i + 1 ≤ j := by omega
          simp [hij, h3, h4]
    unfold archive_plugin_init_all_loop
    rcases hinit : plugin.init with _ | returned
    · simp only []
      exact key _ (by simp) (fun j => by
        rw [hset]
        simp [archive_plugin_init_ok, hinit])
    · simp only []
      cases returned
      · exact key _ rfl (fun j => by simp [archive_plugin_init_ok, hinit])
      · exact key _ (by simp) (fun j => by
          simp only [if_true]
          rw [hset]
          simp [archive_plugin_init_ok, hinit])

theorem archive_plugin_init_all_flags (archive_plugins : List archive_plugin)
    (enabled : List Bool) (h : enabled.length = archive_plugins.length) :
    (archive_plugin_init_all archive_plugins enabled).1.length
        = enabled.length ∧
      ∀ j, (archive_plugin_init_all archive_plugins enabled).1.getD j false
        = (enabled.getD j false ||
            ((archive_plugins[j]?).map archive_plugin_init_ok).getD false) := by
  have h1 := archive_plugin_init_all_loop_flags archive_plugins 0 enabled
    (by omega)
  simpa [archive_plugin_init_all] using h1

theorem archive_plugin_init_all_loop_calls :
    ∀ (rest : List archive_plugin) (i : Nat) (enabled : List Bool),
      (∀ j, (archive_plugin_init_all_loop rest i enabled).2.count
          (archive_call.init j)
        = if i ≤ j ∧ ((rest[j - i]?).bind fun p => p.init).isSome = true
          then 1 else 0) ∧
      ∀ j, archive_call.finish j ∉
        (archive_plugin_init_all_loop rest i enabled).2 := by
  intro rest
  induction rest with
  | nil =>
    intro i enabled
    simp [archive_plugin_init_all_loop]
  | cons plugin rest ih =>
    intro i enabled
    have step : ∀ (e1 : List Bool) (j : Nat),
        (archive_plugin_init_all_loop rest (i + 1) e1).2.count
          (archive_call.init j)
        = if i + 1 ≤ j ∧ (((plugin :: rest)[j - i]?).bind
            fun p => p.init).isSome = true then 1 else 0 := by
      intro e1 j
      rw [(ih (i + 1) e1).1 j]
      by_cases hlt : i + 1 ≤ j
      · obtain ⟨m, rfl⟩ : ∃ m, j = i + 1 + m := ⟨j - (i + 1), by omega⟩
        have e1 : i + 1 + m - i = m + 1 := by omega
        have e2 : i + 1 + m - (i + 1) = m := by omega
        simp [e1, e2]
      · simp [hlt]
    unfold archive_plugin_init_all_loop
    rcases hinit : plugin.init with _ | returned
    · simp only []
      refine ⟨fun j => ?_, (ih (i + 1) _).2⟩
      rw [step]
      by_cases hij : i = j
      · subst hij
        simp [hinit]
      · have : i + 1 ≤ j ↔ i ≤ j := by omega
        simp [this]
    · simp only []
      refine ⟨fun j => ?_, fun j => ?_⟩
      · rw [List.count_cons, step]
        by_cases hij : i = j
        · subst hij
          simp [hinit]
        · have h1 : i + 1 ≤ j ↔ i ≤ j := by omega
          have h2 : (archive_call.init i == archive_call.init j) = false := by
            simp [hij]
          simp [h1, h2]
      · simp only [List.mem_cons, not_or]
        exact ⟨by simp, (ih (i + 1) _).2 j⟩

theorem archive_plugin_deinit_all_loop_calls (enabled : List Bool) :
    ∀ (rest : List archive_plugin) (i : Nat),
      (∀ j, (archive_plugin_deinit_all_loop enabled rest i).count
          (archive_call.finish j)
        = if i ≤ j ∧ enabled.getD j false = true ∧
            ((rest[j - i]?).map fun p => p.finish) = some true
          then 1 else 0) ∧
      ∀ j, archive_call.init j ∉
        archive_plugin_deinit_all_loop enabled rest i := by
  intro rest
  induction rest with
  | nil =>
    intro i
    simp [archive_plugin_deinit_all_loop]
  | cons plugin rest ih =>
    intro i
    have step : ∀ (j : Nat),
        (archive_plugin_deinit_all_loop enabled rest (i + 1)).count
          (archive_call.finish j)
        = if i + 1 ≤ j ∧ enabled.getD j false = true ∧
            (((plugin :: rest)[j - i]?).map fun p => p.finish) = some true
          then 1 else 0 := by
      intro j
      rw [(ih (i + 1)).1 j]
      by_cases hlt : i + 1 ≤ j
      · obtain ⟨m, rfl⟩ : ∃ m, j = i + 1 + m := ⟨j - (i + 1), by omega⟩
        have e1 : i + 1 + m - i = m + 1 := by omega
        have e2 : i + 1 + m - (i + 1) = m := by omega
        simp [e1, e2]
      · simp [hlt]
    unfold archive_plugin_deinit_all_loop
    by_cases hc : enabled.getD i false = true ∧ plugin.finish = true
    · rw [if_pos hc]
      refine ⟨fun j => ?_, fun j => ?_⟩
      · rw [List.count_cons, step]
        by_cases hij : i = j
        · subst hij
          have hc1 := hc.1
          simp only [List.getD_eq_getElem?_getD] at hc1
          simp [hc1, hc.2]
        · have h1 : i + 1 ≤ j ↔ i ≤ j := by omega
          have h2 : (archive_call.finish i == archive_call.finish j)
              = false := by
            simp [hij]
          simp [h1, h2]
      · simp only [List.mem_cons, not_or]
        exact ⟨by simp, (ih (i + 1)).2 j⟩
    · rw [if_neg hc]
      refine ⟨fun j => ?_, (ih (i + 1)).2⟩
      rw [step]
      by_cases hij : i = j
      · subst hij
        simp only [List.getD_eq_getElem?_getD] at hc
        simp [hc]
      · have : i + 1 ≤ j ↔ i ≤ j := by omega
        simp [this]

theorem archive_plugin_from_name_loop_some (enabled : List Bool)
    (name : String) :
    ∀ (rest : List archive_plugin) (i : Nat) (p : archive_plugin),
      archive_plugin_from_name_loop enabled name rest i = some p →
      ∃ n, rest[n]? = some p ∧ enabled.getD (i + n) false = true ∧
        p.name = name := by
  intro rest
  induction rest with
  | nil =>
    intro i p h
    simp [archive_plugin_from_name_loop] at h
  | cons plugin rest ih =>
    intro i p h
    unfold archive_plugin_from_name_loop at h
    split_ifs at h with hc
    · cases h
      exact ⟨0, by simp, hc.1, hc.2⟩
    · obtain ⟨n, h1, h2, h3⟩ := ih (i + 1) p h
      exact ⟨n + 1, by simpa using h1, by
        rw [← h2]
        congr 1
        omega, h3⟩

theorem archive_plugin_from_suffix_loop_some
    (string_array_contains : List String → String → Bool)
    (enabled : List Bool) (suffix : String) :
    ∀ (rest : List archive_plugin) (i : Nat) (p : archive_plugin),
      archive_plugin_from_suffix_loop string_array_contains enabled suffix
        rest i = some p →
      ∃ n, rest[n]? = some p ∧ enabled.getD (i + n) false = true ∧
        ∃ l, p.suffixes = some l ∧ string_array_contains l suffix = true := by
  intro rest
  induction rest with
  | nil =>
    intro i p h
    simp [archive_plugin_from_suffix_loop] at h
  | cons plugin rest ih =>
    intro i p h
    unfold archive_plugin_from_suffix_loop at h
    split_ifs at h with hc
    · cases h
      obtain ⟨h1, h2, h3⟩ := hc
      rcases hs : plugin.suffixes with _ | l
      · exact absurd hs h2
      · rw [hs] at h3
        exact ⟨0, by simp, h1, l, rfl, by simpa using h3⟩
    · obtain ⟨n, h1, h2, h3⟩ := ih (i + 1) p h
      exact ⟨n + 1, by simpa using h1, by
        rw [← h2]
        congr 1
        omega, h3⟩

/-- Every flag that is set belongs to a plugin whose initialisation
succeeds, and there is one flag per plugin. -/
theorem archive_run_flags (archive_plugins : List archive_plugin) :
    ∀ (ops : List archive_operation) (enabled : List Bool),
      enabled.length = archive_plugins.length →
      (∀ j, enabled.getD j false = true →
        ((archive_plugins[j]?).map archive_plugin_init_ok).getD false
          = true) →
      (archive_run archive_plugins ops enabled).1.length
          = archive_plugins.length ∧
        (∀ j, (archive_run archive_plugins ops enabled).1.getD j false = true →
          ((archive_plugins[j]?).map archive_plugin_init_ok).getD false
            = true) ∧
        (archive_operation.init_all ∉ ops →
          (archive_run archive_plugins ops enabled).1 = enabled) := by
  intro ops
  induction ops with
  | nil =>
    intro enabled h1 h2
    exact ⟨h1, h2, fun _ => rfl⟩
  | cons op ops ih =>
    intro enabled h1 h2
    cases op with
    | init_all =>
      obtain ⟨l1, l2⟩ := archive_plugin_init_all_flags archive_plugins enabled
        h1
      obtain ⟨i1, i2, _⟩ := ih
        (archive_plugin_init_all archive_plugins enabled).1
        (by rw [l1, h1]) (fun j hj => by
          rw [l2] at hj
          rcases Bool.or_eq_true _ _ |>.mp hj with h | h
          · exact h2 j h
          · exact h)
      refine ⟨i1, i2, fun h => ?_⟩
      simp at h
    | deinit_all =>
      obtain ⟨i1, i2, i3⟩ := ih enabled h1 h2
      refine ⟨i1, i2, fun h => ?_⟩
      exact i3 (fun h' => h (List.mem_cons_of_mem _ h'))

theorem archive_plugins_enabled_startup_getD
    (archive_plugins : List archive_plugin) (j : Nat) :
    (archive_plugins_enabled_startup archive_plugins).getD j false = false := by
  simp only [archive_plugins_enabled_startup, List.getD_eq_getElem?_getD,
    List.getElem?_replicate]
  split_ifs <;> rfl

theorem archive_run_startup (archive_plugins : List archive_plugin)
    (ops : List archive_operation) :
    (archive_run archive_plugins ops
        (archive_plugins_enabled_startup archive_plugins)).1.length
        = archive_plugins.length ∧
      (∀ j p, archive_plugins[j]? = some p →
        (archive_run archive_plugins ops
          (archive_plugins_enabled_startup archive_plugins)).1.getD j false
          = true →
        archive_plugin_init_ok p = true ∧
          archive_operation.init_all ∈ ops) ∧
      (archive_operation.init_all ∉ ops →
        ∀ j, (archive_run archive_plugins ops
          (archive_plugins_enabled_startup archive_plugins)).1.getD j false
          = false) := by
  obtain ⟨h1, h2, h3⟩ := archive_run_flags archive_plugins ops
    (archive_plugins_enabled_startup archive_plugins)
    (by simp [archive_plugins_enabled_startup])
    (fun j hj => by
      rw [archive_plugins_enabled_startup_getD] at hj
      cases hj)
  have h4 : archive_operation.init_all ∉ ops →
      ∀ j, (archive_run archive_plugins ops
        (archive_plugins_enabled_startup archive_plugins)).1.getD j false
        = false := by
    intro h j
    rw [h3 h]
    exact archive_plugins_enabled_startup_getD archive_plugins j
  refine ⟨h1, fun j p hp hj => ⟨?_, ?_⟩, h4⟩
  · have := h2 j hj
    simpa [hp] using this
  · by_contra hn
    rw [h4 hn j] at hj
    cases hj

theorem archive_plugin_init_ok_iff (p : archive_plugin) :
    archive_plugin_init_ok p = true ↔ p.init = none ∨ p.init = some true := by
  unfold archive_plugin_init_ok
  rcases p.init with _ | b
  · simp
  · simp

/-- C21: in every state of the registry that a sequence of
`archive_plugin_init_all` and `archive_plugin_deinit_all` calls reaches from
startup (all flags false), a plugin returned by `archive_plugin_from_name` or
`archive_plugin_from_suffix` is an entry of the table whose flag is set, that
matches the name or the suffix, whose `init` callback is `NULL` or returned
true (so never one whose `init()` returned false), and
`archive_plugin_init_all` has run; before `archive_plugin_init_all` every
lookup returns `NULL`. -/
theorem archive_plugin_lookup_initialised
    (string_array_contains : List String → String → Bool)
    (archive_plugins : List archive_plugin) (ops : List archive_operation) :
    let enabled := (archive_run archive_plugins ops
      (archive_plugins_enabled_startup archive_plugins)).1
    (∀ name p, archive_plugin_from_name archive_plugins enabled name = some p →
        ∃ i, archive_plugins[i]? = some p ∧ enabled.getD i false = true ∧
          p.name = name ∧ (p.init = none ∨ p.init = some true) ∧
          p.init ≠ some false ∧ archive_operation.init_all ∈ ops) ∧
      (∀ suffix p, archive_plugin_from_suffix string_array_contains
          archive_plugins enabled suffix = some p →
        ∃ i, archive_plugins[i]? = some p ∧ enabled.getD i false = true ∧
          (∃ s l, suffix = some s ∧ p.suffixes = some l ∧
            string_array_contains l s = true) ∧
          (p.init = none ∨ p.init = some true) ∧
          p.init ≠ some false ∧ archive_operation.init_all ∈ ops) ∧
      (archive_operation.init_all ∉ ops →
        (∀ name, archive_plugin_from_name archive_plugins enabled name
          = none) ∧
        ∀ suffix, archive_plugin_from_suffix string_array_contains
          archive_plugins enabled suffix = none) := by
  obtain ⟨_, h2, h3⟩ := archive_run_startup archive_plugins ops
  have hok : ∀ p : archive_plugin, archive_plugin_init_ok p = true →
      (p.init = none ∨ p.init = some true) ∧ p.init ≠ some false := by
    intro p hp
    have := (archive_plugin_init_ok_iff p).mp hp
    refine ⟨this, fun hf => ?_⟩
    rcases this with h | h <;> simp [h] at hf
  have hname : ∀ name p, archive_plugin_from_name archive_plugins
      (archive_run archive_plugins ops
        (archive_plugins_enabled_startup archive_plugins)).1 name = some p →
      ∃ i, archive_plugins[i]? = some p ∧
        (archive_run archive_plugins ops
          (archive_plugins_enabled_startup archive_plugins)).1.getD i false
          = true ∧
        p.name = name ∧ (p.init = none ∨ p.init = some true) ∧
        p.init ≠ some false ∧ archive_operation.init_all ∈ ops := by
    intro name p h
    obtain ⟨n, l1, l2, l3⟩ := archive_plugin_from_name_loop_some _ name
      archive_plugins 0 p h
    rw [Nat.zero_add] at l2
    obtain ⟨o1, o2⟩ := h2 n p l1 l2
    exact ⟨n, l1, l2, l3, (hok p o1).1, (hok p o1).2, o2⟩
  have hsuffix : ∀ suffix p, archive_plugin_from_suffix string_array_contains
      archive_plugins
      (archive_run archive_plugins ops
        (archive_plugins_enabled_startup archive_plugins)).1 suffix = some p →
      ∃ i, archive_plugins[i]? = some p ∧
        (archive_run archive_plugins ops
          (archive_plugins_enabled_startup archive_plugins)).1.getD i false
          = true ∧
        (∃ s l, suffix = some s ∧ p.suffixes = some l ∧
          string_array_contains l s = true) ∧
        (p.init = none ∨ p.init = some true) ∧
        p.init ≠ some false ∧ archive_operation.init_all ∈ ops := by
    intro suffix p h
    rcases suffix with _ | s
    · simp [archive_plugin_from_suffix] at h
    · obtain ⟨n, l1, l2, l, l3, l4⟩ := archive_plugin_from_suffix_loop_some
        string_array_contains _ s archive_plugins 0 p h
      rw [Nat.zero_add] at l2
      obtain ⟨o1, o2⟩ := h2 n p l1 l2
      exact ⟨n, l1, l2, ⟨s, l, rfl, l3, l4⟩, (hok p o1).1, (hok p o1).2, o2⟩
  refine ⟨hname, hsuffix, fun hn => ⟨fun name => ?_, fun suffix => ?_⟩⟩
  · rcases hr : archive_plugin_from_name archive_plugins
      (archive_run archive_plugins ops
        (archive_plugins_enabled_startup archive_plugins)).1 name with _ | p
    · rfl
    · obtain ⟨_, _, _, _, _, _, hm⟩ := hname name p hr
      exact absurd hm hn
  · rcases hr : archive_plugin_from_suffix string_array_contains
      archive_plugins
      (archive_run archive_plugins ops
        (archive_plugins_enabled_startup archive_plugins)).1 suffix with _ | p
    · rfl
    · obtain ⟨_, _, _, _, _, _, hm⟩ := hsuffix suffix p hr
      exact absurd hm hn

/-- C28: from any state of the registry reached from startup,
`archive_plugin_init_all` leaves plugin `i` enabled if and only if its `init`
callback is `NULL` or its `init()` returned true; it calls `init()` once for
each plugin that has the callback and never otherwise (so at most once per
plugin), calls no `finish()`; and whatever the flags were, one that was true
is still true afterwards and the number of flags is unchanged. -/
theorem archive_plugin_init_all_enabled
    (archive_plugins : List archive_plugin) (ops : List archive_operation) :
    let enabled := (archive_run archive_plugins ops
      (archive_plugins_enabled_startup archive_plugins)).1
    let r := archive_plugin_init_all archive_plugins enabled
    (∀ i p, archive_plugins[i]? = some p →
        (r.1.getD i false = true ↔ p.init = none ∨ p.init = some true)) ∧
      (∀ i, r.2.count (archive_call.init i)
        = if ((archive_plugins[i]?).bind fun p => p.init).isSome = true
          then 1 else 0) ∧
      (∀ i, r.2.count (archive_call.init i) ≤ 1) ∧
      (∀ i, archive_call.finish i ∉ r.2) ∧
      ∀ flags : List Bool, flags.length = archive_plugins.length →
        (archive_plugin_init_all archive_plugins flags).1.length
          = flags.length ∧
        ∀ i, flags.getD i false = true →
          (archive_plugin_init_all archive_plugins flags).1.getD i false
            = true := by
  obtain ⟨h1, h2, _⟩ := archive_run_startup archive_plugins ops
  obtain ⟨_, l2⟩ := archive_plugin_init_all_flags archive_plugins _ h1
  obtain ⟨c1, c2⟩ := archive_plugin_init_all_loop_calls archive_plugins 0
    (archive_run archive_plugins ops
      (archive_plugins_enabled_startup archive_plugins)).1
  have hcount : ∀ i, (archive_plugin_init_all archive_plugins
      (archive_run archive_plugins ops
        (archive_plugins_enabled_startup archive_plugins)).1).2.count
        (archive_call.init i)
      = if ((archive_plugins[i]?).bind fun p => p.init).isSome = true
        then 1 else 0 := by
    intro i
    have := c1 i
    simpa [archive_plugin_init_all] using this
  refine ⟨fun i p hp => ?_, hcount, fun i => ?_, c2, fun flags hf => ?_⟩
  · rw [l2, ← archive_plugin_init_ok_iff]
    simp only [hp, Option.map_some', Option.getD_some, Bool.or_eq_true]
    constructor
    · rintro (h | h)
      · exact (h2 i p hp h).1
      · exact h
    · exact fun h => Or.inr h
  · rw [hcount]
    split_ifs <;> omega
  · obtain ⟨f1, f2⟩ := archive_plugin_init_all_flags archive_plugins flags hf
    refine ⟨f1, fun i hi => ?_⟩
    rw [f2, hi]
    rfl

/-- C29: `archive_plugin_deinit_all` calls `finish()` exactly once for each
plugin whose flag is set and whose `finish` callback is not `NULL`, and for no
other; it calls no `init()` and assigns no flag, so that
`archive_plugin_from_name` and `archive_plugin_from_suffix` return afterwards
what they returned before; and in every state reached from startup it calls
no `finish()` of a plugin whose `init()` returned false. -/
theorem archive_plugin_deinit_all_finish
    (string_array_contains : List String → String → Bool)
    (archive_plugins : List archive_plugin) (flags : List Bool)
    (ops : List archive_operation) :
    let r := archive_plugin_deinit_all archive_plugins flags
    (∀ i, r.2.count (archive_call.finish i)
        = if flags.getD i false = true ∧
            ((archive_plugins[i]?).map fun p => p.finish) = some true
          then 1 else 0) ∧
      (∀ i, archive_call.init i ∉ r.2) ∧
      r.1 = flags ∧
      (∀ name, archive_plugin_from_name archive_plugins r.1 name
        = archive_plugin_from_name archive_plugins flags name) ∧
      (∀ suffix, archive_plugin_from_suffix string_array_contains
          archive_plugins r.1 suffix
        = archive_plugin_from_suffix string_array_contains archive_plugins
          flags suffix) ∧
      ∀ i p, archive_plugins[i]? = some p → p.init = some false →
        archive_call.finish i ∉
          (archive_plugin_deinit_all archive_plugins
            (archive_run archive_plugins ops
              (archive_plugins_enabled_startup archive_plugins)).1).2 := by
  obtain ⟨c1, c2⟩ := archive_plugin_deinit_all_loop_calls flags
    archive_plugins 0
  refine ⟨fun i => ?_, c2, rfl, fun _ => rfl, fun _ => rfl,
    fun i p hp hinit => ?_⟩
  · have := c1 i
    simpa [archive_plugin_deinit_all] using this
  · obtain ⟨_, h2, _⟩ := archive_run_startup archive_plugins ops
    obtain ⟨d1, _⟩ := archive_plugin_deinit_all_loop_calls
      (archive_run archive_plugins ops
        (archive_plugins_enabled_startup archive_plugins)).1 archive_plugins 0
    rw [← List.count_eq_zero]
    have := d1 i
    simp only [archive_plugin_deinit_all]
    rw [this, if_neg]
    rintro ⟨_, hen, _⟩
    have hok := (h2 i p hp hen).1
    simp [archive_plugin_init_ok, hinit] at hok

/-- The registry at a concrete table: before the initialisation no lookup
answers; after it the plugin whose `init()` fails is not found although its
name and suffix match, `init()` has been called for the two plugins that have
the callback, and `finish()` is called for the enabled plugin that has one. -/
theorem archive_run_example :
    archive_plugin_from_name
        [⟨"bz2", some ["bz2"], some true, true⟩,
         ⟨"zzip", some ["zip"], some false, true⟩,
         ⟨"iso", some ["iso", "zip"], none, false⟩]
        (archive_plugins_enabled_startup
          [⟨"bz2", some ["bz2"], some true, true⟩,
           ⟨"zzip", some ["zip"], some false, true⟩,
           ⟨"iso", some ["iso", "zip"], none, false⟩]) "bz2" = none ∧
      archive_run
        [⟨"bz2", some ["bz2"], some true, true⟩,
         ⟨"zzip", some ["zip"], some false, true⟩,
         ⟨"iso", some ["iso", "zip"], none, false⟩]
        [archive_operation.init_all, archive_operation.deinit_all]
        (archive_plugins_enabled_startup
          [⟨"bz2", some ["bz2"], some true, true⟩,
           ⟨"zzip", some ["zip"], some false, true⟩,
           ⟨"iso", some ["iso", "zip"], none, false⟩])
        = ([true, false, true],
            [archive_call.init 0, archive_call.init 1,
              archive_call.finish 0]) ∧
      archive_plugin_from_name
        [⟨"bz2", some ["bz2"], some true, true⟩,
         ⟨"zzip", some ["zip"], some false, true⟩,
         ⟨"iso", some ["iso", "zip"], none, false⟩]
        [true, false, true] "zzip" = none ∧
      archive_plugin_from_name
        [⟨"bz2", some ["bz2"], some true, true⟩,
         ⟨"zzip", some ["zip"], some false, true⟩,
         ⟨"iso", some ["iso", "zip"], none, false⟩]
        [true, false, true] "iso"
        = some ⟨"iso", some ["iso", "zip"], none, false⟩ := by
  decide

/-! ### The names of the sample formats -/

/-- C27: `sample_format_to_string` returns one of the six strings `?`, `8`,
`16`, `24_3`, `24`, `32` for each of the six sample formats (every value is
answered by a `case` of the `switch`), in that order of the formats, the six
strings are pairwise distinct, and so the function is injective: the string
identifies the sample format. -/
theorem sample_format_to_string_injective :
    (∀ f, sample_format_to_string f ∈ ["?", "8", "16", "24_3", "24", "32"]) ∧
      [SAMPLE_FORMAT_UNDEFINED, SAMPLE_FORMAT_S8, SAMPLE_FORMAT_S16,
          SAMPLE_FORMAT_S24, SAMPLE_FORMAT_S24_P32,
          SAMPLE_FORMAT_S32].map sample_format_to_string
        = ["?", "8", "16", "24_3", "24", "32"] ∧
      ["?", "8", "16", "24_3", "24", "32"].Nodup ∧
      Function.Injective sample_format_to_string := by
  refine ⟨fun f => ?_, rfl, by decide, fun a b h => ?_⟩
  · cases f <;> simp [sample_format_to_string]
  · cases a <;> cases b <;> first | rfl | (exact absurd h (by decide))

/-! ### The PulseAudio mixer and output -/

theorem int_wrap_of_range (w : Nat) (x : Int) (hw : 0 < w)
    (h1 : -(2 : Int) ^ (w - 1) ≤ x) (h2 : x < 2 ^ (w - 1)) :
    int_wrap w x = x := by
  unfold int_wrap
  have hpow : (2 : Int) ^ w = 2 * 2 ^ (w - 1) := by
    rw [← pow_succ']
    congr 1
    omega
  rw [Int.emod_eq_of_lt (by omega) (by omega)]
  omega

/-- C25: with `PA_VOLUME_NORM` = 65536, for every volume `v` from 0 to 100,
`pulse_mixer_set_volume` on an online mixer hands
`pa_cvolume_set` the volume `v * 65536 / 100` rounded down for all the
channels of the mixer (adding 0.5 changes nothing), and when the average of a
volume set to one value on every channel is that value,
`pulse_mixer_get_volume` on the mixer it leaves returns `v`: the formula
`100 * (avg + 1) / 65536` undoes the scaling. -/
theorem pulse_mixer_volume_round_trip (api : pulse_mixer_api) (pm : pulse_mixer)
    (v : Nat)
    (hnorm : api.PA_VOLUME_NORM = 65536) (hv : v ≤ 100)
    (honline : pm.online = true)
    (hinfo : api.pa_context_get_sink_input_info pm.index = true)
    (havg : ∀ x, api.pa_cvolume_avg
      (api.pa_cvolume_set pm.volume pm.volume.channels x) = x) :
    pulse_mixer_set_volume_value api v = v * 65536 / 100 ∧
      (pulse_mixer_set_volume api pm v).2.volume
        = api.pa_cvolume_set pm.volume pm.volume.channels (v * 65536 / 100) ∧
      (100 * (v * 65536 / 100 + 1)) / 65536 = v ∧
      pulse_mixer_get_volume api (pulse_mixer_set_volume api pm v).2
        = (v : Int) := by
  have h1 : pulse_mixer_set_volume_value api v = v * 65536 / 100 := by
    unfold pulse_mixer_set_volume_value
    rw [hnorm]
    omega
  have h2 : (pulse_mixer_set_volume api pm v).2.volume
      = api.pa_cvolume_set pm.volume pm.volume.channels (v * 65536 / 100) := by
    unfold pulse_mixer_set_volume
    rw [h1]
    simp only [honline, if_true]
    split_ifs <;> rfl
  have h3 : (pulse_mixer_set_volume api pm v).2.online = true := by
    unfold pulse_mixer_set_volume
    simp only [honline, if_true]
    split_ifs <;> rfl
  have h4 : (pulse_mixer_set_volume api pm v).2.index = pm.index := by
    unfold pulse_mixer_set_volume
    simp only [honline, if_true]
    split_ifs <;> rfl
  have h5 : (100 * (v * 65536 / 100 + 1)) / 65536 = v := by omega
  refine ⟨h1, h2, h5, ?_⟩
  unfold pulse_mixer_get_volume
  rw [h3, h4, hinfo, h2, havg, hnorm]
  simp only [if_true, Bool.true_eq_false, if_false]
  have h6 : (100 * ((v * 65536 / 100 + 1) % 2 ^ 32)) % 2 ^ 32 / 65536 = v := by
    rw [Nat.mod_eq_of_lt (by omega : v * 65536 / 100 + 1 < 2 ^ 32),
      Nat.mod_eq_of_lt (by omega : 100 * (v * 65536 / 100 + 1) < 2 ^ 32)]
    exact h5
  rw [h6]
  exact int_wrap_of_range 32 v (by norm_num) (by norm_num; omega)
    (by norm_num; omega)

/-- C25 at a concrete mixer with two channels, for the volume 33: the stored
value is 21626 on both channels and the volume read back is 33. -/
theorem pulse_mixer_volume_round_trip_witness :
    pulse_mixer_set_volume_value
        { pa_context_get_sink_input_info := fun _ => true,
          pa_context_set_sink_input_volume := fun _ _ => true,
          pa_cvolume_avg := fun cv => cv.values.sum / cv.channels,
          pa_cvolume_set := fun _ n x => ⟨n, List.replicate n x⟩,
          PA_VOLUME_NORM := 65536 } 33 = 33 * 65536 / 100 ∧
      (pulse_mixer_set_volume
        { pa_context_get_sink_input_info := fun _ => true,
          pa_context_set_sink_input_volume := fun _ _ => true,
          pa_cvolume_avg := fun cv => cv.values.sum / cv.channels,
          pa_cvolume_set := fun _ n x => ⟨n, List.replicate n x⟩,
          PA_VOLUME_NORM := 65536 } ⟨7, true, ⟨2, [0, 0]⟩⟩ 33).2.volume
        = ⟨2, List.replicate 2 (33 * 65536 / 100)⟩ ∧
      (100 * (33 * 65536 / 100 + 1)) / 65536 = 33 ∧
      pulse_mixer_get_volume
        { pa_context_get_sink_input_info := fun _ => true,
          pa_context_set_sink_input_volume := fun _ _ => true,
          pa_cvolume_avg := fun cv => cv.values.sum / cv.channels,
          pa_cvolume_set := fun _ n x => ⟨n, List.replicate n x⟩,
          PA_VOLUME_NORM := 65536 }
        (pulse_mixer_set_volume
          { pa_context_get_sink_input_info := fun _ => true,
            pa_context_set_sink_input_volume := fun _ _ => true,
            pa_cvolume_avg := fun cv => cv.values.sum / cv.channels,
            pa_cvolume_set := fun _ n x => ⟨n, List.replicate n x⟩,
            PA_VOLUME_NORM := 65536 } ⟨7, true, ⟨2, [0, 0]⟩⟩ 33).2
        = ((33 : Nat) : Int) :=
  pulse_mixer_volume_round_trip
    { pa_context_get_sink_input_info := fun _ => true,
      pa_context_set_sink_input_volume := fun _ _ => true,
      pa_cvolume_avg := fun cv => cv.values.sum / cv.channels,
      pa_cvolume_set := fun _ n x => ⟨n, List.replicate n x⟩,
      PA_VOLUME_NORM := 65536 } ⟨7, true, ⟨2, [0, 0]⟩⟩ 33 rfl (by decide) rfl
    rfl (fun x => by
      show (List.replicate 2 x).sum / 2 = x
      simp only [List.sum_replicate, smul_eq_mul]
      omega)

/-- C24: with the attempt counter below `INT_MAX` and the difference of the
two times within 64 bits, `pulse_open` called when the counter is not 0 and
fewer than 60 seconds have passed since the last attempt returns false, calls
no `pa_simple_new` and leaves the counter, the time of the last attempt and
the audio format of the caller as they were.  Otherwise it calls
`pa_simple_new` once, records the time, asks for 16 bit samples, and leaves
the counter one higher when the connection fails (returning false) and at 0
when it succeeds (returning true).  After a call that returned true the next
call is not throttled, whatever the time: it calls `pa_simple_new`. -/
theorem pulse_open_throttle (api : pulse_api) (t : Int) (pd : pulse_data)
    (audio_format : pulse_audio_format)
    (hnum : -(2 : Int) ^ 31 ≤ pd.num_connect_attempts ∧
      pd.num_connect_attempts < 2 ^ 31 - 1)
    (htime : -(2 : Int) ^ 63 ≤ t - pd.last_connect_attempt ∧
      t - pd.last_connect_attempt < 2 ^ 63) :
    let r := pulse_open api t pd audio_format
    let ss : pa_sample_spec :=
      ⟨api.PA_SAMPLE_S16NE, audio_format.sample_rate % 2 ^ 32,
        audio_format.channels % 2 ^ 8⟩
    (pd.num_connect_attempts ≠ 0 ∧ t - pd.last_connect_attempt < 60 →
        r.ret = false ∧ r.connects = [] ∧ r.pd = pd ∧
          r.audio_format = audio_format) ∧
      (¬ (pd.num_connect_attempts ≠ 0 ∧ t - pd.last_connect_attempt < 60) →
        r.connects = [ss] ∧ r.pd.last_connect_attempt = t ∧
          r.pd.s = api.pa_simple_new ss ∧
          r.audio_format.bits = 16 ∧
          r.audio_format.sample_rate = audio_format.sample_rate ∧
          r.audio_format.channels = audio_format.channels ∧
          (api.pa_simple_new ss = none →
            r.ret = false ∧
              r.pd.num_connect_attempts = pd.num_connect_attempts + 1) ∧
          (api.pa_simple_new ss ≠ none →
            r.ret = true ∧ r.pd.num_connect_attempts = 0)) ∧
      (r.ret = true →
        r.pd.num_connect_attempts = 0 ∧
          ∀ (api2 : pulse_api) (t2 : Int) (af2 : pulse_audio_format),
            (pulse_open api2 t2 r.pd af2).connects
              = [⟨api2.PA_SAMPLE_S16NE, af2.sample_rate % 2 ^ 32,
                  af2.channels % 2 ^ 8⟩]) := by
  have hw1 : int_wrap 64 (t - pd.last_connect_attempt)
      = t - pd.last_connect_attempt :=
    int_wrap_of_range 64 _ (by norm_num) htime.1 htime.2
  have hw2 : int_wrap 32 (pd.num_connect_attempts + 1)
      = pd.num_connect_attempts + 1 :=
    int_wrap_of_range 32 _ (by norm_num) (by norm_num; omega)
      (by norm_num; omega)
  have hfresh : ∀ (p : pulse_data), p.num_connect_attempts = 0 →
      ∀ (api2 : pulse_api) (t2 : Int) (af2 : pulse_audio_format),
        (pulse_open api2 t2 p af2).connects
          = [⟨api2.PA_SAMPLE_S16NE, af2.sample_rate % 2 ^ 32,
              af2.channels % 2 ^ 8⟩] := by
    intro p hp api2 t2 af2
    unfold pulse_open
    rw [if_neg (by simp [hp])]
    simp only []
    split <;> rfl
  by_cases hc : pd.num_connect_attempts ≠ 0 ∧ t - pd.last_connect_attempt < 60
  · have hr : pulse_open api t pd audio_format
        = { ret := false, pd := pd, audio_format := audio_format,
            connects := [] } := by
      unfold pulse_open
      rw [hw1, if_pos (by simpa [CONN_ATTEMPT_INTERVAL] using hc)]
    rw [hr]
    exact ⟨fun _ => ⟨rfl, rfl, rfl, rfl⟩, fun h => absurd hc h,
      fun h => by cases h⟩
  · rcases hnew : api.pa_simple_new ⟨api.PA_SAMPLE_S16NE,
      audio_format.sample_rate % 2 ^ 32, audio_format.channels % 2 ^ 8⟩
      with _ | c
    · have hr : pulse_open api t pd audio_format
          = { ret := false,
              pd := { s := none,
                      num_connect_attempts := pd.num_connect_attempts + 1,
                      last_connect_attempt := t },
              audio_format := { audio_format with bits := 16 },
              connects := [⟨api.PA_SAMPLE_S16NE,
                audio_format.sample_rate % 2 ^ 32,
                audio_format.channels % 2 ^ 8⟩] } := by
        unfold pulse_open
        rw [hw1, hw2, if_neg (by simpa [CONN_ATTEMPT_INTERVAL] using hc)]
        simp only [hnew]
      rw [hr]
      exact ⟨fun h => absurd h hc,
        fun _ => ⟨rfl, rfl, hnew.symm, rfl, rfl, rfl, fun _ => ⟨rfl, rfl⟩,
          fun h => absurd hnew h⟩,
        fun h => by cases h⟩
    · have hr : pulse_open api t pd audio_format
          = { ret := true,
              pd := { s := some c, num_connect_attempts := 0,
                      last_connect_attempt := t },
              audio_format := { audio_format with bits := 16 },
              connects := [⟨api.PA_SAMPLE_S16NE,
                audio_format.sample_rate % 2 ^ 32,
                audio_format.channels % 2 ^ 8⟩] } := by
        unfold pulse_open
        rw [hw1, hw2, if_neg (by simpa [CONN_ATTEMPT_INTERVAL] using hc)]
        simp only [hnew]
      rw [hr]
      exact ⟨fun h => absurd h hc,
        fun _ => ⟨rfl, rfl, hnew.symm, rfl, rfl, rfl,
          fun h => absurd (hnew.symm.trans h) (by simp),
          fun _ => ⟨rfl, rfl⟩⟩,
        fun _ => ⟨rfl, hfresh _ rfl⟩⟩

/-- C24 at a concrete state: three failed attempts, the last one 30 seconds
ago, and a server that would accept the connection. -/
theorem pulse_open_throttle_witness :
    let pd : pulse_data := ⟨none, 3, 1000⟩
    let api : pulse_api := ⟨fun _ => some 1, 3⟩
    let r := pulse_open api 1030 pd ⟨44100, 24, 2⟩
    let ss : pa_sample_spec :=
      ⟨api.PA_SAMPLE_S16NE, (⟨44100, 24, 2⟩ : pulse_audio_format).sample_rate
        % 2 ^ 32, (⟨44100, 24, 2⟩ : pulse_audio_format).channels % 2 ^ 8⟩
    (pd.num_connect_attempts ≠ 0 ∧ 1030 - pd.last_connect_attempt < 60 →
        r.ret = false ∧ r.connects = [] ∧ r.pd = pd ∧
          r.audio_format = ⟨44100, 24, 2⟩) ∧
      (¬ (pd.num_connect_attempts ≠ 0 ∧ 1030 - pd.last_connect_attempt < 60) →
        r.connects = [ss] ∧ r.pd.last_connect_attempt = 1030 ∧
          r.pd.s = api.pa_simple_new ss ∧
          r.audio_format.bits = 16 ∧
          r.audio_format.sample_rate
            = (⟨44100, 24, 2⟩ : pulse_audio_format).sample_rate ∧
          r.audio_format.channels
            = (⟨44100, 24, 2⟩ : pulse_audio_format).channels ∧
          (api.pa_simple_new ss = none →
            r.ret = false ∧
              r.pd.num_connect_attempts = pd.num_connect_attempts + 1) ∧
          (api.pa_simple_new ss ≠ none →
            r.ret = true ∧ r.pd.num_connect_attempts = 0)) ∧
      (r.ret = true →
        r.pd.num_connect_attempts = 0 ∧
          ∀ (api2 : pulse_api) (t2 : Int) (af2 : pulse_audio_format),
            (pulse_open api2 t2 r.pd af2).connects
              = [⟨api2.PA_SAMPLE_S16NE, af2.sample_rate % 2 ^ 32,
                  af2.channels % 2 ^ 8⟩]) :=
  pulse_open_throttle ⟨fun _ => some 1, 3⟩ 1030 ⟨none, 3, 1000⟩ ⟨44100, 24, 2⟩
    (by decide) (by decide)

/-- The throttle at concrete times: 30 seconds after a failed attempt the
call is refused without a connection attempt, 60 seconds after it the
connection is attempted, and after a success the counter is 0. -/
theorem pulse_open_example :
    pulse_open ⟨fun _ => some 1, 3⟩ 1030 ⟨none, 3, 1000⟩ ⟨44100, 24, 2⟩
        = ⟨false, ⟨none, 3, 1000⟩, ⟨44100, 24, 2⟩, []⟩ ∧
      pulse_open ⟨fun _ => some 1, 3⟩ 1060 ⟨none, 3, 1000⟩ ⟨44100, 24, 2⟩
        = ⟨true, ⟨some 1, 0, 1060⟩, ⟨44100, 16, 2⟩, [⟨3, 44100, 2⟩]⟩ ∧
      pulse_open ⟨fun _ => none, 3⟩ 1060 ⟨none, 3, 1000⟩ ⟨44100, 24, 2⟩
        = ⟨false, ⟨none, 4, 1060⟩, ⟨44100, 16, 2⟩, [⟨3, 44100, 2⟩]⟩ := by
  decide

/-! ### The ring of the WinMM output -/

theorem winmm_drain_loop_spec (d : winmm_driver W) (fuel : Nat) :
    ∀ (count i : Nat) (w : W) (wo : winmm_output)
      (r : winmm_drain_all_result W),
      winmm_drain_loop d fuel count i w wo = some r →
      r.wo.next_buffer = wo.next_buffer ∧
        r.wo.buffers.length = wo.buffers.length ∧
        ((r.ret = true ∧
            r.drained = (List.range' i count).map fun j => (j, true)) ∨
          (r.ret = false ∧ ∃ k, k < count ∧
            r.drained = ((List.range' i k).map fun j => (j, true)) ++
              [(i + k, false)])) := by
  intro count
  induction count with
  | zero =>
    intro i w wo r h
    simp only [winmm_drain_loop, Option.some.injEq] at h
    subst h
    exact ⟨rfl, rfl, Or.inl ⟨rfl, rfl⟩⟩
  | succ count ih =>
    intro i w wo r h
    unfold winmm_drain_loop at h
    rcases hb : wo.buffers[i]? with _ | buffer
    · simp [hb] at h
    · simp only [hb] at h
      rcases hd : winmm_drain_buffer d fuel w wo buffer with _ | dr
      · simp [hd] at h
      · simp only [hd] at h
        by_cases hret : dr.ret = false
        · simp only [hret, if_true, Option.some.injEq] at h
          subst h
          refine ⟨rfl, by simp, Or.inr ⟨rfl, 0, by omega, ?_⟩⟩
          simp
        · rw [if_neg hret] at h
          rcases hl : winmm_drain_loop d fuel count (i + 1) dr.driver
            { wo with buffers := wo.buffers.set i dr.buffer } with _ | rest
          · simp [hl] at h
          · simp only [hl, Option.some.injEq] at h
            subst h
            obtain ⟨h1, h2, h3⟩ := ih (i + 1) _ _ rest hl
            refine ⟨h1, by simpa using h2, ?_⟩
            rcases h3 with ⟨h4, h5⟩ | ⟨h4, k, h5, h6⟩
            · left
              refine ⟨h4, ?_⟩
              simp only [h5, List.range'_succ, List.map_cons]
            · right
              refine ⟨h4, k + 1, by omega, ?_⟩
              have e : i + 1 + k = i + (k + 1) := by omega
              simp only [h6, List.range'_succ, List.map_cons,
                List.cons_append, e]

theorem winmm_ring_order_eq (next_buffer : Nat) (h : next_buffer < 8) :
    winmm_ring_order next_buffer
      = List.range' next_buffer (8 - next_buffer) ++
          List.range' 0 next_buffer := by
  interval_cases next_buffer <;> decide

theorem winmm_ring_order_take_first (next_buffer k : Nat)
    (h : next_buffer < 8) (hk : k < 8 - next_buffer) :
    (winmm_ring_order next_buffer).take k = List.range' next_buffer k ∧
      (winmm_ring_order next_buffer).getD k 0 = next_buffer + k := by
  have hk8 : k < 8 := by omega
  interval_cases next_buffer <;> interval_cases k <;> first | omega | decide

theorem winmm_ring_order_take_second (next_buffer k : Nat)
    (h : next_buffer < 8) (hk : k < next_buffer) :
    (winmm_ring_order next_buffer).take (8 - next_buffer + k)
        = List.range' next_buffer (8 - next_buffer) ++ List.range' 0 k ∧
      (winmm_ring_order next_buffer).getD (8 - next_buffer + k) 0 = k := by
  have hk8 : k < 8 := by omega
  interval_cases next_buffer <;> interval_cases k <;> first | omega | decide

theorem winmm_drain_all_buffers_spec (d : winmm_driver W) (fuel : Nat) (w : W)
    (wo : winmm_output) (hnext : wo.next_buffer < 8)
    (r : winmm_drain_all_result W)
    (h : winmm_drain_all_buffers d fuel w wo = some r) :
    r.wo.next_buffer = wo.next_buffer ∧
      r.wo.buffers.length = wo.buffers.length ∧
      ((r.ret = true ∧
          r.drained = (winmm_ring_order wo.next_buffer).map
            fun j => (j, true)) ∨
        (r.ret = false ∧ ∃ k, k < 8 ∧
          r.drained = (((winmm_ring_order wo.next_buffer).take k).map
              fun j => (j, true)) ++
            [((winmm_ring_order wo.next_buffer).getD k 0, false)])) := by
  unfold winmm_drain_all_buffers at h
  rcases h1 : winmm_drain_loop d fuel (8 - wo.next_buffer) wo.next_buffer w wo
    with _ | first
  · simp [h1] at h
  · simp only [h1] at h
    obtain ⟨f1, f2, f3⟩ := winmm_drain_loop_spec d fuel _ _ _ _ first h1
    by_cases hret : first.ret = false
    · rw [if_pos hret] at h
      cases h
      refine ⟨f1, f2, Or.inr ⟨hret, ?_⟩⟩
      rcases f3 with ⟨f4, _⟩ | ⟨_, k, hk, f5⟩
      · rw [f4] at hret
        cases hret
      · obtain ⟨t1, t2⟩ := winmm_ring_order_take_first wo.next_buffer k
          hnext hk
        exact ⟨k, by omega, by rw [t1, t2, f5]⟩
    · rw [if_neg hret] at h
      rcases f3 with ⟨_, f5⟩ | ⟨f4, _⟩
      · rcases h2 : winmm_drain_loop d fuel wo.next_buffer 0 first.driver
          first.wo with _ | second
        · simp [h2] at h
        · simp only [h2, Option.some.injEq] at h
          subst h
          obtain ⟨s1, s2, s3⟩ := winmm_drain_loop_spec d fuel _ _ _ _ second h2
          refine ⟨s1.trans f1, s2.trans f2, ?_⟩
          rcases s3 with ⟨s4, s5⟩ | ⟨s4, k, hk, s5⟩
          · left
            refine ⟨s4, ?_⟩
            simp only [f5, s5, winmm_ring_order_eq wo.next_buffer hnext,
              List.map_append]
          · right
            obtain ⟨t1, t2⟩ := winmm_ring_order_take_second wo.next_buffer k
              hnext hk
            refine ⟨s4, 8 - wo.next_buffer + k, by omega, ?_⟩
            simp only [f5, s5, t1, t2, List.map_append, List.append_assoc,
              Nat.zero_add]
      · exact absurd f4 hret

/-- Draining the ring on the example driver: from `next_buffer` = 5 with all
headers unpreparable the buffers 5, 6, 7, 0, 1, 2, 3, 4 are drained and the
call returns true; when the header of buffer 2 cannot be unprepared the call
drains 5, 6, 7, 0, 1, 2 and returns false; with too little fuel for the
driver to finish, the model has no result. -/
theorem winmm_drain_all_buffers_example :
    (winmm_drain_all_buffers example_winmm_driver 3 1
        (example_winmm_output [0, 0, 0, 0, 0, 0, 0, 0] 5)).map
        (fun r => (r.ret, r.drained, r.wo.next_buffer))
      = some (true, [(5, true), (6, true), (7, true), (0, true), (1, true),
          (2, true), (3, true), (4, true)], 5) ∧
      (winmm_drain_all_buffers example_winmm_driver 3 1
        (example_winmm_output [0, 0, 64, 0, 0, 0, 0, 0] 5)).map
        (fun r => (r.ret, r.drained, r.error))
      = some (false, [(5, true), (6, true), (7, true), (0, true), (1, true),
          (2, false)], some "waveOutUnprepareHeader() failed") ∧
      (winmm_drain_all_buffers example_winmm_driver 3 1
        (example_winmm_output [0, 0, 1, 0, 0, 0, 0, 0] 2)).map
        (fun r => (r.ret, r.drained))
      = some (true, [(2, true), (3, true), (4, true), (5, true), (6, true),
          (7, true), (0, true), (1, true)]) ∧
      (winmm_drain_all_buffers example_winmm_driver 1 5
        (example_winmm_output [0, 0, 0, 0, 0, 0, 0, 0] 5)).isNone = true := by
  decide

theorem winmm_output_play_spec (d : winmm_driver W) (fuel : Nat) (w : W)
    (wo : winmm_output) (chunk : List Nat) (size : Nat)
    (buffer : winmm_buffer) (drained : winmm_buffer_result W)
    (hb : wo.buffers[wo.next_buffer]? = some buffer)
    (hd : winmm_drain_buffer d fuel w wo buffer = some drained) :
    ∃ r, winmm_output_play d fuel w wo chunk size = some r ∧
      r.wo.buffers.length = wo.buffers.length ∧
      ((drained.ret = true ∧
          (winmm_set_buffer d drained.driver wo drained.buffer chunk
            size).ret = true ∧
          (d.waveOutWrite
            (winmm_set_buffer d drained.driver wo drained.buffer chunk
              size).driver wo.handle
            (winmm_set_buffer d drained.driver wo drained.buffer chunk
              size).buffer.hdr).1 = d.MMSYSERR_NOERROR) →
        r.ret = size ∧ r.error = none ∧
          r.wo.next_buffer = (wo.next_buffer + 1) % 2 ^ 32 % 8) ∧
      (¬ (drained.ret = true ∧
          (winmm_set_buffer d drained.driver wo drained.buffer chunk
            size).ret = true ∧
          (d.waveOutWrite
            (winmm_set_buffer d drained.driver wo drained.buffer chunk
              size).driver wo.handle
            (winmm_set_buffer d drained.driver wo drained.buffer chunk
              size).buffer.hdr).1 = d.MMSYSERR_NOERROR) →
        r.ret = 0 ∧ r.wo.next_buffer = wo.next_buffer) := by
  unfold winmm_output_play
  simp only [hb, hd]
  by_cases h1 : drained.ret = false
  · rw [if_pos h1]
    refine ⟨_, rfl, by simp, fun h => ?_, fun _ => ⟨rfl, rfl⟩⟩
    rw [h1] at h
    exact absurd h.1 (by simp)
  · rw [if_neg h1]
    have h1t : drained.ret = true := by simpa using h1
    by_cases h2 : (winmm_set_buffer d drained.driver wo drained.buffer chunk
        size).ret = false
    · rw [if_pos h2]
      refine ⟨_, rfl, by simp, fun h => ?_, fun _ => ⟨rfl, rfl⟩⟩
      rw [h2] at h
      exact absurd h.2.1 (by simp)
    · rw [if_neg h2]
      have h2t : (winmm_set_buffer d drained.driver wo drained.buffer chunk
          size).ret = true := by simpa using h2
      by_cases h3 : (d.waveOutWrite
          (winmm_set_buffer d drained.driver wo drained.buffer chunk
            size).driver wo.handle
          (winmm_set_buffer d drained.driver wo drained.buffer chunk
            size).buffer.hdr).1 ≠ d.MMSYSERR_NOERROR
      · rw [if_pos h3]
        exact ⟨_, rfl, by simp, fun h => absurd h.2.2 h3,
          fun _ => ⟨rfl, rfl⟩⟩
      · rw [if_neg h3]
        exact ⟨_, rfl, by simp, fun _ => ⟨rfl, rfl, rfl⟩,
          fun h => absurd ⟨h1t, h2t, not_not.mp h3⟩ h⟩

theorem winmm_output_open_ring (api : winmm_api) (wo : winmm_output)
    (audio_format : audio_format)
    (h : (winmm_output_open api wo audio_format).ret = true) :
    (winmm_output_open api wo audio_format).wo.next_buffer = 0 ∧
      (winmm_output_open api wo audio_format).wo.buffers.length = 8 := by
  unfold winmm_output_open at h ⊢
  rcases hev : api.CreateEvent with _ | e
  · simp [hev] at h
  · simp only [hev] at h ⊢
    rcases audio_format with ⟨rate, fmt, ch, rev⟩
    cases fmt <;> simp only [] at h ⊢ <;> split_ifs at h ⊢ <;> simp_all

/-- C22: `winmm_output_open`, when it succeeds, leaves `next_buffer` at 0 and
a ring of 8 buffers.  For every state with `next_buffer` below 8 and a ring
of 8 buffers, a call of `winmm_output_play` whose drain comes to an end
returns; when draining, filling (`winmm_set_buffer`) and `waveOutWrite` all
succeed it returns `size` and leaves `next_buffer` at
`(next_buffer + 1) mod 8`, and when one of them fails it returns 0 and leaves
`next_buffer` as it was; either way `next_buffer` is below 8 afterwards and
the ring still has 8 buffers.  `winmm_drain_all_buffers` does not change
`next_buffer` nor the size of the ring. -/
theorem winmm_output_play_ring (d : winmm_driver W) (fuel : Nat) (w : W)
    (wo : winmm_output) (chunk : List Nat) (size : Nat)
    (hnext : wo.next_buffer < 8) (hlen : wo.buffers.length = 8) :
    (∀ api wo0 audio_format, (winmm_output_open api wo0 audio_format).ret = true →
        (winmm_output_open api wo0 audio_format).wo.next_buffer = 0 ∧
          (winmm_output_open api wo0 audio_format).wo.buffers.length = 8) ∧
      (∃ buffer, wo.buffers[wo.next_buffer]? = some buffer ∧
        ∀ drained, winmm_drain_buffer d fuel w wo buffer = some drained →
          ∃ r, winmm_output_play d fuel w wo chunk size = some r ∧
            ((drained.ret = true ∧
                (winmm_set_buffer d drained.driver wo drained.buffer chunk
                  size).ret = true ∧
                (d.waveOutWrite
                  (winmm_set_buffer d drained.driver wo drained.buffer chunk
                    size).driver wo.handle
                  (winmm_set_buffer d drained.driver wo drained.buffer chunk
                    size).buffer.hdr).1 = d.MMSYSERR_NOERROR) →
              r.ret = size ∧ r.error = none ∧
                r.wo.next_buffer = (wo.next_buffer + 1) % 8) ∧
            (¬ (drained.ret = true ∧
                (winmm_set_buffer d drained.driver wo drained.buffer chunk
                  size).ret = true ∧
                (d.waveOutWrite
                  (winmm_set_buffer d drained.driver wo drained.buffer chunk
                    size).driver wo.handle
                  (winmm_set_buffer d drained.driver wo drained.buffer chunk
                    size).buffer.hdr).1 = d.MMSYSERR_NOERROR) →
              r.ret = 0 ∧ r.wo.next_buffer = wo.next_buffer)) ∧
      (∀ r, winmm_output_play d fuel w wo chunk size = some r →
        r.wo.next_buffer < 8 ∧ r.wo.buffers.length = 8 ∧
          ((r.ret = size ∧ r.wo.next_buffer = (wo.next_buffer + 1) % 8) ∨
            (r.ret = 0 ∧ r.wo.next_buffer = wo.next_buffer))) ∧
      (∀ r, winmm_drain_all_buffers d fuel w wo = some r →
        r.wo.next_buffer = wo.next_buffer ∧ r.wo.next_buffer < 8 ∧
          r.wo.buffers.length = 8) := by
  have hmod : (wo.next_buffer + 1) % 2 ^ 32 % 8 = (wo.next_buffer + 1) % 8 := by
    rw [Nat.mod_eq_of_lt (by omega : wo.next_buffer + 1 < 2 ^ 32)]
  have hget : wo.buffers[wo.next_buffer]?
      = some (wo.buffers.get ⟨wo.next_buffer, by omega⟩) := by
    rw [List.getElem?_eq_getElem (by omega)]
    rfl
  refine ⟨fun api wo0 af hopen => ?_, ⟨_, hget, fun drained hd => ?_⟩,
    fun r hr => ?_, fun r hr => ?_⟩
  · exact winmm_output_open_ring api wo0 af hopen
  · obtain ⟨r, p1, _, p3, p4⟩ := winmm_output_play_spec d fuel w wo chunk size
      _ drained hget hd
    rw [hmod] at p3
    exact ⟨r, p1, p3, p4⟩
  · rcases hd : winmm_drain_buffer d fuel w wo
      (wo.buffers.get ⟨wo.next_buffer, by omega⟩) with _ | drained
    · unfold winmm_output_play at hr
      rw [hget] at hr
      simp only [] at hr
      rw [hd] at hr
      exact absurd hr (by simp)
    · obtain ⟨r2, p1, p2, p3, p4⟩ := winmm_output_play_spec d fuel w wo chunk
        size _ drained hget hd
      rw [hr] at p1
      cases p1
      rw [hmod] at p3
      by_cases hc : drained.ret = true ∧
          (winmm_set_buffer d drained.driver wo drained.buffer chunk
            size).ret = true ∧
          (d.waveOutWrite
            (winmm_set_buffer d drained.driver wo drained.buffer chunk
              size).driver wo.handle
            (winmm_set_buffer d drained.driver wo drained.buffer chunk
              size).buffer.hdr).1 = d.MMSYSERR_NOERROR
      · obtain ⟨q1, _, q3⟩ := p3 hc
        exact ⟨by rw [q3]; exact Nat.mod_lt _ (by norm_num),
          p2.trans hlen, Or.inl ⟨q1, q3⟩⟩
      · obtain ⟨q1, q2⟩ := p4 hc
        exact ⟨by rw [q2]; exact hnext, p2.trans hlen, Or.inr ⟨q1, q2⟩⟩
  · obtain ⟨s1, s2, _⟩ := winmm_drain_all_buffers_spec d fuel w wo hnext r hr
    exact ⟨s1, by rw [s1]; exact hnext, s2.trans hlen⟩

/-- C22 at a concrete state on the example driver: `next_buffer` = 7, a chunk
of 4 bytes. -/
theorem winmm_output_play_ring_witness :
    let d := example_winmm_driver
    let wo := example_winmm_output [0, 0, 0, 0, 0, 0, 0, 0] 7
    let chunk := [1, 2, 3, 4]
    (∀ api wo0 audio_format, (winmm_output_open api wo0 audio_format).ret = true →
        (winmm_output_open api wo0 audio_format).wo.next_buffer = 0 ∧
          (winmm_output_open api wo0 audio_format).wo.buffers.length = 8) ∧
      (∃ buffer, wo.buffers[wo.next_buffer]? = some buffer ∧
        ∀ drained, winmm_drain_buffer d 3 1 wo buffer = some drained →
          ∃ r, winmm_output_play d 3 1 wo chunk 4 = some r ∧
            ((drained.ret = true ∧
                (winmm_set_buffer d drained.driver wo drained.buffer chunk
                  4).ret = true ∧
                (d.waveOutWrite
                  (winmm_set_buffer d drained.driver wo drained.buffer chunk
                    4).driver wo.handle
                  (winmm_set_buffer d drained.driver wo drained.buffer chunk
                    4).buffer.hdr).1 = d.MMSYSERR_NOERROR) →
              r.ret = 4 ∧ r.error = none ∧
                r.wo.next_buffer = (wo.next_buffer + 1) % 8) ∧
            (¬ (drained.ret = true ∧
                (winmm_set_buffer d drained.driver wo drained.buffer chunk
                  4).ret = true ∧
                (d.waveOutWrite
                  (winmm_set_buffer d drained.driver wo drained.buffer chunk
                    4).driver wo.handle
                  (winmm_set_buffer d drained.driver wo drained.buffer chunk
                    4).buffer.hdr).1 = d.MMSYSERR_NOERROR) →
              r.ret = 0 ∧ r.wo.next_buffer = wo.next_buffer)) ∧
      (∀ r, winmm_output_play d 3 1 wo chunk 4 = some r →
        r.wo.next_buffer < 8 ∧ r.wo.buffers.length = 8 ∧
          ((r.ret = 4 ∧ r.wo.next_buffer = (wo.next_buffer + 1) % 8) ∨
            (r.ret = 0 ∧ r.wo.next_buffer = wo.next_buffer))) ∧
      (∀ r, winmm_drain_all_buffers d 3 1 wo = some r →
        r.wo.next_buffer = wo.next_buffer ∧ r.wo.next_buffer < 8 ∧
          r.wo.buffers.length = 8) :=
  winmm_output_play_ring example_winmm_driver 3 1
    (example_winmm_output [0, 0, 0, 0, 0, 0, 0, 0] 7) [1, 2, 3, 4] 4
    (by decide) (by decide)

/-- Playing on the example driver: from `next_buffer` = 7 a chunk of 4 bytes
is enqueued, 4 is returned and `next_buffer` is 0; an empty chunk, which
`waveOutWrite` refuses, returns 0 and leaves `next_buffer` at 7, as does a
buffer whose header cannot be unprepared. -/
theorem winmm_output_play_example :
    (winmm_output_play example_winmm_driver 3 1
        (example_winmm_output [0, 0, 0, 0, 0, 0, 0, 0] 7) [1, 2, 3, 4] 4).map
        (fun r => (r.ret, r.wo.next_buffer, r.error,
          r.wo.buffers.map fun b => b.hdr.lpData))
      = some (4, 0, none, [[], [], [], [], [], [], [], [1, 2, 3, 4]]) ∧
      (winmm_output_play example_winmm_driver 3 1
        (example_winmm_output [0, 0, 0, 0, 0, 0, 0, 0] 7) [] 0).map
        (fun r => (r.ret, r.wo.next_buffer, r.error))
      = some (0, 7, some "waveOutWrite() failed") ∧
      (winmm_output_play example_winmm_driver 3 1
        (example_winmm_output [0, 0, 0, 0, 0, 0, 0, 64] 7) [1, 2, 3, 4] 4).map
        (fun r => (r.ret, r.wo.next_buffer, r.error))
      = some (0, 7, some "waveOutUnprepareHeader() failed") := by
  decide

/-! ### The tags sent to the RoarAudio server -/

theorem take_set_succ {α : Type} (l : List α) (n : Nat) (a : α)
    (h : n < l.length) : (l.set n a).take (n + 1) = l.take n ++ [a] := by
  induction l generalizing n with
  | nil => simp at h
  | cons x l ih =>
    cases n with
    | zero => simp
    | succ n =>
      simp only [List.set_cons_succ, List.take_succ_cons, List.cons_append]
      rw [ih n (by simpa using h)]

theorem roar_send_tag_loop_spec (composer : Bool) :
    ∀ (items : List tag_item) (cnt : Nat) (vals : List roar_keyval)
      (uuid_buf : List (List Nat)),
      vals.length = 32 → uuid_buf.length = 32 → cnt ≤ 32 →
      ∃ r, roar_send_tag_loop composer items cnt vals uuid_buf = some r ∧
        r.2.1.length = 32 ∧ r.2.2.length = 32 ∧ r.1 ≤ 32 ∧
        r.1 = cnt + min (32 - cnt)
          (items.filterMap (roar_tag_entry composer)).length ∧
        r.2.1.take r.1 = vals.take cnt ++
          (items.filterMap (roar_tag_entry composer)).take (32 - cnt) := by
  intro items
  induction items with
  | nil =>
    intro cnt vals uuid_buf hv hu hc
    exact ⟨_, rfl, hv, hu, hc, by simp, by simp⟩
  | cons item rest ih =>
    intro cnt vals uuid_buf hv hu hc
    unfold roar_send_tag_loop
    by_cases hlt : cnt < 32
    · rw [if_pos hlt]
      have hstep : ∀ (e : roar_keyval) (v2 : List roar_keyval)
          (u2 : List (List Nat)),
          roar_tag_entry composer item = some e →
          v2 = vals.set cnt e → u2.length = 32 →
          ∃ r, roar_send_tag_loop composer rest (cnt + 1) v2 u2 = some r ∧
            r.2.1.length = 32 ∧ r.2.2.length = 32 ∧ r.1 ≤ 32 ∧
            r.1 = cnt + min (32 - cnt)
              ((item :: rest).filterMap (roar_tag_entry composer)).length ∧
            r.2.1.take r.1 = vals.take cnt ++
              ((item :: rest).filterMap
                (roar_tag_entry composer)).take (32 - cnt) := by
        intro e v2 u2 he hv2 hu2
        obtain ⟨r, h1, h2, h3, h4, h5, h6⟩ := ih (cnt + 1) v2 u2
          (by rw [hv2]; simpa using hv) hu2 (by omega)
        refine ⟨r, h1, h2, h3, h4, ?_, ?_⟩
        · rw [h5, List.filterMap_cons, he]
          simp only [List.length_cons]
          omega
        · rw [h6, List.filterMap_cons, he, hv2,
            take_set_succ vals cnt e (by omega)]
          have e32 : 32 - cnt = (32 - (cnt + 1)) + 1 := by omega
          rw [e32, List.take_succ_cons]
          simp
      rcases hconv : roar_tag_convert composer item.type with ⟨_ | key, uuid⟩
      · simp only []
        obtain ⟨r, h1, h2, h3, h4, h5, h6⟩ := ih cnt vals uuid_buf hv hu hc
        have he : roar_tag_entry composer item = none := by
          simp [roar_tag_entry, hconv]
        refine ⟨r, h1, h2, h3, h4, ?_, ?_⟩
        · rw [h5, List.filterMap_cons, he]
        · rw [h6, List.filterMap_cons, he]
      · simp only []
        cases uuid
        · simp only [Bool.false_eq_true, if_false]
          rw [if_pos (by omega)]
          exact hstep _ _ _ (by simp [roar_tag_entry, hconv]) rfl hu
        · simp only [if_true]
          rw [if_pos ⟨by omega, by omega⟩]
          exact hstep _ _ _ (by simp [roar_tag_entry, hconv]) rfl
            (by simpa using hu)
    · rw [if_neg hlt]
      have hc32 : cnt = 32 := by omega
      subst hc32
      exact ⟨_, rfl, hv, hu, le_refl _, by simp, by simp⟩

theorem int_tdiv_pos (a b : Int) (hb : 0 < b) :
    a.tdiv b = if 0 ≤ a then a / b else -((-a) / b) := by
  split_ifs with h
  · exact Int.tdiv_eq_ediv h (le_of_lt hb)
  · have h1 : a = -(-a) := (neg_neg a).symm
    rw [h1, Int.neg_tdiv, Int.tdiv_eq_ediv (by omega) (le_of_lt hb), neg_neg]

theorem int_toString_length (n : Int) (e : Nat) (he : 0 < e)
    (h1 : -(10 : Int) ^ e < n) (h2 : n < 10 ^ e) :
    (toString n).length ≤ e + 1 := by
  cases n with
  | ofNat m =>
    have hm : m < 10 ^ e := by
      have : ((m : Nat) : Int) < ((10 ^ e : Nat) : Int) := by
        push_cast
        exact h2
      exact_mod_cast this
    have := Nat.repr_length m e he hm
    show (toString m).length ≤ e + 1
    exact le_trans this (Nat.le_succ _)
  | negSucc m =>
    have hm : m + 1 < 10 ^ e := by
      have : (((m + 1 : Nat)) : Int) < ((10 ^ e : Nat) : Int) := by
        push_cast
        have h3 : Int.negSucc m = -((m : Int) + 1) := Int.negSucc_eq m
        rw [h3] at h1
        omega
      exact_mod_cast this
    have := Nat.repr_length (m + 1) e he hm
    show ("-" ++ toString (m + 1)).length ≤ e + 1
    rw [String.length_append]
    have h4 : ("-" : String).length = 1 := rfl
    have h5 : (toString (m + 1)).length = (Nat.repr (m + 1)).length := rfl
    omega

theorem format_02d_length (n : Int) (e : Nat) (he : 0 < e)
    (h1 : -(10 : Int) ^ e < n) (h2 : n < 10 ^ e) :
    (format_02d n).length ≤ e + 1 := by
  unfold format_02d
  split_ifs with h
  · have h3 : (toString n).length ≤ 1 + 1 :=
      int_toString_length n 1 (by norm_num) (by norm_num; omega)
        (by norm_num; omega)
    have h4 : (toString n).length ≤ 1 := by
      obtain ⟨m, rfl⟩ : ∃ m : Nat, n = (m : Int) := ⟨n.toNat, by omega⟩
      exact Nat.repr_length m 1 (by norm_num) (by omega)
    rw [String.length_append]
    have h5 : ("0" : String).length = 1 := rfl
    omega
  · exact int_toString_length n e he h1 h2

theorem roar_timebuf_fits (time : Int)
    (h : -(2 : Int) ^ 31 ≤ time ∧ time < 2 ^ 31) :
    snprintf 16
        (c_bytes (format_02d (time.tdiv 3600) ++ ":" ++
          format_02d ((time.tmod 3600).tdiv 60) ++ ":" ++
          format_02d (time.tmod 60)))
      = c_bytes (format_02d (time.tdiv 3600) ++ ":" ++
          format_02d ((time.tmod 3600).tdiv 60) ++ ":" ++
          format_02d (time.tmod 60)) := by
  have d1 := int_tdiv_pos time 3600 (by norm_num)
  have d2 := int_tdiv_pos time 60 (by norm_num)
  have m1 := Int.tmod_def time 3600
  have m2 := Int.tmod_def time 60
  have d3 := int_tdiv_pos (time.tmod 3600) 60 (by norm_num)
  have b1 : -(10 : Int) ^ 6 < time.tdiv 3600 ∧ time.tdiv 3600 < 10 ^ 6 := by
    rw [d1]
    split_ifs <;> norm_num <;> omega
  have b2 : -(10 : Int) ^ 4 < time.tmod 3600 ∧ time.tmod 3600 < 10 ^ 4 := by
    rw [m1, d1]
    split_ifs <;> norm_num <;> omega
  have b3 : -(10 : Int) ^ 2 < (time.tmod 3600).tdiv 60 ∧
      (time.tmod 3600).tdiv 60 < 10 ^ 2 := by
    rw [d3]
    split_ifs <;> norm_num at b2 ⊢ <;> omega
  have b4 : -(10 : Int) ^ 2 < time.tmod 60 ∧ time.tmod 60 < 10 ^ 2 := by
    rw [m2, d2]
    split_ifs <;> norm_num <;> omega
  have l1 := format_02d_length _ 6 (by norm_num) b1.1 b1.2
  have l3 := format_02d_length _ 2 (by norm_num) b3.1 b3.2
  have l4 := format_02d_length _ 2 (by norm_num) b4.1 b4.2
  have hascii : is_ascii (format_02d (time.tdiv 3600) ++ ":" ++
      format_02d ((time.tmod 3600).tdiv 60) ++ ":" ++
      format_02d (time.tmod 60)) = true :=
    is_ascii_append _ _ (is_ascii_append _ _ (is_ascii_append _ _
      (is_ascii_append _ _ (format_02d_ascii _) (by decide))
      (format_02d_ascii _)) (by decide)) (format_02d_ascii _)
  apply snprintf_fits
  rw [c_bytes_length _ hascii]
  simp only [String.length_append]
  have h5 : (":" : String).length = 1 := rfl
  omega

/-- C26: for every tag whose length is an `int`, `roar_send_tag` on a
connected output writes `vals` and `uuid_buf` inside their 32 entries only
and calls `roar_vs_meta` with a count of at most 32; the entries it counts
are `LENGTH` with the time rendered by `%02d:%02d:%02d` from `time / 3600`,
`(time % 3600) / 60` and `time % 60` (C division), followed by the items of
the tag that `roar_tag_convert` maps to a key, in their order, cut after 31.
An item without a key is skipped; a MusicBrainz id is sent under the key
`HASH` with the UUID marker before its value, the whole cut to the 63 bytes
that fit an entry of `uuid_buf`: the 6 bytes of the marker and the first 57
bytes of the value, so the value is sent whole when it has at most 57 bytes.
Without a connection nothing is sent. -/
theorem roar_send_tag_entries (composer : Bool) (self : roar) (tag_meta : tag)
    (htime : -(2 : Int) ^ 31 ≤ tag_meta.time ∧ tag_meta.time < 2 ^ 31) :
    (self.vss = none →
        roar_send_tag composer self tag_meta = some ⟨false, [], 0⟩) ∧
      (self.vss ≠ none →
        ∃ r, roar_send_tag composer self tag_meta = some r ∧
          r.sent = true ∧ r.vals.length = 32 ∧ r.cnt ≤ 32 ∧
          r.cnt = 1 + min 31
            (tag_meta.items.filterMap (roar_tag_entry composer)).length ∧
          r.vals.take r.cnt
            = ⟨some "LENGTH",
                some (c_bytes (format_02d (tag_meta.time.tdiv 3600) ++ ":" ++
                  format_02d ((tag_meta.time.tmod 3600).tdiv 60) ++ ":" ++
                  format_02d (tag_meta.time.tmod 60)))⟩ ::
              (tag_meta.items.filterMap (roar_tag_entry composer)).take 31) ∧
      (∀ item : tag_item,
        (roar_tag_entry composer item = none
          ↔ (roar_tag_convert composer item.type).1 = none) ∧
        ((roar_tag_convert composer item.type).2 = false →
          roar_tag_entry composer item
            = (roar_tag_convert composer item.type).1.map
                fun key => ⟨some key, some item.value⟩) ∧
        ((roar_tag_convert composer item.type).2 = true ↔
          item.type = TAG_MUSICBRAINZ_ARTISTID ∨
          item.type = TAG_MUSICBRAINZ_ALBUMID ∨
          item.type = TAG_MUSICBRAINZ_ALBUMARTISTID ∨
          item.type = TAG_MUSICBRAINZ_TRACKID) ∧
        ((roar_tag_convert composer item.type).2 = true →
          roar_tag_entry composer item
            = some ⟨some "HASH",
                some (snprintf 64 (c_bytes "\x7bUUID\x7d" ++ item.value))⟩ ∧
          snprintf 64 (c_bytes "\x7bUUID\x7d" ++ item.value)
            = [123, 85, 85, 73, 68, 125] ++ item.value.take 57 ∧
          (item.value.length ≤ 57 →
            snprintf 64 (c_bytes "\x7bUUID\x7d" ++ item.value)
              = c_bytes "\x7bUUID\x7d" ++ item.value))) ∧
      (0 ≤ tag_meta.time →
        tag_meta.time.tdiv 3600 = tag_meta.time / 3600 ∧
        (tag_meta.time.tmod 3600).tdiv 60 = tag_meta.time % 3600 / 60 ∧
        tag_meta.time.tmod 60 = tag_meta.time % 60) := by
  have hm : c_bytes "\x7bUUID\x7d" = [123, 85, 85, 73, 68, 125] := by decide
  refine ⟨fun h => ?_, fun h => ?_, fun item => ⟨?_, ?_, ?_, ?_⟩, fun h => ?_⟩
  · simp [roar_send_tag, h]
  · obtain ⟨c, hc⟩ := Option.ne_none_iff_exists'.mp h
    obtain ⟨r, h1, h2, _, h4, h5, h6⟩ := roar_send_tag_loop_spec composer
      tag_meta.items 1
      ((List.replicate 32 (⟨none, none⟩ : roar_keyval)).set 0
        ⟨some "LENGTH", some (snprintf 16
          (c_bytes (format_02d (tag_meta.time.tdiv 3600) ++ ":" ++
            format_02d ((tag_meta.time.tmod 3600).tdiv 60) ++ ":" ++
            format_02d (tag_meta.time.tmod 60))))⟩)
      (List.replicate 32 []) (by simp) (by simp) (by norm_num)
    refine ⟨⟨true, r.2.1, r.1⟩, ?_, rfl, h2, h4, ?_, ?_⟩
    · simp only [roar_send_tag, hc, h1]
    · simp only [h5]
    · simp only [h6]
      rw [roar_timebuf_fits tag_meta.time htime]
      rfl
  · unfold roar_tag_entry
    rcases roar_tag_convert composer item.type with ⟨_ | key, uuid⟩ <;> simp
  · intro h
    unfold roar_tag_entry
    rcases hconv : roar_tag_convert composer item.type with ⟨_ | key, uuid⟩
    · simp
    · rw [hconv] at h
      simp only [] at h
      subst h
      simp
  · rcases item with ⟨type, value⟩
    cases type <;> cases composer <;> simp [roar_tag_convert]
  · intro h
    have hkey : (roar_tag_convert composer item.type).1 = some "HASH" := by
      rcases item with ⟨type, value⟩
      cases type <;> cases composer <;> simp_all [roar_tag_convert]
    refine ⟨?_, ?_, fun hl => ?_⟩
    · unfold roar_tag_entry
      rcases hconv : roar_tag_convert composer item.type with ⟨_ | key, uuid⟩
      · rw [hconv] at hkey
        cases hkey
      · rw [hconv] at hkey h
        simp only [Option.some.injEq] at hkey h
        subst hkey h
        simp
    · rw [hm]
      simp [snprintf, List.take_append_eq_append_take]
    · apply snprintf_fits
      rw [hm, List.length_append]
      simp only [List.length_cons, List.length_nil]
      omega
  · have d1 := Int.tdiv_eq_ediv h (by norm_num : (0 : Int) ≤ 3600)
    have m1 := Int.tmod_eq_emod h (by norm_num : (0 : Int) ≤ 3600)
    have m2 := Int.tmod_eq_emod h (by norm_num : (0 : Int) ≤ 60)
    refine ⟨d1, ?_, m2⟩
    rw [m1]
    exact Int.tdiv_eq_ediv (by omega) (by norm_num)

/-- C26 at a concrete tag of 1 hour, 2 minutes and 5 seconds with an artist,
an item of a type without a key, and a MusicBrainz track id. -/
theorem roar_send_tag_entries_witness :
    let self : roar := ⟨some 1, 0, 0, ⟨0, 0, 0, 0⟩, true⟩
    let tag_meta : tag :=
      ⟨3725, [⟨TAG_ARTIST, c_bytes "a"⟩, ⟨tag_type.other 40, c_bytes "x"⟩,
        ⟨TAG_MUSICBRAINZ_TRACKID, c_bytes "1234"⟩]⟩
    (self.vss = none →
        roar_send_tag true self tag_meta = some ⟨false, [], 0⟩) ∧
      (self.vss ≠ none →
        ∃ r, roar_send_tag true self tag_meta = some r ∧
          r.sent = true ∧ r.vals.length = 32 ∧ r.cnt ≤ 32 ∧
          r.cnt = 1 + min 31
            (tag_meta.items.filterMap (roar_tag_entry true)).length ∧
          r.vals.take r.cnt
            = ⟨some "LENGTH",
                some (c_bytes (format_02d (tag_meta.time.tdiv 3600) ++ ":" ++
                  format_02d ((tag_meta.time.tmod 3600).tdiv 60) ++ ":" ++
                  format_02d (tag_meta.time.tmod 60)))⟩ ::
              (tag_meta.items.filterMap (roar_tag_entry true)).take 31) ∧
      (∀ item : tag_item,
        (roar_tag_entry true item = none
          ↔ (roar_tag_convert true item.type).1 = none) ∧
        ((roar_tag_convert true item.type).2 = false →
          roar_tag_entry true item
            = (roar_tag_convert true item.type).1.map
                fun key => ⟨some key, some item.value⟩) ∧
        ((roar_tag_convert true item.type).2 = true ↔
          item.type = TAG_MUSICBRAINZ_ARTISTID ∨
          item.type = TAG_MUSICBRAINZ_ALBUMID ∨
          item.type = TAG_MUSICBRAINZ_ALBUMARTISTID ∨
          item.type = TAG_MUSICBRAINZ_TRACKID) ∧
        ((roar_tag_convert true item.type).2 = true →
          roar_tag_entry true item
            = some ⟨some "HASH",
                some (snprintf 64 (c_bytes "\x7bUUID\x7d" ++ item.value))⟩ ∧
          snprintf 64 (c_bytes "\x7bUUID\x7d" ++ item.value)
            = [123, 85, 85, 73, 68, 125] ++ item.value.take 57 ∧
          (item.value.length ≤ 57 →
            snprintf 64 (c_bytes "\x7bUUID\x7d" ++ item.value)
              = c_bytes "\x7bUUID\x7d" ++ item.value))) ∧
      (0 ≤ tag_meta.time →
        tag_meta.time.tdiv 3600 = tag_meta.time / 3600 ∧
        (tag_meta.time.tmod 3600).tdiv 60 = tag_meta.time % 3600 / 60 ∧
        tag_meta.time.tmod 60 = tag_meta.time % 60) :=
  roar_send_tag_entries true ⟨some 1, 0, 0, ⟨0, 0, 0, 0⟩, true⟩
    ⟨3725, [⟨TAG_ARTIST, c_bytes "a"⟩, ⟨tag_type.other 40, c_bytes "x"⟩,
      ⟨TAG_MUSICBRAINZ_TRACKID, c_bytes "1234"⟩]⟩ (by decide)

/-- What is sent for concrete tags: the length first, then the artist and
the MusicBrainz track id, the item without a key skipped; of 40 titles the
first 31 are sent, 32 pairs in all; an unknown length of -1 is rendered as
the code renders it; a MusicBrainz id of 56 letters followed by a character
of two bytes (195, 169) is cut after the first of the two bytes, the 63rd of
the entry. -/
theorem roar_send_tag_example :
    (roar_send_tag true ⟨some 1, 0, 0, ⟨0, 0, 0, 0⟩, true⟩
        ⟨3725, [⟨TAG_ARTIST, c_bytes "a"⟩, ⟨tag_type.other 40, c_bytes "x"⟩,
          ⟨TAG_MUSICBRAINZ_TRACKID, c_bytes "1234"⟩]⟩).map
        (fun r => (r.sent, r.cnt, r.vals.take r.cnt))
      = some (true, 3,
          [⟨some "LENGTH", some (c_bytes "01:02:05")⟩,
            ⟨some "AUTHOR", some (c_bytes "a")⟩,
            ⟨some "HASH", some (c_bytes "\x7bUUID\x7d1234")⟩]) ∧
      (roar_send_tag true ⟨some 1, 0, 0, ⟨0, 0, 0, 0⟩, true⟩
        ⟨60, List.replicate 40 ⟨TAG_TITLE, c_bytes "t"⟩⟩).map
        (fun r => (r.sent, r.cnt, r.vals.length,
          r.vals.map fun v => v.key))
      = some (true, 32, 32,
          some "LENGTH" :: List.replicate 31 (some "TITLE")) ∧
      (roar_send_tag false ⟨some 1, 0, 0, ⟨0, 0, 0, 0⟩, true⟩
        ⟨-1, [⟨TAG_COMPOSER, c_bytes "c"⟩]⟩).map
        (fun r => r.vals.take r.cnt)
      = some [⟨some "LENGTH", some (c_bytes "00:00:-1")⟩,
          ⟨some "AUTHOR", some (c_bytes "c")⟩] ∧
      (roar_send_tag true ⟨some 1, 0, 0, ⟨0, 0, 0, 0⟩, true⟩
        ⟨0, [⟨TAG_MUSICBRAINZ_ALBUMID,
          List.replicate 56 97 ++ [195, 169]⟩]⟩).map
        (fun r => r.vals.take r.cnt)
      = some [⟨some "LENGTH", some (c_bytes "00:00:00")⟩,
          ⟨some "HASH", some (c_bytes "\x7bUUID\x7d" ++
            List.replicate 56 97 ++ [195])⟩] ∧
      roar_send_tag true ⟨none, 0, 0, ⟨0, 0, 0, 0⟩, false⟩
        ⟨60, [⟨TAG_TITLE, c_bytes "t"⟩]⟩ = some ⟨false, [], 0⟩ := by
  decide

end MPD
